import Mathlib

/-!
# Customer form: CPF validator, collection operations and validation pipeline

A shallow embedding of the front-end sources

* `src/frontend/src/utils/cpfValidator.js`
* `src/frontend/src/utils/formValidator.js`
* `src/frontend/src/hooks/useClienteForm.js`

JavaScript strings are embedded as Lean `String`s and processed as lists of
characters.  Every character class used by the sources (`\d`, `\D`, `\s`, `@`, `.`)
lies in the Basic Multilingual Plane, so a character outside of it behaves like any
other non-digit, non-blank character, whether it is counted once (Lean) or as two
UTF-16 units (JavaScript).  Array indices are natural numbers.
-/

namespace ClienteForm

/-! ## JavaScript primitives used by the sources -/

/-- The regular-expression class `\d` (without the unicode flag): `0`..`9`. -/
def isDigit (c : Char) : Bool := 48 ≤ c.toNat && c.toNat ≤ 57

/-- The call `s.replace(/\D/g, '')`: every character that is not a digit is removed. -/
def stripNonDigits (s : String) : List Char := s.toList.filter isDigit

/-- The call `parseInt(c)` for a one-character string holding a digit. -/
def parseInt (c : Char) : Nat := c.toNat - 48

/-- The call `parseInt(cpf.substring(i - 1, i))`: the numeric value of the character at
position `i - 1`.  It is only evaluated after the length test, where the position
exists; the fallback `0` is never reached from `validarCPF`. -/
def digitAt (cpf : List Char) (i : Nat) : Nat :=
  match cpf.get? (i - 1) with
  | some c => parseInt c
  | none => 0

/-- The test `/^(\d)\1{10}$/.test(cpf)`: one digit followed by ten copies of itself. -/
def isRepeatedDigit (cpf : List Char) : Bool :=
  match cpf with
  | [] => false
  | c :: rest => isDigit c && rest.length == 10 && rest.all (fun x => x == c)

/-- The loop `for (let i = 1; i <= n; i++) soma += parseInt(cpf.substring(i - 1, i)) * (w - i)`
started from `soma = 0`. -/
def somaLoop (cpf : List Char) (n w : Nat) : Nat :=
  (List.range' 1 n).foldl (fun soma i => soma + digitAt cpf i * (w - i)) 0

/-- The two statements `resto = (soma * 10) % 11; if (resto === 10 || resto === 11) resto = 0`. -/
def restoDe (soma : Nat) : Nat :=
  let resto := (soma * 10) % 11
  if resto == 10 || resto == 11 then 0 else resto

/-- The function `validarCPF` of `cpfValidator.js`. -/
def validarCPF (cpf : String) : Bool :=
  let cpf := stripNonDigits cpf
  if cpf.length != 11 || isRepeatedDigit cpf then false
  else
    let soma := somaLoop cpf 9 11
    let resto := restoDe soma
    if resto != digitAt cpf 10 then false
    else
      let soma := somaLoop cpf 10 12
      let resto := restoDe soma
      if resto != digitAt cpf 11 then false
      else true

/-! ### The two-checksum rule as the specification words it -/

/-- Numeric value of the digit at (0-based) position `i` of a digit string. -/
def digitValue (d : List Char) (i : Nat) : Nat := ((d.get? i).map parseInt).getD 0

/-- A remainder of 10 or 11 is replaced by 0. -/
def tenOrElevenToZero (r : Nat) : Nat := if r = 10 ∨ r = 11 then 0 else r

/-- First check digit: `((sum over i in 0..8 of d[i] * (10 - i)) * 10) mod 11`, with 10 or 11
replaced by 0. -/
def checkDigit1 (d : List Char) : Nat :=
  tenOrElevenToZero (((∑ i in Finset.range 9, digitValue d i * (10 - i)) * 10) % 11)

/-- Second check digit: `((sum over i in 0..9 of d[i] * (11 - i)) * 10) mod 11`, with 10 or 11
replaced by 0. -/
def checkDigit2 (d : List Char) : Nat :=
  tenOrElevenToZero (((∑ i in Finset.range 10, digitValue d i * (11 - i)) * 10) % 11)


/-! ## Form state of `useClienteForm.js` -/

/-- An entry of `formData.telefones`. -/
structure Telefone where
  numero : String
  tipo : String
  principal : Bool
  deriving DecidableEq, Repr

/-- An entry of `formData.emails`. -/
structure Email where
  enderecoEmail : String
  principal : Bool
  deriving DecidableEq, Repr

/-- The object `formData.endereco`. -/
structure Endereco where
  cep : String
  logradouro : String
  numero : String
  complemento : String
  bairro : String
  cidade : String
  uf : String
  deriving DecidableEq, Repr

/-- The state `formData` held by the hook. -/
structure FormData where
  nome : String
  cpf : String
  dataNascimento : String
  endereco : Endereco
  telefones : List Telefone
  emails : List Email
  deriving DecidableEq, Repr

/-- The constant `initialFormState`. -/
def initialFormState : FormData where
  nome := ""
  cpf := ""
  dataNascimento := ""
  endereco :=
    { cep := "", logradouro := "", numero := "", complemento := "", bairro := "",
      cidade := "", uf := "" }
  telefones := [{ numero := "", tipo := "CELULAR", principal := true }]
  emails := [{ enderecoEmail := "", principal := true }]

/-- Property names of a phone entry, as passed in the `field` argument. -/
inductive TelefoneCampo where
  | numero
  | tipo
  | principal
  deriving DecidableEq, Repr

/-- Type of the value stored under a property of a phone entry. -/
def TelefoneCampo.Valor : TelefoneCampo → Type
  | .numero => String
  | .tipo => String
  | .principal => Bool

/-- Property read `tel[field]`. -/
def Telefone.get (tel : Telefone) : (field : TelefoneCampo) → field.Valor
  | .numero => tel.numero
  | .tipo => tel.tipo
  | .principal => tel.principal

/-- The object `{ ...tel, [field]: value }`. -/
def Telefone.set (tel : Telefone) : (field : TelefoneCampo) → field.Valor → Telefone
  | .numero, value => { tel with numero := value }
  | .tipo, value => { tel with tipo := value }
  | .principal, value => { tel with principal := value }

/-- Property names of an e-mail entry, as passed in the `field` argument. -/
inductive EmailCampo where
  | enderecoEmail
  | principal
  deriving DecidableEq, Repr

/-- Type of the value stored under a property of an e-mail entry. -/
def EmailCampo.Valor : EmailCampo → Type
  | .enderecoEmail => String
  | .principal => Bool

/-- Property read `email[field]`. -/
def Email.get (email : Email) : (field : EmailCampo) → field.Valor
  | .enderecoEmail => email.enderecoEmail
  | .principal => email.principal

/-- The object `{ ...email, [field]: value }`. -/
def Email.set (email : Email) : (field : EmailCampo) → field.Valor → Email
  | .enderecoEmail, value => { email with enderecoEmail := value }
  | .principal, value => { email with principal := value }

/-- `Array.prototype.map` with the two-argument callback `(x, i) => f x i`; the first
position carries index `k`. -/
def mapFrom {α β : Type} (f : α → Nat → β) : Nat → List α → List β
  | _, [] => []
  | k, x :: xs => f x k :: mapFrom f (k + 1) xs

/-- The call `xs.map((x, i) => f x i)`. -/
def arrayMap {α β : Type} (f : α → Nat → β) (xs : List α) : List β := mapFrom f 0 xs

/-- `Array.prototype.filter` with the two-argument callback `(x, i) => p x i`; the first
position carries index `k`. -/
def filterFrom {α : Type} (p : α → Nat → Bool) : Nat → List α → List α
  | _, [] => []
  | k, x :: xs => if p x k then x :: filterFrom p (k + 1) xs else filterFrom p (k + 1) xs

/-- The call `xs.filter((x, i) => p x i)`. -/
def arrayFilter {α : Type} (p : α → Nat → Bool) (xs : List α) : List α := filterFrom p 0 xs

/-- The updater of `addTelefone`. -/
def addTelefone (prev : FormData) : FormData :=
  { prev with
    telefones := prev.telefones ++ [{ numero := "", tipo := "CELULAR", principal := false }] }

/-- The updater of `removeTelefone(index)`. -/
def removeTelefone (index : Nat) (prev : FormData) : FormData :=
  { prev with telefones := arrayFilter (fun _ i => i != index) prev.telefones }

/-- The updater of `handleTelefoneChange(index, field, value)`. -/
def handleTelefoneChange (index : Nat) (field : TelefoneCampo) (value : field.Valor)
    (prev : FormData) : FormData :=
  { prev with
    telefones :=
      arrayMap (fun tel i => if i == index then tel.set field value else tel) prev.telefones }

/-- The updater of `handleTelefonePrincipalChange(index)`. -/
def handleTelefonePrincipalChange (index : Nat) (prev : FormData) : FormData :=
  { prev with
    telefones := arrayMap (fun tel i => { tel with principal := i == index }) prev.telefones }

/-- The updater of `addEmail`. -/
def addEmail (prev : FormData) : FormData :=
  { prev with emails := prev.emails ++ [{ enderecoEmail := "", principal := false }] }

/-- The updater of `removeEmail(index)`. -/
def removeEmail (index : Nat) (prev : FormData) : FormData :=
  { prev with emails := arrayFilter (fun _ i => i != index) prev.emails }

/-- The updater of `handleEmailChange(index, field, value)`. -/
def handleEmailChange (index : Nat) (field : EmailCampo) (value : field.Valor)
    (prev : FormData) : FormData :=
  { prev with
    emails :=
      arrayMap (fun email i => if i == index then email.set field value else email) prev.emails }

/-- The updater of `handleEmailPrincipalChange(index)`. -/
def handleEmailPrincipalChange (index : Nat) (prev : FormData) : FormData :=
  { prev with
    emails := arrayMap (fun email i => { email with principal := i == index }) prev.emails }

/-! ## Validation pipeline of `formValidator.js` -/

/-- The class `\s` of regular expressions, which is also the set of characters removed by
`String.prototype.trim`: the ECMAScript white space and line terminator code points. -/
def isWhiteSpace (c : Char) : Bool :=
  let n := c.toNat
  n == 0x09 || n == 0x0A || n == 0x0B || n == 0x0C || n == 0x0D || n == 0x20 || n == 0xA0 ||
  n == 0x1680 || (0x2000 ≤ n && n ≤ 0x200A) || n == 0x2028 || n == 0x2029 || n == 0x202F ||
  n == 0x205F || n == 0x3000 || n == 0xFEFF

/-- The method `s.trim()`: white space is removed from both ends. -/
def trim (s : String) : String :=
  String.mk (((s.toList.dropWhile isWhiteSpace).reverse.dropWhile isWhiteSpace).reverse)

/-- Truthiness of a value that is a string or missing (`undefined` / `null`): only a
non-empty string is truthy. -/
def isTruthy (v : Option String) : Bool :=
  match v with
  | none => false
  | some s => !s.toList.isEmpty

/-- Regular expressions without captures, enough for the anchored patterns of the sources. -/
inductive RegExp where
  | fail
  | eps
  | cls (p : Char → Bool)
  | seq (a b : RegExp)
  | alt (a b : RegExp)
  | star (a : RegExp)

/-- Whether the expression matches the empty string. -/
def RegExp.nullable : RegExp → Bool
  | .fail => false
  | .eps => true
  | .cls _ => false
  | .seq a b => a.nullable && b.nullable
  | .alt a b => a.nullable || b.nullable
  | .star _ => true

/-- The expression matching what remains after the character `c` has been consumed. -/
def RegExp.deriv (c : Char) : RegExp → RegExp
  | .fail => .fail
  | .eps => .fail
  | .cls p => if p c then .eps else .fail
  | .seq a b => if a.nullable then .alt (.seq (a.deriv c) b) (b.deriv c) else .seq (a.deriv c) b
  | .alt a b => .alt (a.deriv c) (b.deriv c)
  | .star a => .seq (a.deriv c) (.star a)

/-- The quantifier `+`. -/
def RegExp.plus (a : RegExp) : RegExp := .seq a (.star a)

/-- The call `/^r$/.test(s)`: the whole string is matched by `r`. -/
def RegExp.test (r : RegExp) (s : String) : Bool :=
  (s.toList.foldl (fun r c => r.deriv c) r).nullable

/-- The class `[^\s@]`. -/
def notSpaceNorAt (c : Char) : Bool := !(isWhiteSpace c || c == '@')

/-- The pattern `[^\s@]+@[^\s@]+\.[^\s@]+` between the anchors of `emailRegex`. -/
def emailRegex : RegExp :=
  .seq (RegExp.plus (.cls notSpaceNorAt))
    (.seq (.cls (fun c => c == '@'))
      (.seq (RegExp.plus (.cls notSpaceNorAt))
        (.seq (.cls (fun c => c == '.')) (RegExp.plus (.cls notSpaceNorAt)))))

/-- The object `errors`: property names with their messages, in insertion order. -/
abbrev Errors := List (String × String)

/-- The assignment `errors[key] = value`: an existing property is overwritten in place, a new
one is added last. -/
def Errors.set (errors : Errors) (key value : String) : Errors :=
  if errors.any (fun kv => kv.1 == key) then
    errors.map (fun kv => if kv.1 == key then (key, value) else kv)
  else errors ++ [(key, value)]

/-- The property read `errors[key]`; `none` stands for `undefined`. -/
def Errors.get? (errors : Errors) (key : String) : Option String := List.lookup key errors

/-- The list `Object.keys(errors)`. -/
def Errors.keys (errors : Errors) : List String := errors.map Prod.fst

/-- The object `formData.endereco` as `validateClienteForm` receives it: any property may be
missing. -/
structure EnderecoArg where
  cep : Option String
  logradouro : Option String
  numero : Option String
  complemento : Option String
  bairro : Option String
  cidade : Option String
  uf : Option String

/-- The argument of `validateClienteForm`: any property may be missing. -/
structure FormDataArg where
  nome : Option String
  cpf : Option String
  dataNascimento : Option String
  endereco : Option EnderecoArg
  telefones : Option (List Telefone)
  emails : Option (List Email)

/-- The hook state seen as an argument of `validateClienteForm`: every property is there. -/
def FormData.toArg (formData : FormData) : FormDataArg where
  nome := some formData.nome
  cpf := some formData.cpf
  dataNascimento := some formData.dataNascimento
  endereco := some
    { cep := some formData.endereco.cep
      logradouro := some formData.endereco.logradouro
      numero := some formData.endereco.numero
      complemento := some formData.endereco.complemento
      bairro := some formData.endereco.bairro
      cidade := some formData.endereco.cidade
      uf := some formData.endereco.uf }
  telefones := some formData.telefones
  emails := some formData.emails

/-- `Array.prototype.forEach` with the two-argument callback `(x, i) => ...` acting on the
state `st`; the first position carries index `k`. -/
def forEachFrom {α σ : Type} (f : σ → α → Nat → σ) : Nat → List α → σ → σ
  | _, [], st => st
  | k, x :: xs, st => forEachFrom f (k + 1) xs (f st x k)

/-- The call `xs.forEach((x, i) => ...)`. -/
def arrayForEach {α σ : Type} (f : σ → α → Nat → σ) (xs : List α) (st : σ) : σ :=
  forEachFrom f 0 xs st

/-- The callback of `formData.telefones.forEach`, acting on `errors`. -/
def telefoneForEach (errors : Errors) (telefone : Telefone) (index : Nat) : Errors :=
  let numeroLimpo := stripNonDigits telefone.numero
  if numeroLimpo.length < 10 then
    errors.set ("telefone_" ++ toString index) "Telefone deve ter no mínimo 10 dígitos"
  else errors

/-- The callback of `formData.emails.forEach`, acting on `errors`. -/
def emailForEach (errors : Errors) (email : Email) (index : Nat) : Errors :=
  if !emailRegex.test email.enderecoEmail then
    errors.set ("email_" ++ toString index) "E-mail inválido"
  else errors

/-- The function `validateClienteForm` of `formValidator.js`.  In the `else if` of the CPF
rule the property is a string, since a missing one took the first branch. -/
def validateClienteForm (formData : FormDataArg) : Errors :=
  let errors : Errors := []
  let errors :=
    if !isTruthy (formData.nome.map trim) then errors.set "nome" "Nome é obrigatório"
    else errors
  let errors :=
    if !isTruthy (formData.cpf.map trim) then errors.set "cpf" "CPF é obrigatório"
    else if !validarCPF (formData.cpf.getD "") then errors.set "cpf" "CPF inválido"
    else errors
  let errors :=
    if !isTruthy formData.dataNascimento then
      errors.set "dataNascimento" "Data de nascimento é obrigatória"
    else errors
  let errors :=
    if !isTruthy ((formData.endereco.bind (fun e => e.cep)).map trim) then
      errors.set "cep" "CEP é obrigatório"
    else errors
  let errors :=
    if !isTruthy ((formData.endereco.bind (fun e => e.logradouro)).map trim) then
      errors.set "logradouro" "Logradouro é obrigatório"
    else errors
  let errors :=
    if !isTruthy ((formData.endereco.bind (fun e => e.numero)).map trim) then
      errors.set "numero" "Número é obrigatório"
    else errors
  let errors :=
    if !isTruthy ((formData.endereco.bind (fun e => e.bairro)).map trim) then
      errors.set "bairro" "Bairro é obrigatório"
    else errors
  let errors :=
    if !isTruthy ((formData.endereco.bind (fun e => e.cidade)).map trim) then
      errors.set "cidade" "Cidade é obrigatória"
    else errors
  let errors :=
    if !isTruthy ((formData.endereco.bind (fun e => e.uf)).map trim) then
      errors.set "uf" "UF é obrigatório"
    else errors
  let errors :=
    match formData.telefones with
    | none => errors.set "telefones" "Adicione pelo menos um telefone"
    | some telefones =>
      if telefones.length == 0 then errors.set "telefones" "Adicione pelo menos um telefone"
      else arrayForEach telefoneForEach telefones errors
  let errors :=
    match formData.emails with
    | none => errors.set "emails" "Adicione pelo menos um e-mail"
    | some emails =>
      if emails.length == 0 then errors.set "emails" "Adicione pelo menos um e-mail"
      else arrayForEach emailForEach emails errors
  errors

/-! ### The three parts of `validateClienteForm`, named for the proofs -/

/-- Lines 11-49 of `validateClienteForm`: the rules on `nome`, `cpf`, `dataNascimento` and the
six required address fields, started from the empty object. -/
def scalarRules (formData : FormDataArg) : Errors :=
  let errors : Errors := []
  let errors :=
    if !isTruthy (formData.nome.map trim) then errors.set "nome" "Nome é obrigatório"
    else errors
  let errors :=
    if !isTruthy (formData.cpf.map trim) then errors.set "cpf" "CPF é obrigatório"
    else if !validarCPF (formData.cpf.getD "") then errors.set "cpf" "CPF inválido"
    else errors
  let errors :=
    if !isTruthy formData.dataNascimento then
      errors.set "dataNascimento" "Data de nascimento é obrigatória"
    else errors
  let errors :=
    if !isTruthy ((formData.endereco.bind (fun e => e.cep)).map trim) then
      errors.set "cep" "CEP é obrigatório"
    else errors
  let errors :=
    if !isTruthy ((formData.endereco.bind (fun e => e.logradouro)).map trim) then
      errors.set "logradouro" "Logradouro é obrigatório"
    else errors
  let errors :=
    if !isTruthy ((formData.endereco.bind (fun e => e.numero)).map trim) then
      errors.set "numero" "Número é obrigatório"
    else errors
  let errors :=
    if !isTruthy ((formData.endereco.bind (fun e => e.bairro)).map trim) then
      errors.set "bairro" "Bairro é obrigatório"
    else errors
  let errors :=
    if !isTruthy ((formData.endereco.bind (fun e => e.cidade)).map trim) then
      errors.set "cidade" "Cidade é obrigatória"
    else errors
  let errors :=
    if !isTruthy ((formData.endereco.bind (fun e => e.uf)).map trim) then
      errors.set "uf" "UF é obrigatório"
    else errors
  errors

/-- Lines 51-61 of `validateClienteForm`: the phone rule, acting on the errors so far. -/
def telefonesRule (telefones : Option (List Telefone)) (errors : Errors) : Errors :=
  match telefones with
  | none => errors.set "telefones" "Adicione pelo menos um telefone"
  | some telefones =>
    if telefones.length == 0 then errors.set "telefones" "Adicione pelo menos um telefone"
    else arrayForEach telefoneForEach telefones errors

/-- Lines 63-73 of `validateClienteForm`: the e-mail rule, acting on the errors so far. -/
def emailsRule (emails : Option (List Email)) (errors : Errors) : Errors :=
  match emails with
  | none => errors.set "emails" "Adicione pelo menos um e-mail"
  | some emails =>
    if emails.length == 0 then errors.set "emails" "Adicione pelo menos um e-mail"
    else arrayForEach emailForEach emails errors

/-- The keys written by `scalarRules`. -/
def scalarKeys : List String :=
  ["nome", "cpf", "dataNascimento", "cep", "logradouro", "numero", "bairro", "cidade", "uf"]

/-! ### Words of the specification on the validation pipeline -/

/-- A value that is absent, empty or whitespace-only: it is missing, or it is a string all of
whose characters (if any) are white space. -/
def IsBlank (v : Option String) : Prop :=
  match v with
  | none => True
  | some s => ∀ c ∈ s.toList, isWhiteSpace c = true

/-- The error map holds the key. -/
def Errors.has (errors : Errors) (key : String) : Prop := key ∈ errors.keys

/-- The scalar fields satisfy their rules: name and the six required address fields are not
blank, the CPF is a string accepted by `validarCPF`, the birth date is a non-empty string. -/
def ScalarsValid (f : FormDataArg) : Prop :=
  ¬ IsBlank f.nome ∧
  (∃ cpf, f.cpf = some cpf ∧ validarCPF cpf = true) ∧
  (f.dataNascimento ≠ none ∧ f.dataNascimento ≠ some "") ∧
  ¬ IsBlank (f.endereco.bind (fun e => e.cep)) ∧
  ¬ IsBlank (f.endereco.bind (fun e => e.logradouro)) ∧
  ¬ IsBlank (f.endereco.bind (fun e => e.numero)) ∧
  ¬ IsBlank (f.endereco.bind (fun e => e.bairro)) ∧
  ¬ IsBlank (f.endereco.bind (fun e => e.cidade)) ∧
  ¬ IsBlank (f.endereco.bind (fun e => e.uf))

/-- The phones satisfy their rule: a non-empty list whose numbers all hold at least 10
digits. -/
def TelefonesValid (f : FormDataArg) : Prop :=
  ∃ l, f.telefones = some l ∧ l ≠ [] ∧ ∀ t ∈ l, 10 ≤ (stripNonDigits t.numero).length

/-- The e-mails satisfy their rule: a non-empty list whose addresses all pass the pattern. -/
def EmailsValid (f : FormDataArg) : Prop :=
  ∃ l, f.emails = some l ∧ l ≠ [] ∧ ∀ e ∈ l, emailRegex.test e.enderecoEmail = true

/-- The strings an expression matches as a whole (the meaning of `/^r$/`), by the structure
of the expression. -/
def RegExp.Lang : RegExp → List Char → Prop
  | .fail, _ => False
  | .eps, s => s = []
  | .cls p, s => ∃ c, s = [c] ∧ p c = true
  | .seq a b, s => ∃ u v, s = u ++ v ∧ a.Lang u ∧ b.Lang v
  | .alt a b, s => a.Lang s ∨ b.Lang s
  | .star a, s => ∃ pieces : List (List Char),
      s = pieces.foldr (fun u acc => u ++ acc) [] ∧ ∀ u ∈ pieces, a.Lang u

/-- The shape `a@b.c` of the specification: `a`, `b` and `c` are non-empty and hold no
whitespace character and no `@`. -/
def EmailShape (s : String) : Prop :=
  ∃ a b c : List Char, s.toList = a ++ '@' :: (b ++ '.' :: c) ∧
    a ≠ [] ∧ b ≠ [] ∧ c ≠ [] ∧
    (∀ x ∈ a, isWhiteSpace x = false ∧ x ≠ '@') ∧
    (∀ x ∈ b, isWhiteSpace x = false ∧ x ≠ '@') ∧
    (∀ x ∈ c, isWhiteSpace x = false ∧ x ≠ '@')

/-- A required text field of `y` repairs that of `x`: when its key was reported it is no
longer blank, otherwise it is unchanged. -/
def RepairsField (reported : Prop) (vx vy : Option String) : Prop :=
  (reported → ¬ IsBlank vy) ∧ (¬ reported → vy = vx)

/-- The form `y` is the form `x` with only the fields reported by `validateClienteForm x`
changed, each to a value satisfying its own rule.  A reported list (`telefones`, `emails`)
becomes a non-empty list of valid items; in a list that was not reported the items keep
their positions, a reported item (`telefone_<i>`, `email_<i>`) becomes valid and any other
item keeps its number or address.  Properties no rule reads (`complemento`, `tipo`,
`principal`) are left free. -/
structure Repairs (x y : FormDataArg) : Prop where
  nome : RepairsField ((validateClienteForm x).has "nome") x.nome y.nome
  cpf_reported : (validateClienteForm x).has "cpf" →
    ∃ cpf, y.cpf = some cpf ∧ validarCPF cpf = true
  cpf_kept : ¬ (validateClienteForm x).has "cpf" → y.cpf = x.cpf
  dataNascimento_reported : (validateClienteForm x).has "dataNascimento" →
    y.dataNascimento ≠ none ∧ y.dataNascimento ≠ some ""
  dataNascimento_kept : ¬ (validateClienteForm x).has "dataNascimento" →
    y.dataNascimento = x.dataNascimento
  cep : RepairsField ((validateClienteForm x).has "cep")
    (x.endereco.bind (fun e => e.cep)) (y.endereco.bind (fun e => e.cep))
  logradouro : RepairsField ((validateClienteForm x).has "logradouro")
    (x.endereco.bind (fun e => e.logradouro)) (y.endereco.bind (fun e => e.logradouro))
  numero : RepairsField ((validateClienteForm x).has "numero")
    (x.endereco.bind (fun e => e.numero)) (y.endereco.bind (fun e => e.numero))
  bairro : RepairsField ((validateClienteForm x).has "bairro")
    (x.endereco.bind (fun e => e.bairro)) (y.endereco.bind (fun e => e.bairro))
  cidade : RepairsField ((validateClienteForm x).has "cidade")
    (x.endereco.bind (fun e => e.cidade)) (y.endereco.bind (fun e => e.cidade))
  uf : RepairsField ((validateClienteForm x).has "uf")
    (x.endereco.bind (fun e => e.uf)) (y.endereco.bind (fun e => e.uf))
  telefones_reported : (validateClienteForm x).has "telefones" → TelefonesValid y
  telefones_kept : ¬ (validateClienteForm x).has "telefones" →
    ∀ lx, x.telefones = some lx →
      ∃ ly, y.telefones = some ly ∧ ly.length = lx.length ∧
        ∀ (i : Nat) (tx ty : Telefone), lx[i]? = some tx → ly[i]? = some ty →
          ((validateClienteForm x).has ("telefone_" ++ toString i) →
            10 ≤ (stripNonDigits ty.numero).length) ∧
          (¬ (validateClienteForm x).has ("telefone_" ++ toString i) →
            ty.numero = tx.numero)
  emails_reported : (validateClienteForm x).has "emails" → EmailsValid y
  emails_kept : ¬ (validateClienteForm x).has "emails" →
    ∀ lx, x.emails = some lx →
      ∃ ly, y.emails = some ly ∧ ly.length = lx.length ∧
        ∀ (i : Nat) (ex ey : Email), lx[i]? = some ex → ly[i]? = some ey →
          ((validateClienteForm x).has ("email_" ++ toString i) →
            emailRegex.test ey.enderecoEmail = true) ∧
          (¬ (validateClienteForm x).has ("email_" ++ toString i) →
            ey.enderecoEmail = ex.enderecoEmail)

/-! ## Submission: `handleSubmit` of `useClienteForm.js` and its trigger in `ClienteModal` -/

/-- The state `errors` of the hook: an object whose properties hold a message or
`undefined` (`none`). -/
abbrev ErrorsState := List (String × Option String)

/-- The validation result stored as the state `errors`: the same keys with the same messages. -/
def Errors.toState (errors : Errors) : ErrorsState := errors.map (fun kv => (kv.1, some kv.2))

/-- The three pieces of state of `useClienteForm`. -/
structure HookState where
  formData : FormData
  errors : ErrorsState
  loading : Bool

/-- The body `error.response.data` of a failed request. -/
structure ResponseData where
  message : Option String
  error : Option String

/-- The object `error.response`. -/
structure Response where
  status : Nat
  data : Option ResponseData

/-- The error a rejected `clienteService.create` / `clienteService.update` carries; a network
failure has no `response`. -/
structure ServiceError where
  response : Option Response

/-- How the awaited `clienteService` call ends. -/
inductive ServiceOutcome where
  | resolved
  | rejected (error : ServiceError)

/-- The observable steps of one run of `handleSubmit`, in program order. -/
inductive Effect where
  | preventDefault
  | setErrors (errors : ErrorsState)
  | setLoading (loading : Bool)
  | toastError (message : String)
  | toastSuccess (message : String)
  | serviceCreate (formData : FormData)
  | serviceUpdate (id : Nat) (formData : FormData)
  | onSuccess
  | onClose
  | consoleError
  | typeError
  deriving DecidableEq

/-- The state after the setter calls among the effects have been applied in order. -/
def applyEffects (s : HookState) (effects : List Effect) : HookState :=
  effects.foldl (fun st e =>
    match e with
    | .setErrors errors => { st with errors := errors }
    | .setLoading loading => { st with loading := loading }
    | _ => st) s

/-- The expression `a || b` on values that are a string or missing. -/
def orElse (a b : Option String) : Option String := if isTruthy a then a else b

/-- The method `s.includes(sub)`. -/
def includes (s sub : String) : Bool := s.toList.tails.any (fun t => sub.toList.isPrefixOf t)

/-- The `catch` block of `handleSubmit`.  Reading `error.response.data.message` when the
response has no `data` raises a `TypeError`, which ends the block. -/
def catchBlock (error : ServiceError) : List Effect :=
  if error.response.map (fun r => r.status) == some 400 then
    match error.response.bind (fun r => r.data) with
    | none => [.typeError]
    | some data =>
      let serverErrors : Errors := []
      let errorMessage := orElse data.message data.error
      if isTruthy errorMessage then
        if includes (errorMessage.getD "") "CPF" then
          let serverErrors := serverErrors.set "cpf" (errorMessage.getD "")
          [.setErrors serverErrors.toState, .consoleError]
        else if includes (errorMessage.getD "") "CEP" then
          let serverErrors := serverErrors.set "cep" (errorMessage.getD "")
          [.setErrors serverErrors.toState, .consoleError]
        else
          [.toastError (errorMessage.getD ""), .setErrors serverErrors.toState, .consoleError]
      else
        [.setErrors serverErrors.toState, .consoleError]
  else
    [.toastError "Erro ao salvar cliente", .consoleError]

/-- The effects of `handleSubmit`.  `clienteId` is `clienteInicial?.id` (a missing client or
a missing or zero id is falsy), `onSuccess` / `onClose` tell whether the callbacks were given
(they are taken to return normally), `outcome` is how the awaited service call ends. -/
def handleSubmitEffects (clienteId : Option Nat) (onSuccess onClose : Bool)
    (outcome : ServiceOutcome) (s : HookState) : List Effect :=
  let validationErrors := validateClienteForm s.formData.toArg
  if validationErrors.keys.length > 0 then
    [.preventDefault, .setErrors validationErrors.toState,
      .toastError "Corrija os erros do formulário"]
  else
    let isUpdate := (clienteId.getD 0) != 0
    let tryBlock : List Effect :=
      match outcome with
      | .resolved =>
        (if isUpdate then
          [.serviceUpdate (clienteId.getD 0) s.formData,
            .toastSuccess "Cliente atualizado com sucesso!"]
        else
          [.serviceCreate s.formData, .toastSuccess "Cliente cadastrado com sucesso!"])
        ++ (if onSuccess then [.onSuccess] else [])
        ++ (if onClose then [.onClose] else [])
      | .rejected error =>
        (if isUpdate then [.serviceUpdate (clienteId.getD 0) s.formData]
        else [.serviceCreate s.formData])
        ++ catchBlock error
    [.preventDefault, .setLoading true] ++ tryBlock ++ [.setLoading false]

/-- The function `handleSubmit`: the state once the handler has completed, with its effects. -/
def handleSubmit (clienteId : Option Nat) (onSuccess onClose : Bool)
    (outcome : ServiceOutcome) (s : HookState) : HookState × List Effect :=
  let effects := handleSubmitEffects clienteId onSuccess onClose outcome s
  (applyEffects s effects, effects)

/-- Whether an effect is a call of `clienteService.create` or `clienteService.update`. -/
def Effect.isServiceCall : Effect → Bool
  | .serviceCreate _ => true
  | .serviceUpdate _ _ => true
  | _ => false

/-- Whether an effect is a toast notification. -/
def Effect.isToast : Effect → Bool
  | .toastError _ => true
  | .toastSuccess _ => true
  | _ => false

/-- Whether an effect is a call of `setErrors`. -/
def Effect.isSetErrors : Effect → Bool
  | .setErrors _ => true
  | _ => false

/-- The save button of `ClienteModal`: rendered only outside view mode, and rendered with
`disabled={loading}`; it is the control wired to `handleSubmit`. -/
def submitButtonEnabled (viewMode : Bool) (s : HookState) : Bool := !viewMode && !s.loading

/-! ## Postal lookup: `useViaCEP.js`, `updateEndereco` and `EnderecoSection` -/

/-- The body `dados` answered by the postal lookup; `erro` is the truthiness of `dados.erro`. -/
structure DadosCep where
  erro : Bool
  logradouro : Option String
  bairro : Option String
  localidade : Option String
  uf : Option String

/-- How the awaited `clienteService.consultarCep` call ends; a resolved call may carry no
body. -/
inductive CepOutcome where
  | resolved (dados : Option DadosCep)
  | rejected

/-- A partial address object, as passed to `updateEndereco`: only the properties that are
there are written. -/
structure EnderecoPatch where
  cep : Option String := none
  logradouro : Option String := none
  numero : Option String := none
  complemento : Option String := none
  bairro : Option String := none
  cidade : Option String := none
  uf : Option String := none

/-- The observable steps of one run of `consultarCEP`, in program order. -/
inductive CepEffect where
  | toastError (message : String)
  | toastSuccess (message : String)
  | setLoading (loading : Bool)
  | consultarCep (cepLimpo : List Char)
  | onSuccess (dados : EnderecoPatch)
  | consoleError

/-- The expression `v || ''`. -/
def orEmpty (v : Option String) : String := if isTruthy v then v.getD "" else ""

/-- The function `consultarCEP(cep, onSuccess)`; `onSuccess` tells whether the callback was
given.  A resolved call without a body fails on `dados.erro` and lands in the `catch`. -/
def consultarCEP (cep : String) (onSuccess : Bool) (outcome : CepOutcome) : List CepEffect :=
  let cepLimpo := stripNonDigits cep
  if cepLimpo.length != 8 then [.toastError "CEP deve ter 8 dígitos"]
  else
    let tryBlock : List CepEffect :=
      match outcome with
      | .resolved (some dados) =>
        if dados.erro then [.toastError "CEP não encontrado"]
        else
          (if onSuccess then
            [.onSuccess
              { logradouro := some (orEmpty dados.logradouro)
                bairro := some (orEmpty dados.bairro)
                cidade := some (orEmpty dados.localidade)
                uf := some (orEmpty dados.uf) }]
          else [])
          ++ [.toastSuccess "CEP encontrado!"]
      | .resolved none => [.toastError "Erro ao consultar CEP", .consoleError]
      | .rejected => [.toastError "Erro ao consultar CEP", .consoleError]
    [.setLoading true, .consultarCep cepLimpo] ++ tryBlock ++ [.setLoading false]

/-- The object `{ ...endereco, ...enderecoData }`. -/
def Endereco.merge (endereco : Endereco) (enderecoData : EnderecoPatch) : Endereco where
  cep := enderecoData.cep.getD endereco.cep
  logradouro := enderecoData.logradouro.getD endereco.logradouro
  numero := enderecoData.numero.getD endereco.numero
  complemento := enderecoData.complemento.getD endereco.complemento
  bairro := enderecoData.bairro.getD endereco.bairro
  cidade := enderecoData.cidade.getD endereco.cidade
  uf := enderecoData.uf.getD endereco.uf

/-- The updater of `updateEndereco(enderecoData)`. -/
def updateEndereco (enderecoData : EnderecoPatch) (prev : FormData) : FormData :=
  { prev with endereco := prev.endereco.merge enderecoData }

/-- The form state after the callbacks among the effects of a lookup have run;
`EnderecoSection` passes `(dados) => onCepComplete(dados)` and `ClienteModal` wires
`onCepComplete` to `updateEndereco`. -/
def applyCepEffects (prev : FormData) (effects : List CepEffect) : FormData :=
  effects.foldl (fun st e =>
    match e with
    | .onSuccess dados => updateEndereco dados st
    | _ => st) prev

/-- The handler `handleCepBlur` of `EnderecoSection`, given how the lookup ends: the form
state afterwards. -/
def handleCepBlur (disabled : Bool) (outcome : CepOutcome) (prev : FormData) : FormData :=
  if !prev.endereco.cep.toList.isEmpty && !disabled then
    applyCepEffects prev (consultarCEP prev.endereco.cep true outcome)
  else prev

/-- A filled-in form that passes every rule, used as a concrete input. -/
def filledForm : FormData where
  nome := "Ana Souza"
  cpf := "529.982.247-25"
  dataNascimento := "1990-05-17"
  endereco :=
    { cep := "01001-000", logradouro := "Praça da Sé", numero := "100", complemento := "",
      bairro := "Sé", cidade := "São Paulo", uf := "SP" }
  telefones := [{ numero := "(11) 91234-5678", tipo := "CELULAR", principal := true }]
  emails := [{ enderecoEmail := "ana@example.com", principal := true }]

/-! ## Field setters and hydration of `useClienteForm.js` -/

/-- The inputs of `DadosPessoaisSection` wired to `handleChange`, by their `name`. -/
inductive CampoPessoal where
  | nome
  | cpf
  | dataNascimento
  deriving DecidableEq, Repr

/-- The attribute `name` of the input, which is also its key in `errors`. -/
def CampoPessoal.name : CampoPessoal → String
  | .nome => "nome"
  | .cpf => "cpf"
  | .dataNascimento => "dataNascimento"

/-- Property read `formData[name]`. -/
def FormData.get (formData : FormData) : CampoPessoal → String
  | .nome => formData.nome
  | .cpf => formData.cpf
  | .dataNascimento => formData.dataNascimento

/-- The object `{ ...prev, [name]: value }`. -/
def FormData.set (prev : FormData) : CampoPessoal → String → FormData
  | .nome, value => { prev with nome := value }
  | .cpf, value => { prev with cpf := value }
  | .dataNascimento, value => { prev with dataNascimento := value }

/-- The inputs of `EnderecoSection` wired to `handleEnderecoChange`, by their `name`. -/
inductive CampoEndereco where
  | cep
  | logradouro
  | numero
  | complemento
  | bairro
  | cidade
  | uf
  deriving DecidableEq, Repr

/-- The attribute `name` of the input, which is also its key in `errors`. -/
def CampoEndereco.name : CampoEndereco → String
  | .cep => "cep"
  | .logradouro => "logradouro"
  | .numero => "numero"
  | .complemento => "complemento"
  | .bairro => "bairro"
  | .cidade => "cidade"
  | .uf => "uf"

/-- Property read `endereco[name]`. -/
def Endereco.get (endereco : Endereco) : CampoEndereco → String
  | .cep => endereco.cep
  | .logradouro => endereco.logradouro
  | .numero => endereco.numero
  | .complemento => endereco.complemento
  | .bairro => endereco.bairro
  | .cidade => endereco.cidade
  | .uf => endereco.uf

/-- The object `{ ...prev.endereco, [name]: value }`. -/
def Endereco.set (endereco : Endereco) : CampoEndereco → String → Endereco
  | .cep, value => { endereco with cep := value }
  | .logradouro, value => { endereco with logradouro := value }
  | .numero, value => { endereco with numero := value }
  | .complemento, value => { endereco with complemento := value }
  | .bairro, value => { endereco with bairro := value }
  | .cidade, value => { endereco with cidade := value }
  | .uf, value => { endereco with uf := value }

/-- The property read `errors[name]` on the state: `none` when the key is missing or holds
`undefined`. -/
def ErrorsState.get? (errors : ErrorsState) (key : String) : Option String :=
  (List.lookup key errors).join

/-- The object `{ ...prev, [key]: value }` on the state `errors`: an existing property is
overwritten in place, a new one is added last. -/
def ErrorsState.set (errors : ErrorsState) (key : String) (value : Option String) :
    ErrorsState :=
  if errors.any (fun kv => kv.1 == key) then
    errors.map (fun kv => if kv.1 == key then (key, value) else kv)
  else errors ++ [(key, value)]

/-- The call `setFormData(updater)`. -/
def HookState.setFormData (updater : FormData → FormData) (s : HookState) : HookState :=
  { s with formData := updater s.formData }

/-- The handler `handleChange` for an event with `e.target = { name, value }`. -/
def handleChange (name : CampoPessoal) (value : String) (s : HookState) : HookState :=
  let s' := s.setFormData (fun prev => prev.set name value)
  if isTruthy (s.errors.get? name.name) then
    { s' with errors := s'.errors.set name.name none }
  else s'

/-- The handler `handleEnderecoChange` for an event with `e.target = { name, value }`. -/
def handleEnderecoChange (name : CampoEndereco) (value : String) (s : HookState) : HookState :=
  let s' := s.setFormData (fun prev => { prev with endereco := prev.endereco.set name value })
  if isTruthy (s.errors.get? name.name) then
    { s' with errors := s'.errors.set name.name none }
  else s'

/-- A customer object as received from the service: any property may be missing. -/
structure Cliente where
  id : Option Nat
  nome : Option String
  cpf : Option String
  dataNascimento : Option String
  endereco : Option EnderecoArg
  telefones : Option (List Telefone)
  emails : Option (List Email)

/-- The body of the hydration `useEffect`: with a customer the whole form state is replaced,
without one nothing is set. -/
def hydrate (clienteInicial : Option Cliente) (prev : FormData) : FormData :=
  match clienteInicial with
  | none => prev
  | some c =>
    { nome := orEmpty c.nome
      cpf := orEmpty c.cpf
      dataNascimento := orEmpty c.dataNascimento
      endereco :=
        { cep := orEmpty (c.endereco.bind (fun e => e.cep))
          logradouro := orEmpty (c.endereco.bind (fun e => e.logradouro))
          numero := orEmpty (c.endereco.bind (fun e => e.numero))
          complemento := orEmpty (c.endereco.bind (fun e => e.complemento))
          bairro := orEmpty (c.endereco.bind (fun e => e.bairro))
          cidade := orEmpty (c.endereco.bind (fun e => e.cidade))
          uf := orEmpty (c.endereco.bind (fun e => e.uf)) }
      telefones :=
        if (c.telefones.map (fun l => l.length)).getD 0 > 0 then c.telefones.getD []
        else [{ numero := "", tipo := "CELULAR", principal := true }]
      emails :=
        if (c.emails.map (fun l => l.length)).getD 0 > 0 then c.emails.getD []
        else [{ enderecoEmail := "", principal := true }] }

/-- The form state once the hook is mounted: `useState(initialFormState)` followed by the
hydration effect. -/
def formDataOnMount (clienteInicial : Option Cliente) : FormData :=
  hydrate clienteInicial initialFormState

/-! ## List and search: `useClientes.js` -/

/-- `Array.prototype.filter` with a callback that may raise (`none`): the first failure
aborts the whole call. -/
def filterOrRaise {α : Type} (p : α → Option Bool) : List α → Option (List α)
  | [] => some []
  | x :: xs =>
    match p x with
    | none => none
    | some keep =>
      match filterOrRaise p xs with
      | none => none
      | some rest => some (if keep then x :: rest else rest)

/-- The callback of `clientes.filter` in `filteredClientes`, evaluated left to right with the
short-circuit of `||`.  Reading `.toLowerCase()` / `.includes` on a missing `nome` or `cpf`
raises a `TypeError` (`none`); a missing `emails` gives `undefined`, which is falsy.
`toLowerCase` is the built-in `String.prototype.toLowerCase`. -/
def matchesSearch (toLowerCase : String → String) (searchTerm : String) (cliente : Cliente) :
    Option Bool :=
  if !isTruthy (some searchTerm) then some true
  else
    match cliente.nome with
    | none => none
    | some nome =>
      if includes (toLowerCase nome) (toLowerCase searchTerm) then some true
      else
        match cliente.cpf with
        | none => none
        | some cpf =>
          if includes cpf searchTerm then some true
          else
            match cliente.emails with
            | none => some false
            | some emails =>
              some (emails.any (fun e =>
                includes (toLowerCase e.enderecoEmail) (toLowerCase searchTerm)))

/-- The value `filteredClientes`. -/
def filteredClientes (toLowerCase : String → String) (clientes : List Cliente)
    (searchTerm : String) : Option (List Cliente) :=
  filterOrRaise (matchesSearch toLowerCase searchTerm) clientes

/-- The pieces of state of `useClientes` read by the page navigation. -/
structure ListState where
  page : Int
  totalPages : Int

/-- The function `handlePageChange(newPage)`. -/
def handlePageChange (newPage : Int) (s : ListState) : ListState :=
  if decide (newPage ≥ 0) && decide (newPage < s.totalPages) then { s with page := newPage }
  else s

/-! ## CPF mask: `formatarCPF` and `removerMascaraCPF` of `cpfValidator.js` -/

/-- The call `cpf.replace(/(\d{3})(\d{3})(\d{3})(\d{2})/, '$1.$2.$3-$4')`: the leftmost run of
eleven digits, if any, is rewritten with the separators; the rest is kept. -/
def replaceCpfPattern : List Char → List Char
  | [] => []
  | c :: cs =>
    match c :: cs with
    | d0 :: d1 :: d2 :: d3 :: d4 :: d5 :: d6 :: d7 :: d8 :: d9 :: d10 :: rest =>
      if [d0, d1, d2, d3, d4, d5, d6, d7, d8, d9, d10].all isDigit then
        [d0, d1, d2, '.', d3, d4, d5, '.', d6, d7, d8, '-', d9, d10] ++ rest
      else c :: replaceCpfPattern cs
    | _ => c :: replaceCpfPattern cs

/-- The function `formatarCPF`. -/
def formatarCPF (cpf : String) : String :=
  let cpf := stripNonDigits cpf
  String.mk (replaceCpfPattern cpf)

/-- The function `removerMascaraCPF`. -/
def removerMascaraCPF (cpf : String) : String := String.mk (stripNonDigits cpf)

/-! ### Words of the specification on search and on principal flags -/

/-- The string `sub` occurs in `s` as a literal substring. -/
def IsSubstring (sub s : String) : Prop := ∃ a b : List Char, s.toList = a ++ sub.toList ++ b

/-- The search term matches the customer: it is empty, or a case-insensitive substring of the
name (both sides lower-cased), or a literal substring of the CPF, or a case-insensitive
substring of one of the e-mail addresses. -/
def SearchMatch (toLowerCase : String → String) (searchTerm : String) (cliente : Cliente) :
    Prop :=
  searchTerm = "" ∨
  (∃ nome, cliente.nome = some nome ∧
    IsSubstring (toLowerCase searchTerm) (toLowerCase nome)) ∨
  (∃ cpf, cliente.cpf = some cpf ∧ IsSubstring searchTerm cpf) ∨
  (∃ emails e, cliente.emails = some emails ∧ e ∈ emails ∧
    IsSubstring (toLowerCase searchTerm) (toLowerCase e.enderecoEmail))

/-- The built-in `toLowerCase` restricted to ASCII strings, on which only `A`..`Z` change;
it serves to evaluate the search on concrete ASCII inputs. -/
def asciiLowerCase (s : String) : String := String.mk (s.toList.map Char.toLower)

/-- Two forms that differ at most in the `principal` values of their phones and e-mails. -/
def SameUpToPrincipal (f g : FormDataArg) : Prop :=
  f.nome = g.nome ∧ f.cpf = g.cpf ∧ f.dataNascimento = g.dataNascimento ∧
  f.endereco = g.endereco ∧
  f.telefones.map (List.map (fun t => (t.numero, t.tipo)))
    = g.telefones.map (List.map (fun t => (t.numero, t.tipo))) ∧
  f.emails.map (List.map (fun e => e.enderecoEmail))
    = g.emails.map (List.map (fun e => e.enderecoEmail))

/-! ## What the rendered form lets the user do

`TelefonesSection` / `EmailsSection` render one row per list position (`telefones.map`), each
row wired to `handleChange(index, 'numero' | 'tipo', value)` (for e-mails
`handleChange(index, 'enderecoEmail', value)`), to `handlePrincipalChange(index)`, and, only
when `index > 0`, to `remove(index)`; one button per section calls `add`. -/

/-- A user action on the two collections of the form. -/
inductive UiAction where
  | addTelefone
  | removeTelefone (index : Nat)
  | telefoneNumero (index : Nat) (value : String)
  | telefoneTipo (index : Nat) (value : String)
  | telefonePrincipal (index : Nat)
  | addEmail
  | removeEmail (index : Nat)
  | emailEndereco (index : Nat) (value : String)
  | emailPrincipal (index : Nat)
  deriving Repr

/-- Whether the form in state `s` renders the control that triggers the action. -/
def UiAction.offered (s : FormData) : UiAction → Bool
  | .addTelefone => true
  | .removeTelefone index => decide (0 < index) && decide (index < s.telefones.length)
  | .telefoneNumero index _ => decide (index < s.telefones.length)
  | .telefoneTipo index _ => decide (index < s.telefones.length)
  | .telefonePrincipal index => decide (index < s.telefones.length)
  | .addEmail => true
  | .removeEmail index => decide (0 < index) && decide (index < s.emails.length)
  | .emailEndereco index _ => decide (index < s.emails.length)
  | .emailPrincipal index => decide (index < s.emails.length)

/-- The state update an action performs. -/
def UiAction.apply : UiAction → FormData → FormData
  | .addTelefone => ClienteForm.addTelefone
  | .removeTelefone index => ClienteForm.removeTelefone index
  | .telefoneNumero index value => handleTelefoneChange index .numero value
  | .telefoneTipo index value => handleTelefoneChange index .tipo value
  | .telefonePrincipal index => handleTelefonePrincipalChange index
  | .addEmail => ClienteForm.addEmail
  | .removeEmail index => ClienteForm.removeEmail index
  | .emailEndereco index value => handleEmailChange index .enderecoEmail value
  | .emailPrincipal index => handleEmailPrincipalChange index

/-- Form states reachable from `initialFormState` through offered actions. -/
inductive Reachable : FormData → Prop where
  | initial : Reachable initialFormState
  | step {s : FormData} (a : UiAction) : Reachable s → a.offered s = true → Reachable (a.apply s)

/-! ## Lemmas on the CPF validator -/

theorem mem_stripNonDigits {s : String} {c : Char} (h : c ∈ stripNonDigits s) :
    isDigit c = true := by
  unfold stripNonDigits at h
  exact (List.mem_filter.mp h).2

theorem length_eq_eleven {d : List Char} (h : d.length = 11) :
    ∃ c0 c1 c2 c3 c4 c5 c6 c7 c8 c9 c10, d = [c0, c1, c2, c3, c4, c5, c6, c7, c8, c9, c10] := by
  match d, h with
  | [c0, c1, c2, c3, c4, c5, c6, c7, c8, c9, c10], _ =>
    exact ⟨c0, c1, c2, c3, c4, c5, c6, c7, c8, c9, c10, rfl⟩

theorem restoDe_eq (soma : Nat) : restoDe soma = tenOrElevenToZero ((soma * 10) % 11) := by
  unfold restoDe tenOrElevenToZero
  simp

theorem isRepeatedDigit_iff {d : List Char} (hd : ∀ c ∈ d, isDigit c = true) :
    isRepeatedDigit d = true ↔ ∃ c, d = List.replicate 11 c := by
  constructor
  · intro h
    cases d with
    | nil => simp [isRepeatedDigit] at h
    | cons c rest =>
      simp only [isRepeatedDigit, Bool.and_eq_true, beq_iff_eq, List.all_eq_true] at h
      refine ⟨c, ?_⟩
      have hrest : rest = List.replicate 10 c :=
        List.eq_replicate_iff.mpr ⟨h.1.2, fun b hb => h.2 b hb⟩
      rw [hrest]
      rfl
  · rintro ⟨c, rfl⟩
    have hc : isDigit c = true := hd c (by simp [List.replicate])
    simp [isRepeatedDigit, List.replicate, hc]

theorem validarCPF_rejects_len (s : String) (h : (stripNonDigits s).length ≠ 11) :
    validarCPF s = false := by
  unfold validarCPF
  simp [h]

theorem somaLoop_nine (c0 c1 c2 c3 c4 c5 c6 c7 c8 c9 c10 : Char) :
    somaLoop [c0, c1, c2, c3, c4, c5, c6, c7, c8, c9, c10] 9 11
      = ∑ i in Finset.range 9,
          digitValue [c0, c1, c2, c3, c4, c5, c6, c7, c8, c9, c10] i * (10 - i) := by
  simp [somaLoop, List.range', digitAt, digitValue, Finset.sum_range_succ]

theorem somaLoop_ten (c0 c1 c2 c3 c4 c5 c6 c7 c8 c9 c10 : Char) :
    somaLoop [c0, c1, c2, c3, c4, c5, c6, c7, c8, c9, c10] 10 12
      = ∑ i in Finset.range 10,
          digitValue [c0, c1, c2, c3, c4, c5, c6, c7, c8, c9, c10] i * (11 - i) := by
  simp [somaLoop, List.range', digitAt, digitValue, Finset.sum_range_succ]


/-! ## Lemmas on the array helpers -/

theorem length_mapFrom {α β : Type} (f : α → Nat → β) (k : Nat) (xs : List α) :
    (mapFrom f k xs).length = xs.length := by
  induction xs generalizing k with
  | nil => rfl
  | cons x xs ih => simp [mapFrom, ih]

theorem getElem?_mapFrom {α β : Type} (f : α → Nat → β) (k : Nat) (xs : List α) (j : Nat) :
    (mapFrom f k xs)[j]? = (xs[j]?).map (fun x => f x (k + j)) := by
  induction xs generalizing k j with
  | nil => simp [mapFrom]
  | cons x xs ih =>
    cases j with
    | zero => simp [mapFrom]
    | succ j =>
      simp only [mapFrom, List.getElem?_cons_succ, ih]
      congr 1
      funext a
      congr 1
      omega

theorem length_arrayMap {α β : Type} (f : α → Nat → β) (xs : List α) :
    (arrayMap f xs).length = xs.length := length_mapFrom f 0 xs

theorem getElem?_arrayMap {α β : Type} (f : α → Nat → β) (xs : List α) (j : Nat) :
    (arrayMap f xs)[j]? = (xs[j]?).map (fun x => f x j) := by
  unfold arrayMap
  rw [getElem?_mapFrom]
  simp

theorem filterFrom_ne {α : Type} (index k : Nat) (xs : List α) :
    filterFrom (fun _ i => i != index) k xs
      = if k ≤ index then xs.eraseIdx (index - k) else xs := by
  induction xs generalizing k with
  | nil => simp [filterFrom]
  | cons x xs ih =>
    simp only [filterFrom, ih]
    by_cases h : k = index
    · subst h
      simp
    · by_cases h' : k ≤ index
      · have h1 : k + 1 ≤ index := by omega
        have h2 : index - k = (index - (k + 1)) + 1 := by omega
        simp [h, h', h1]
        rw [h2, List.eraseIdx_cons_succ]
      · have h1 : ¬ k + 1 ≤ index := by omega
        simp [h, h', h1]

theorem arrayFilter_ne {α : Type} (index : Nat) (xs : List α) :
    arrayFilter (fun _ i => i != index) xs = xs.eraseIdx index := by
  unfold arrayFilter
  rw [filterFrom_ne]
  simp

theorem countP_mapFrom_index {α β : Type} (p : β → Bool) (f : α → Nat → β) (index : Nat)
    (hp : ∀ x i, p (f x i) = (i == index)) (k : Nat) (xs : List α) :
    (mapFrom f k xs).countP p = if k ≤ index ∧ index < k + xs.length then 1 else 0 := by
  induction xs generalizing k with
  | nil =>
    have h : ¬ (k ≤ index ∧ index < k + ([] : List α).length) := by
      simp only [List.length_nil]
      omega
    rw [if_neg h]
    rfl
  | cons x xs ih =>
    simp only [mapFrom, List.countP_cons, ih, hp, List.length_cons]
    by_cases h : k = index
    · subst h
      simp
    · have hk : (k == index) = false := by simpa using h
      simp only [hk, Bool.false_eq_true, if_false, Nat.add_zero]
      by_cases h' : k + 1 ≤ index ∧ index < k + 1 + xs.length
      · have h2 : k ≤ index ∧ index < k + (xs.length + 1) := by omega
        simp [h', h2]
      · have h2 : ¬ (k ≤ index ∧ index < k + (xs.length + 1)) := by omega
        simp [h', h2]

/-! ## Lemmas on reachable form states -/

theorem countP_mapFrom_of_preserved {α : Type} (p : α → Bool) (f : α → Nat → α)
    (hf : ∀ x i, p (f x i) = p x) (k : Nat) (xs : List α) :
    (mapFrom f k xs).countP p = xs.countP p := by
  induction xs generalizing k with
  | nil => rfl
  | cons x xs ih => simp only [mapFrom, List.countP_cons, ih, hf]

theorem countP_mapFrom_index_le {α β : Type} (p : β → Bool) (f : α → Nat → β) (index : Nat)
    (hp : ∀ x i, p (f x i) = (i == index)) (xs : List α) :
    (arrayMap f xs).countP p ≤ 1 := by
  unfold arrayMap
  rw [countP_mapFrom_index p f index hp]
  split <;> omega

/-- What does hold in every reachable state: at most one phone and at most one e-mail is
principal. -/
theorem reachable_at_most_one_principal {s : FormData} (h : Reachable s) :
    s.telefones.countP (fun tel => tel.principal) ≤ 1 ∧
    s.emails.countP (fun email => email.principal) ≤ 1 := by
  induction h with
  | initial => decide
  | step a _ _ ih =>
    obtain ⟨iht, ihe⟩ := ih
    cases a with
    | addTelefone => exact ⟨by simpa [UiAction.apply, addTelefone] using iht, ihe⟩
    | removeTelefone index =>
      refine ⟨?_, ihe⟩
      simp only [UiAction.apply, removeTelefone, arrayFilter_ne]
      exact Nat.le_trans (List.Sublist.countP_le _ (List.eraseIdx_sublist _ _)) iht
    | telefoneNumero index value =>
      refine ⟨?_, ihe⟩
      simp only [UiAction.apply, handleTelefoneChange, arrayMap]
      rw [countP_mapFrom_of_preserved]
      · exact iht
      · intro x i
        split <;> rfl
    | telefoneTipo index value =>
      refine ⟨?_, ihe⟩
      simp only [UiAction.apply, handleTelefoneChange, arrayMap]
      rw [countP_mapFrom_of_preserved]
      · exact iht
      · intro x i
        split <;> rfl
    | telefonePrincipal index =>
      exact ⟨countP_mapFrom_index_le _ _ index (fun _ _ => rfl) _, ihe⟩
    | addEmail => exact ⟨iht, by simpa [UiAction.apply, addEmail] using ihe⟩
    | removeEmail index =>
      refine ⟨iht, ?_⟩
      simp only [UiAction.apply, removeEmail, arrayFilter_ne]
      exact Nat.le_trans (List.Sublist.countP_le _ (List.eraseIdx_sublist _ _)) ihe
    | emailEndereco index value =>
      refine ⟨iht, ?_⟩
      simp only [UiAction.apply, handleEmailChange, arrayMap]
      rw [countP_mapFrom_of_preserved]
      · exact ihe
      · intro x i
        split <;> rfl
    | emailPrincipal index =>
      exact ⟨iht, countP_mapFrom_index_le _ _ index (fun _ _ => rfl) _⟩

/-! ## Lemmas on the validation pipeline -/

theorem trim_toList_eq_nil_iff (s : String) :
    (trim s).toList = [] ↔ ∀ c ∈ s.toList, isWhiteSpace c = true := by
  show ((s.toList.dropWhile isWhiteSpace).reverse.dropWhile isWhiteSpace).reverse = [] ↔ _
  rw [List.reverse_eq_nil_iff, List.dropWhile_eq_nil_iff]
  constructor
  · intro h
    have hnil : s.toList.dropWhile isWhiteSpace = [] := by
      by_contra hne
      have h1 := List.head_dropWhile_not isWhiteSpace s.toList hne
      have h2 := h _ (List.mem_reverse.mpr (List.head_mem hne))
      rw [h2] at h1
      exact Bool.noConfusion h1
    exact List.dropWhile_eq_nil_iff.mp hnil
  · intro h x hx
    have hnil : s.toList.dropWhile isWhiteSpace = [] := List.dropWhile_eq_nil_iff.mpr h
    rw [hnil] at hx
    exact absurd hx (List.not_mem_nil x)

theorem isTruthy_trim_eq_false_iff (v : Option String) :
    isTruthy (v.map trim) = false ↔ IsBlank v := by
  cases v with
  | none => simp [isTruthy, IsBlank]
  | some s =>
    show (!(trim s).toList.isEmpty) = false ↔ ∀ c ∈ s.toList, isWhiteSpace c = true
    rw [← trim_toList_eq_nil_iff]
    cases (trim s).toList <;> simp

theorem isTruthy_eq_false_iff (v : Option String) :
    isTruthy v = false ↔ v = none ∨ v = some "" := by
  cases v with
  | none => simp [isTruthy]
  | some s =>
    show (!s.data.isEmpty) = false ↔ _
    constructor
    · intro h
      right
      congr 1
      apply String.ext
      show s.data = []
      cases hs : s.data with
      | nil => rfl
      | cons c cs =>
        rw [hs] at h
        exact Bool.noConfusion h
    · rintro (h | h)
      · exact Option.noConfusion h
      · cases h
        rfl

namespace Errors

theorem set_cons_ne (a b : String) (es : Errors) (key value : String) (h : a ≠ key) :
    Errors.set ((a, b) :: es) key value = (a, b) :: Errors.set es key value := by
  have ha : (a == key) = false := by simpa using h
  unfold Errors.set
  simp only [List.any_cons, ha, Bool.false_or]
  split
  · simp only [List.map_cons, ha, Bool.false_eq_true, if_false]
  · rfl

theorem lookup_map_replace (es : Errors) (key value k : String) (h : k ≠ key) :
    List.lookup k (es.map (fun kv => if kv.1 == key then (key, value) else kv))
      = List.lookup k es := by
  have hk : (k == key) = false := by simpa using h
  induction es with
  | nil => rfl
  | cons p es ih =>
    obtain ⟨a, b⟩ := p
    by_cases ha : a = key
    · subst ha
      simp only [List.map_cons, beq_self_eq_true, if_true, List.lookup_cons, hk, ih]
    · have ha' : (a == key) = false := by simpa using ha
      simp only [List.map_cons, ha', Bool.false_eq_true, if_false, List.lookup_cons, ih]

theorem get?_set (errors : Errors) (key value k : String) :
    (errors.set key value).get? k = if k = key then some value else errors.get? k := by
  induction errors with
  | nil =>
    show List.lookup k [(key, value)] = _
    by_cases hk : k = key
    · subst hk
      simp only [List.lookup_cons_self, if_true]
    · have hk' : (k == key) = false := by simpa using hk
      simp only [List.lookup_cons, hk', hk, if_false]
      rfl
  | cons p es ih =>
    obtain ⟨a, b⟩ := p
    by_cases ha : a = key
    · subst ha
      have hset : Errors.set ((a, b) :: es) a value
          = (a, value) :: es.map (fun kv => if kv.1 == a then (a, value) else kv) := by
        unfold Errors.set
        simp only [List.any_cons, beq_self_eq_true, Bool.true_or, if_true, List.map_cons]
      rw [hset]
      unfold Errors.get?
      by_cases hk : k = a
      · subst hk
        simp only [List.lookup_cons_self, if_true]
      · have hk' : (k == a) = false := by simpa using hk
        simp only [List.lookup_cons, hk', hk, if_false, lookup_map_replace es a value k hk]
    · rw [set_cons_ne a b es key value ha]
      unfold Errors.get? at ih ⊢
      by_cases hka : k = a
      · subst hka
        simp only [List.lookup_cons_self, ha, if_false]
      · have hka' : (k == a) = false := by simpa using hka
        simp only [List.lookup_cons, hka', ih]

theorem has_iff_get? (errors : Errors) (k : String) : errors.has k ↔ errors.get? k ≠ none := by
  unfold Errors.has Errors.keys Errors.get?
  rw [Ne, List.lookup_eq_none_iff]
  simp only [List.mem_map, bne_iff_ne, ne_eq, not_forall, Classical.not_not]
  constructor
  · rintro ⟨p, hp, rfl⟩
    exact ⟨p, hp, rfl⟩
  · rintro ⟨p, hp, h⟩
    exact ⟨p, hp, h.symm⟩

end Errors

theorem get?_forEachFrom {α : Type} (f : Errors → α → Nat → Errors) (k : String)
    (hf : ∀ st x i, (f st x i).get? k = st.get? k) (n : Nat) (xs : List α) (st : Errors) :
    (forEachFrom f n xs st).get? k = st.get? k := by
  induction xs generalizing n st with
  | nil => rfl
  | cons x xs ih => simp only [forEachFrom, ih, hf]

theorem prefixed_ne (pre x k : String) (h : pre.toList.isPrefixOf k.toList = false) :
    k ≠ pre ++ x := by
  intro hk
  subst hk
  have h' : pre.toList.isPrefixOf (pre ++ x).toList = true := by
    rw [List.isPrefixOf_iff_prefix]
    simp
  rw [h] at h'
  exact Bool.false_ne_true h'

theorem get?_ite (c : Prop) [Decidable c] (a b : Errors) (k : String) :
    (if c then a else b).get? k = if c then a.get? k else b.get? k := by
  split <;> rfl

theorem get?_telefoneForEach (k : String) (hk : "telefone_".toList.isPrefixOf k.toList = false)
    (xs : List Telefone) (errors : Errors) :
    (arrayForEach telefoneForEach xs errors).get? k = errors.get? k := by
  refine get?_forEachFrom _ k ?_ 0 xs errors
  intro st x i
  unfold telefoneForEach
  simp only [get?_ite, Errors.get?_set, prefixed_ne _ _ _ hk, if_false, ite_self]

theorem get?_emailForEach (k : String) (hk : "email_".toList.isPrefixOf k.toList = false)
    (xs : List Email) (errors : Errors) :
    (arrayForEach emailForEach xs errors).get? k = errors.get? k := by
  refine get?_forEachFrom _ k ?_ 0 xs errors
  intro st x i
  unfold emailForEach
  simp only [get?_ite, Errors.get?_set, prefixed_ne _ _ _ hk, if_false, ite_self]

theorem get?_validate_nome (f : FormDataArg) :
    (validateClienteForm f).get? "nome"
      = if isTruthy (f.nome.map trim) = false then some "Nome é obrigatório" else none := by
  obtain ⟨nome, cpf, dn, endereco, telefones, emails⟩ := f
  cases telefones <;> cases emails <;>
    simp only [validateClienteForm, get?_ite, Errors.get?_set,
      get?_telefoneForEach "nome" (by decide), get?_emailForEach "nome" (by decide),
      String.reduceEq, if_false, if_true, ite_self] <;>
    simp [Errors.get?]

theorem get?_validate_dataNascimento (f : FormDataArg) :
    (validateClienteForm f).get? "dataNascimento"
      = if isTruthy (f.dataNascimento) = false then some "Data de nascimento é obrigatória" else none := by
  obtain ⟨nome, cpf, dn, endereco, telefones, emails⟩ := f
  cases telefones <;> cases emails <;>
    simp only [validateClienteForm, get?_ite, Errors.get?_set,
      get?_telefoneForEach "dataNascimento" (by decide), get?_emailForEach "dataNascimento" (by decide),
      String.reduceEq, if_false, if_true, ite_self] <;>
    simp [Errors.get?]

theorem get?_validate_cep (f : FormDataArg) :
    (validateClienteForm f).get? "cep"
      = if isTruthy ((f.endereco.bind (fun e => e.cep)).map trim) = false then some "CEP é obrigatório" else none := by
  obtain ⟨nome, cpf, dn, endereco, telefones, emails⟩ := f
  cases telefones <;> cases emails <;>
    simp only [validateClienteForm, get?_ite, Errors.get?_set,
      get?_telefoneForEach "cep" (by decide), get?_emailForEach "cep" (by decide),
      String.reduceEq, if_false, if_true, ite_self] <;>
    simp [Errors.get?]

theorem get?_validate_logradouro (f : FormDataArg) :
    (validateClienteForm f).get? "logradouro"
      = if isTruthy ((f.endereco.bind (fun e => e.logradouro)).map trim) = false then some "Logradouro é obrigatório" else none := by
  obtain ⟨nome, cpf, dn, endereco, telefones, emails⟩ := f
  cases telefones <;> cases emails <;>
    simp only [validateClienteForm, get?_ite, Errors.get?_set,
      get?_telefoneForEach "logradouro" (by decide), get?_emailForEach "logradouro" (by decide),
      String.reduceEq, if_false, if_true, ite_self] <;>
    simp [Errors.get?]

theorem get?_validate_numero (f : FormDataArg) :
    (validateClienteForm f).get? "numero"
      = if isTruthy ((f.endereco.bind (fun e => e.numero)).map trim) = false then some "Número é obrigatório" else none := by
  obtain ⟨nome, cpf, dn, endereco, telefones, emails⟩ := f
  cases telefones <;> cases emails <;>
    simp only [validateClienteForm, get?_ite, Errors.get?_set,
      get?_telefoneForEach "numero" (by decide), get?_emailForEach "numero" (by decide),
      String.reduceEq, if_false, if_true, ite_self] <;>
    simp [Errors.get?]

theorem get?_validate_bairro (f : FormDataArg) :
    (validateClienteForm f).get? "bairro"
      = if isTruthy ((f.endereco.bind (fun e => e.bairro)).map trim) = false then some "Bairro é obrigatório" else none := by
  obtain ⟨nome, cpf, dn, endereco, telefones, emails⟩ := f
  cases telefones <;> cases emails <;>
    simp only [validateClienteForm, get?_ite, Errors.get?_set,
      get?_telefoneForEach "bairro" (by decide), get?_emailForEach "bairro" (by decide),
      String.reduceEq, if_false, if_true, ite_self] <;>
    simp [Errors.get?]

theorem get?_validate_cidade (f : FormDataArg) :
    (validateClienteForm f).get? "cidade"
      = if isTruthy ((f.endereco.bind (fun e => e.cidade)).map trim) = false then some "Cidade é obrigatória" else none := by
  obtain ⟨nome, cpf, dn, endereco, telefones, emails⟩ := f
  cases telefones <;> cases emails <;>
    simp only [validateClienteForm, get?_ite, Errors.get?_set,
      get?_telefoneForEach "cidade" (by decide), get?_emailForEach "cidade" (by decide),
      String.reduceEq, if_false, if_true, ite_self] <;>
    simp [Errors.get?]

theorem get?_validate_uf (f : FormDataArg) :
    (validateClienteForm f).get? "uf"
      = if isTruthy ((f.endereco.bind (fun e => e.uf)).map trim) = false then some "UF é obrigatório" else none := by
  obtain ⟨nome, cpf, dn, endereco, telefones, emails⟩ := f
  cases telefones <;> cases emails <;>
    simp only [validateClienteForm, get?_ite, Errors.get?_set,
      get?_telefoneForEach "uf" (by decide), get?_emailForEach "uf" (by decide),
      String.reduceEq, if_false, if_true, ite_self] <;>
    simp [Errors.get?]

theorem get?_validate_cpf (f : FormDataArg) :
    (validateClienteForm f).get? "cpf"
      = if isTruthy (f.cpf.map trim) = false then some "CPF é obrigatório"
        else if validarCPF (f.cpf.getD "") = false then some "CPF inválido" else none := by
  obtain ⟨nome, cpf, dn, endereco, telefones, emails⟩ := f
  cases telefones <;> cases emails <;>
    simp only [validateClienteForm, get?_ite, Errors.get?_set,
      get?_telefoneForEach "cpf" (by decide), get?_emailForEach "cpf" (by decide),
      String.reduceEq, if_false, if_true, ite_self] <;>
    simp [Errors.get?]

theorem get?_validate_complemento (f : FormDataArg) :
    (validateClienteForm f).get? "complemento" = none := by
  obtain ⟨nome, cpf, dn, endereco, telefones, emails⟩ := f
  cases telefones <;> cases emails <;>
    simp only [validateClienteForm, get?_ite, Errors.get?_set,
      get?_telefoneForEach "complemento" (by decide), get?_emailForEach "complemento" (by decide),
      String.reduceEq, if_false, if_true, ite_self] <;>
    simp [Errors.get?]

theorem isWhiteSpace_of_isDigit {c : Char} (h : isDigit c = true) : isWhiteSpace c = false := by
  simp only [isDigit, Bool.and_eq_true, decide_eq_true_eq] at h
  simp only [isWhiteSpace, Bool.or_eq_false_iff, Bool.and_eq_false_imp, decide_eq_true_eq,
    decide_eq_false_iff_not, beq_eq_false_iff_ne, ne_eq]
  omega

theorem not_isBlank_of_validarCPF {cpf : String} (h : validarCPF cpf = true) :
    ¬ IsBlank (some cpf) := by
  intro hb
  have hlen : (stripNonDigits cpf).length = 11 := by
    by_contra hne
    have := (validarCPF_rejects_len cpf hne)
    rw [h] at this
    exact Bool.noConfusion this
  have hne : stripNonDigits cpf ≠ [] := by
    intro hnil
    rw [hnil] at hlen
    exact absurd hlen (by decide)
  have hmem := List.head_mem hne
  have hd := mem_stripNonDigits hmem
  have hin : (stripNonDigits cpf).head hne ∈ cpf.toList := by
    unfold stripNonDigits at hmem
    exact (List.mem_filter.mp hmem).1
  have hw := hb _ hin
  rw [isWhiteSpace_of_isDigit hd] at hw
  exact Bool.noConfusion hw

/-! ## Lemmas on the collection rules of the validation pipeline -/

theorem validateClienteForm_eq (f : FormDataArg) :
    validateClienteForm f = emailsRule f.emails (telefonesRule f.telefones (scalarRules f)) :=
  rfl

theorem parseInt_digitChar : ∀ k, k < 10 → parseInt (Nat.digitChar k) = k := by decide

theorem toDigitsCore_decode (fuel : Nat) : ∀ (n : Nat) (ds : List Char), n < fuel →
    ∃ l : List Char, Nat.toDigitsCore 10 fuel n ds = l ++ ds ∧
      l.foldl (fun acc c => acc * 10 + parseInt c) 0 = n := by
  induction fuel with
  | zero => intro n ds h; omega
  | succ fuel ih =>
    intro n ds h
    unfold Nat.toDigitsCore
    by_cases h0 : n / 10 = 0
    · refine ⟨[Nat.digitChar (n % 10)], ?_, ?_⟩
      · simp [h0]
      · have hn : n % 10 < 10 := Nat.mod_lt _ (by decide)
        simp only [List.foldl_cons, List.foldl_nil, Nat.zero_mul, Nat.zero_add,
          parseInt_digitChar _ hn]
        omega
    · obtain ⟨l, hl, hv⟩ := ih (n / 10) (Nat.digitChar (n % 10) :: ds) (by omega)
      refine ⟨l ++ [Nat.digitChar (n % 10)], ?_, ?_⟩
      · simp [h0, hl]
      · have hn : n % 10 < 10 := Nat.mod_lt _ (by decide)
        rw [List.foldl_append, hv]
        simp only [List.foldl_cons, List.foldl_nil, parseInt_digitChar _ hn]
        omega

theorem toString_nat_injective {i j : Nat} (h : toString i = toString j) : i = j := by
  have hd : Nat.toDigits 10 i = Nat.toDigits 10 j := congrArg String.data h
  obtain ⟨li, hli, hvi⟩ := toDigitsCore_decode (i + 1) i [] (by omega)
  obtain ⟨lj, hlj, hvj⟩ := toDigitsCore_decode (j + 1) j [] (by omega)
  unfold Nat.toDigits at hd
  rw [hli, hlj, List.append_nil, List.append_nil] at hd
  rw [← hvi, ← hvj, hd]

theorem key_injective (pre : String) {i j : Nat}
    (h : pre ++ toString i = pre ++ toString j) : i = j := by
  apply toString_nat_injective
  apply String.ext
  have hd := congrArg String.data h
  rw [String.data_append, String.data_append] at hd
  exact List.append_cancel_left hd

theorem get?_forEachFrom_ge {α : Type} (f : Errors → α → Nat → Errors) (k : String)
    (xs : List α) : ∀ (n : Nat) (st : Errors),
    (∀ st x i, n ≤ i → (f st x i).get? k = st.get? k) →
    (forEachFrom f n xs st).get? k = st.get? k := by
  induction xs with
  | nil => intro n st _; rfl
  | cons x xs ih =>
    intro n st hf
    simp only [forEachFrom]
    rw [ih (n + 1) _ (fun st x i hi => hf st x i (by omega)), hf st x n (Nat.le_refl n)]

theorem get?_forEachFrom_indexed {α : Type} (cb : Errors → α → Nat → Errors)
    (pre msg : String) (bad : α → Prop) [DecidablePred bad]
    (hcb : ∀ st x i, cb st x i = if bad x then Errors.set st (pre ++ toString i) msg else st)
    (xs : List α) : ∀ (n i : Nat) (st : Errors),
    (forEachFrom cb n xs st).get? (pre ++ toString (n + i))
      = (xs[i]?).elim (st.get? (pre ++ toString (n + i)))
          (fun x => if bad x then some msg else st.get? (pre ++ toString (n + i))) := by
  have hstep : ∀ (st : Errors) (x : α) (i j : Nat), i ≠ j →
      (cb st x i).get? (pre ++ toString j) = st.get? (pre ++ toString j) := by
    intro st x i j hij
    have hne : ¬ pre ++ toString j = pre ++ toString i := fun h => hij (key_injective pre h).symm
    rw [hcb]
    split
    · rw [Errors.get?_set, if_neg hne]
    · rfl
  induction xs with
  | nil => intro n i st; rfl
  | cons x xs ih =>
    intro n i st
    simp only [forEachFrom]
    cases i with
    | zero =>
      rw [get?_forEachFrom_ge cb _ xs (n + 1) _
        (fun st x i hi => hstep st x i (n + 0) (by omega))]
      simp only [Nat.add_zero, List.getElem?_cons_zero, Option.elim]
      rw [hcb]
      split
      · rw [Errors.get?_set, if_pos rfl]
      · rfl
    | succ i =>
      have hidx : n + (i + 1) = n + 1 + i := by omega
      rw [hidx, ih (n + 1) i, List.getElem?_cons_succ,
        hstep st x n (n + 1 + i) (by omega)]

theorem telefoneForEach_eq (st : Errors) (x : Telefone) (i : Nat) :
    telefoneForEach st x i
      = if (stripNonDigits x.numero).length < 10 then
          Errors.set st ("telefone_" ++ toString i) "Telefone deve ter no mínimo 10 dígitos"
        else st := rfl

theorem emailForEach_eq (st : Errors) (x : Email) (i : Nat) :
    emailForEach st x i
      = if (!emailRegex.test x.enderecoEmail) = true then
          Errors.set st ("email_" ++ toString i) "E-mail inválido"
        else st := rfl

theorem isPrefixOf_email_telefone (i : Nat) :
    "email_".toList.isPrefixOf ("telefone_" ++ toString i).toList = false := by
  show List.isPrefixOf ['e', 'm', 'a', 'i', 'l', '_'] ("telefone_" ++ toString i).data = false
  rw [String.data_append]
  rfl

theorem isPrefixOf_telefone_email (i : Nat) :
    "telefone_".toList.isPrefixOf ("email_" ++ toString i).toList = false := by
  show List.isPrefixOf ['t', 'e', 'l', 'e', 'f', 'o', 'n', 'e', '_']
    ("email_" ++ toString i).data = false
  rw [String.data_append]
  rfl

theorem get?_scalarRules_of_not_mem (f : FormDataArg) (k : String) (hk : k ∉ scalarKeys) :
    (scalarRules f).get? k = none := by
  simp only [scalarKeys, List.mem_cons, List.mem_singleton, List.not_mem_nil, or_false,
    not_or] at hk
  obtain ⟨h1, h2, h3, h4, h5, h6, h7, h8, h9⟩ := hk
  simp only [scalarRules, get?_ite, Errors.get?_set, h1, h2, h3, h4, h5, h6, h7, h8, h9,
    if_false, ite_self]
  rfl

theorem not_mem_scalarKeys_of_prefixed (pre x : String)
    (h : ∀ k ∈ scalarKeys, pre.toList.isPrefixOf k.toList = false) :
    pre ++ x ∉ scalarKeys := by
  intro hmem
  exact prefixed_ne pre x _ (h _ hmem) rfl

theorem telefone_key_not_scalar (i : Nat) : "telefone_" ++ toString i ∉ scalarKeys :=
  not_mem_scalarKeys_of_prefixed _ _ (by decide)

theorem email_key_not_scalar (i : Nat) : "email_" ++ toString i ∉ scalarKeys :=
  not_mem_scalarKeys_of_prefixed _ _ (by decide)

theorem get?_telefonesRule_of_ne (t : Option (List Telefone)) (errors : Errors) (k : String)
    (h1 : k ≠ "telefones") (h2 : "telefone_".toList.isPrefixOf k.toList = false) :
    (telefonesRule t errors).get? k = errors.get? k := by
  cases t with
  | none => simp only [telefonesRule, Errors.get?_set, h1, if_false]
  | some l =>
    simp only [telefonesRule, get?_ite, Errors.get?_set, h1, if_false,
      get?_telefoneForEach k h2, ite_self]

theorem get?_emailsRule_of_ne (t : Option (List Email)) (errors : Errors) (k : String)
    (h1 : k ≠ "emails") (h2 : "email_".toList.isPrefixOf k.toList = false) :
    (emailsRule t errors).get? k = errors.get? k := by
  cases t with
  | none => simp only [emailsRule, Errors.get?_set, h1, if_false]
  | some l =>
    simp only [emailsRule, get?_ite, Errors.get?_set, h1, if_false,
      get?_emailForEach k h2, ite_self]

theorem get?_telefonesRule_telefones (t : Option (List Telefone)) (errors : Errors) :
    (telefonesRule t errors).get? "telefones"
      = if t = none ∨ t = some [] then some "Adicione pelo menos um telefone"
        else errors.get? "telefones" := by
  cases t with
  | none => simp [telefonesRule, Errors.get?_set]
  | some l =>
    cases l with
    | nil => simp [telefonesRule, Errors.get?_set]
    | cons x xs =>
      simp only [telefonesRule, List.length_cons, Nat.add_one_ne_zero, beq_iff_eq, if_false,
        get?_telefoneForEach "telefones" (by decide), reduceCtorEq, Option.some.injEq, or_self]

theorem get?_emailsRule_emails (t : Option (List Email)) (errors : Errors) :
    (emailsRule t errors).get? "emails"
      = if t = none ∨ t = some [] then some "Adicione pelo menos um e-mail"
        else errors.get? "emails" := by
  cases t with
  | none => simp [emailsRule, Errors.get?_set]
  | some l =>
    cases l with
    | nil => simp [emailsRule, Errors.get?_set]
    | cons x xs =>
      simp only [emailsRule, List.length_cons, Nat.add_one_ne_zero, beq_iff_eq, if_false,
        get?_emailForEach "emails" (by decide), reduceCtorEq, Option.some.injEq, or_self]

theorem get?_telefonesRule_key (t : Option (List Telefone)) (errors : Errors) (i : Nat) :
    (telefonesRule t errors).get? ("telefone_" ++ toString i)
      = (t.bind (fun l => l[i]?)).elim (errors.get? ("telefone_" ++ toString i))
          (fun x =>
            if (stripNonDigits x.numero).length < 10 then
              some "Telefone deve ter no mínimo 10 dígitos"
            else errors.get? ("telefone_" ++ toString i)) := by
  have hne : "telefone_" ++ toString i ≠ "telefones" :=
    (prefixed_ne "telefone_" (toString i) "telefones" (by decide)).symm
  cases t with
  | none => simp only [telefonesRule, Errors.get?_set, hne, if_false, Option.none_bind, Option.elim]
  | some l =>
    cases l with
    | nil =>
      simp only [telefonesRule, List.length_nil, beq_self_eq_true, if_true, Errors.get?_set, hne,
        if_false, Option.some_bind, List.getElem?_nil, Option.elim]
    | cons x xs =>
      have h := get?_forEachFrom_indexed telefoneForEach "telefone_"
        "Telefone deve ter no mínimo 10 dígitos" (fun x => (stripNonDigits x.numero).length < 10)
        telefoneForEach_eq (x :: xs) 0 i errors
      rw [Nat.zero_add] at h
      simp only [telefonesRule, List.length_cons, Nat.add_one_ne_zero, beq_iff_eq, if_false,
        arrayForEach, Option.some_bind]
      exact h

theorem get?_emailsRule_key (t : Option (List Email)) (errors : Errors) (i : Nat) :
    (emailsRule t errors).get? ("email_" ++ toString i)
      = (t.bind (fun l => l[i]?)).elim (errors.get? ("email_" ++ toString i))
          (fun x =>
            if (!emailRegex.test x.enderecoEmail) = true then some "E-mail inválido"
            else errors.get? ("email_" ++ toString i)) := by
  have hne : "email_" ++ toString i ≠ "emails" :=
    (prefixed_ne "email_" (toString i) "emails" (by decide)).symm
  cases t with
  | none => simp only [emailsRule, Errors.get?_set, hne, if_false, Option.none_bind, Option.elim]
  | some l =>
    cases l with
    | nil =>
      simp only [emailsRule, List.length_nil, beq_self_eq_true, if_true, Errors.get?_set, hne,
        if_false, Option.some_bind, List.getElem?_nil, Option.elim]
    | cons x xs =>
      have h := get?_forEachFrom_indexed emailForEach "email_"
        "E-mail inválido" (fun x => (!emailRegex.test x.enderecoEmail) = true)
        emailForEach_eq (x :: xs) 0 i errors
      rw [Nat.zero_add] at h
      simp only [emailsRule, List.length_cons, Nat.add_one_ne_zero, beq_iff_eq, if_false,
        arrayForEach, Option.some_bind]
      exact h

theorem get?_validate_telefones (f : FormDataArg) :
    (validateClienteForm f).get? "telefones"
      = if f.telefones = none ∨ f.telefones = some [] then
          some "Adicione pelo menos um telefone"
        else none := by
  rw [validateClienteForm_eq, get?_emailsRule_of_ne _ _ _ (by decide) (by decide),
    get?_telefonesRule_telefones, get?_scalarRules_of_not_mem f "telefones" (by decide)]

theorem get?_validate_emails (f : FormDataArg) :
    (validateClienteForm f).get? "emails"
      = if f.emails = none ∨ f.emails = some [] then some "Adicione pelo menos um e-mail"
        else none := by
  rw [validateClienteForm_eq, get?_emailsRule_emails,
    get?_telefonesRule_of_ne _ _ _ (by decide) (by decide),
    get?_scalarRules_of_not_mem f "emails" (by decide)]

theorem get?_validate_telefone_key (f : FormDataArg) (i : Nat) :
    (validateClienteForm f).get? ("telefone_" ++ toString i)
      = (f.telefones.bind (fun l => l[i]?)).elim none
          (fun x =>
            if (stripNonDigits x.numero).length < 10 then
              some "Telefone deve ter no mínimo 10 dígitos"
            else none) := by
  rw [validateClienteForm_eq,
    get?_emailsRule_of_ne _ _ _
      (prefixed_ne "telefone_" (toString i) "emails" (by decide)).symm
      (isPrefixOf_email_telefone i),
    get?_telefonesRule_key, get?_scalarRules_of_not_mem f _ (telefone_key_not_scalar i)]

theorem get?_validate_email_key (f : FormDataArg) (i : Nat) :
    (validateClienteForm f).get? ("email_" ++ toString i)
      = (f.emails.bind (fun l => l[i]?)).elim none
          (fun x =>
            if (!emailRegex.test x.enderecoEmail) = true then some "E-mail inválido"
            else none) := by
  rw [validateClienteForm_eq, get?_emailsRule_key,
    get?_telefonesRule_of_ne _ _ _
      (prefixed_ne "email_" (toString i) "telefones" (by decide)).symm
      (isPrefixOf_telefone_email i),
    get?_scalarRules_of_not_mem f _ (email_key_not_scalar i)]

theorem has_validate_telefone_key (f : FormDataArg) (i : Nat) :
    (validateClienteForm f).has ("telefone_" ++ toString i) ↔
      ∃ l t, f.telefones = some l ∧ l[i]? = some t ∧ (stripNonDigits t.numero).length < 10 := by
  rw [Errors.has_iff_get?, get?_validate_telefone_key]
  cases f.telefones with
  | none => simp
  | some l =>
    cases h : l[i]? with
    | none => simp [h]
    | some t =>
      by_cases hb : (stripNonDigits t.numero).length < 10
      · simp [h, hb]
      · simp [h, hb]

theorem has_validate_email_key (f : FormDataArg) (i : Nat) :
    (validateClienteForm f).has ("email_" ++ toString i) ↔
      ∃ l e, f.emails = some l ∧ l[i]? = some e ∧ emailRegex.test e.enderecoEmail = false := by
  rw [Errors.has_iff_get?, get?_validate_email_key]
  cases f.emails with
  | none => simp
  | some l =>
    cases h : l[i]? with
    | none => simp [h]
    | some t =>
      cases hb : emailRegex.test t.enderecoEmail
      · simp [h, hb]
      · simp [h, hb]

theorem has_validate_telefones (f : FormDataArg) :
    (validateClienteForm f).has "telefones" ↔ f.telefones = none ∨ f.telefones = some [] := by
  rw [Errors.has_iff_get?, get?_validate_telefones]
  by_cases h : f.telefones = none ∨ f.telefones = some []
  · simp [h]
  · simp [h]

theorem has_validate_emails (f : FormDataArg) :
    (validateClienteForm f).has "emails" ↔ f.emails = none ∨ f.emails = some [] := by
  rw [Errors.has_iff_get?, get?_validate_emails]
  by_cases h : f.emails = none ∨ f.emails = some []
  · simp [h]
  · simp [h]

theorem forEachFrom_eq_self {α : Type} (cb : Errors → α → Nat → Errors) (xs : List α)
    (h : ∀ x ∈ xs, ∀ st i, cb st x i = st) : ∀ (n : Nat) (st : Errors),
    forEachFrom cb n xs st = st := by
  induction xs with
  | nil => intro n st; rfl
  | cons x xs ih =>
    intro n st
    simp only [forEachFrom]
    rw [h x (List.mem_cons_self x xs), ih (fun y hy => h y (List.mem_cons_of_mem _ hy))]

theorem not_eq_false_of_ne_false {b : Bool} (h : ¬ b = false) : (!b) = false := by
  cases b with
  | false => exact absurd rfl h
  | true => rfl

theorem scalarRules_eq_nil {f : FormDataArg} (h : ScalarsValid f) : scalarRules f = [] := by
  obtain ⟨h1, ⟨cpf, hcpf, hv⟩, ⟨hd1, hd2⟩, h4, h5, h6, h7, h8, h9⟩ := h
  have t4 : ∀ v : Option String, ¬ IsBlank v → (!isTruthy (v.map trim)) = false :=
    fun v hv => not_eq_false_of_ne_false (fun hc => hv ((isTruthy_trim_eq_false_iff _).mp hc))
  have t2 : (!isTruthy (f.cpf.map trim)) = false := by
    apply t4
    rw [hcpf]
    exact not_isBlank_of_validarCPF hv
  have t3 : (!isTruthy f.dataNascimento) = false := by
    refine not_eq_false_of_ne_false (fun hc => ?_)
    rcases (isTruthy_eq_false_iff _).mp hc with hc | hc
    · exact hd1 hc
    · exact hd2 hc
  have hg : validarCPF (f.cpf.getD "") = true := by
    rw [hcpf]
    exact hv
  unfold scalarRules
  simp only [t4 _ h1, t2, t3, t4 _ h4, t4 _ h5, t4 _ h6, t4 _ h7, t4 _ h8, t4 _ h9, hg,
    Bool.not_true, Bool.false_eq_true, if_false]

theorem telefonesRule_eq_self {f : FormDataArg} (h : TelefonesValid f) (errors : Errors) :
    telefonesRule f.telefones errors = errors := by
  obtain ⟨l, hl, hne, hall⟩ := h
  rw [hl]
  have hlen : (l.length == 0) = false := by
    cases l with
    | nil => exact absurd rfl hne
    | cons x xs => rfl
  simp only [telefonesRule, hlen, Bool.false_eq_true, if_false, arrayForEach]
  apply forEachFrom_eq_self
  intro x hx st i
  rw [telefoneForEach_eq, if_neg (Nat.not_lt.mpr (hall x hx))]

theorem emailsRule_eq_self {f : FormDataArg} (h : EmailsValid f) (errors : Errors) :
    emailsRule f.emails errors = errors := by
  obtain ⟨l, hl, hne, hall⟩ := h
  rw [hl]
  have hlen : (l.length == 0) = false := by
    cases l with
    | nil => exact absurd rfl hne
    | cons x xs => rfl
  simp only [emailsRule, hlen, Bool.false_eq_true, if_false, arrayForEach]
  apply forEachFrom_eq_self
  intro x hx st i
  rw [emailForEach_eq, hall x hx]
  rfl

theorem validate_eq_nil_of_valid {f : FormDataArg} (hs : ScalarsValid f)
    (ht : TelefonesValid f) (he : EmailsValid f) : validateClienteForm f = [] := by
  rw [validateClienteForm_eq, emailsRule_eq_self he, telefonesRule_eq_self ht,
    scalarRules_eq_nil hs]

/-! ## Lemmas on the regular-expression matcher -/

namespace RegExp

theorem nullable_iff (r : RegExp) : r.nullable = true ↔ r.Lang [] := by
  induction r with
  | fail => simp [nullable, Lang]
  | eps => simp [nullable, Lang]
  | cls p => simp [nullable, Lang]
  | seq a b iha ihb =>
    simp only [nullable, Lang, Bool.and_eq_true, iha, ihb]
    constructor
    · rintro ⟨ha, hb⟩
      exact ⟨[], [], rfl, ha, hb⟩
    · rintro ⟨u, v, huv, ha, hb⟩
      have h := List.append_eq_nil.mp huv.symm
      rw [h.1] at ha
      rw [h.2] at hb
      exact ⟨ha, hb⟩
  | alt a b iha ihb => simp only [nullable, Lang, Bool.or_eq_true, iha, ihb]
  | star a _ =>
    simp only [nullable, Lang, true_iff]
    exact ⟨[], rfl, fun u hu => absurd hu (List.not_mem_nil u)⟩

theorem lang_star_cons (a : RegExp) (c : Char) (s : List Char) :
    (star a).Lang (c :: s) ↔ ∃ u v, s = u ++ v ∧ a.Lang (c :: u) ∧ (star a).Lang v := by
  constructor
  · rintro ⟨pieces, hs, hall⟩
    induction pieces with
    | nil => exact absurd hs (List.cons_ne_nil c s)
    | cons p ps ih =>
      cases p with
      | nil =>
        exact ih hs (fun u hu => hall u (List.mem_cons_of_mem _ hu))
      | cons d p =>
        simp only [List.foldr_cons, List.cons_append, List.cons.injEq] at hs
        obtain ⟨hc, hs⟩ := hs
        subst hc
        exact ⟨p, ps.foldr (fun u acc => u ++ acc) [], hs,
          hall _ (List.mem_cons_self _ _),
          ⟨ps, rfl, fun u hu => hall u (List.mem_cons_of_mem _ hu)⟩⟩
  · rintro ⟨u, v, hs, ha, ⟨ps, hv, hall⟩⟩
    refine ⟨(c :: u) :: ps, ?_, ?_⟩
    · simp only [List.foldr_cons, List.cons_append, hs, hv]
    · intro w hw
      rcases List.mem_cons.mp hw with h | h
      · rw [h]
        exact ha
      · exact hall w h

theorem lang_deriv (r : RegExp) (c : Char) : ∀ s : List Char,
    (r.deriv c).Lang s ↔ r.Lang (c :: s) := by
  induction r with
  | fail => intro s; simp [deriv, Lang]
  | eps => intro s; simp [deriv, Lang]
  | cls p =>
    intro s
    simp only [deriv, Lang]
    by_cases hp : p c = true
    · simp only [hp, if_true, Lang]
      constructor
      · rintro rfl
        exact ⟨c, rfl, hp⟩
      · rintro ⟨d, hd, _⟩
        exact (List.cons.inj hd).2
    · simp only [hp, if_false, Lang, false_iff]
      rintro ⟨d, hd, hpd⟩
      rw [← (List.cons.inj hd).1] at hpd
      exact hp hpd
  | seq a b iha ihb =>
    intro s
    have hcons : (seq a b).Lang (c :: s) ↔
        (∃ u v, s = u ++ v ∧ a.Lang (c :: u) ∧ b.Lang v) ∨ (a.Lang [] ∧ b.Lang (c :: s)) := by
      simp only [Lang]
      constructor
      · rintro ⟨u, v, huv, ha, hb⟩
        cases u with
        | nil =>
          right
          rw [List.nil_append] at huv
          rw [← huv] at hb
          exact ⟨ha, hb⟩
        | cons d u =>
          left
          rw [List.cons_append] at huv
          obtain ⟨hd, hs⟩ := List.cons.inj huv
          subst hd
          exact ⟨u, v, hs, ha, hb⟩
      · rintro (⟨u, v, hs, ha, hb⟩ | ⟨ha, hb⟩)
        · exact ⟨c :: u, v, by rw [hs, List.cons_append], ha, hb⟩
        · exact ⟨[], c :: s, rfl, ha, hb⟩
    rw [hcons]
    simp only [deriv]
    by_cases hn : a.nullable = true
    · simp only [hn, if_true, Lang, iha, ihb]
      constructor
      · rintro (h | h)
        · exact Or.inl h
        · exact Or.inr ⟨(nullable_iff a).mp hn, h⟩
      · rintro (h | ⟨_, h⟩)
        · exact Or.inl h
        · exact Or.inr h
    · simp only [hn, if_false, Lang, iha]
      constructor
      · intro h
        exact Or.inl h
      · rintro (h | ⟨h, _⟩)
        · exact h
        · exact absurd ((nullable_iff a).mpr h) hn
  | alt a b iha ihb =>
    intro s
    simp only [deriv, Lang, iha, ihb]
  | star a iha =>
    intro s
    rw [lang_star_cons]
    show (∃ u v, s = u ++ v ∧ (a.deriv c).Lang u ∧ (star a).Lang v) ↔ _
    simp only [iha]

theorem test_iff (r : RegExp) (s : String) : r.test s = true ↔ r.Lang s.toList := by
  unfold test
  generalize s.toList = l
  induction l generalizing r with
  | nil => exact nullable_iff r
  | cons c l ih =>
    rw [List.foldl_cons, ih, lang_deriv]

theorem lang_star_cls (p : Char → Bool) (s : List Char) :
    (star (cls p)).Lang s ↔ ∀ x ∈ s, p x = true := by
  induction s with
  | nil =>
    simp only [List.not_mem_nil, false_implies, implies_true, iff_true]
    exact ⟨[], rfl, fun u hu => absurd hu (List.not_mem_nil u)⟩
  | cons c s ih =>
    rw [lang_star_cons]
    constructor
    · rintro ⟨u, v, hs, ⟨d, hd, hpd⟩, hv⟩
      obtain ⟨hcd, hu⟩ := List.cons.inj hd
      subst hcd
      subst hu
      rw [List.nil_append] at hs
      subst hs
      intro x hx
      rcases List.mem_cons.mp hx with h | h
      · rw [h]
        exact hpd
      · exact ih.mp hv x h
    · intro h
      exact ⟨[], s, rfl, ⟨c, rfl, h c (List.mem_cons_self c s)⟩,
        ih.mpr (fun x hx => h x (List.mem_cons_of_mem _ hx))⟩

theorem lang_plus_cls (p : Char → Bool) (s : List Char) :
    (plus (cls p)).Lang s ↔ s ≠ [] ∧ ∀ x ∈ s, p x = true := by
  show (∃ u v, s = u ++ v ∧ (∃ c, u = [c] ∧ p c = true) ∧ (star (cls p)).Lang v) ↔ _
  simp only [lang_star_cls]
  constructor
  · rintro ⟨u, v, hs, ⟨c, hu, hpc⟩, hv⟩
    subst hu
    subst hs
    refine ⟨List.cons_ne_nil _ _, ?_⟩
    intro x hx
    rcases List.mem_cons.mp hx with h | h
    · rw [h]
      exact hpc
    · exact hv x h
  · rintro ⟨hne, hall⟩
    cases s with
    | nil => exact absurd rfl hne
    | cons c s =>
      exact ⟨[c], s, rfl, ⟨c, rfl, hall c (List.mem_cons_self c s)⟩,
        fun x hx => hall x (List.mem_cons_of_mem _ hx)⟩

end RegExp

theorem notSpaceNorAt_iff (x : Char) :
    notSpaceNorAt x = true ↔ isWhiteSpace x = false ∧ x ≠ '@' := by
  unfold notSpaceNorAt
  cases isWhiteSpace x <;> simp

theorem emailRegex_test_iff (s : String) : emailRegex.test s = true ↔ EmailShape s := by
  rw [RegExp.test_iff]
  unfold EmailShape
  generalize s.toList = l
  show (∃ u v, l = u ++ v ∧ (RegExp.plus (.cls notSpaceNorAt)).Lang u ∧
      ∃ u₁ v₁, v = u₁ ++ v₁ ∧ (∃ c, u₁ = [c] ∧ (c == '@') = true) ∧
      ∃ u₂ v₂, v₁ = u₂ ++ v₂ ∧ (RegExp.plus (.cls notSpaceNorAt)).Lang u₂ ∧
      ∃ u₃ v₃, v₂ = u₃ ++ v₃ ∧ (∃ c, u₃ = [c] ∧ (c == '.') = true) ∧
      (RegExp.plus (.cls notSpaceNorAt)).Lang v₃) ↔ _
  simp only [RegExp.lang_plus_cls, notSpaceNorAt_iff, beq_iff_eq]
  constructor
  · rintro ⟨a, v, hl, ⟨ha, hpa⟩, u₁, v₁, hv, ⟨c₁, hu₁, hc₁⟩, b, v₂, hv₁, ⟨hb, hpb⟩,
      u₃, c, hv₂, ⟨c₃, hu₃, hc₃⟩, hc, hpc⟩
    subst hc₁ hc₃ hu₁ hu₃ hv₂ hv₁ hv hl
    exact ⟨a, b, c, rfl, ha, hb, hc, hpa, hpb, hpc⟩
  · rintro ⟨a, b, c, hl, ha, hb, hc, hpa, hpb, hpc⟩
    exact ⟨a, '@' :: (b ++ '.' :: c), hl, ⟨ha, hpa⟩, ['@'], b ++ '.' :: c, rfl,
      ⟨'@', rfl, rfl⟩, b, '.' :: c, rfl, ⟨hb, hpb⟩, ['.'], c, rfl, ⟨'.', rfl, rfl⟩, hc, hpc⟩

/-! ## Lemmas on repaired forms -/

theorem has_iff_of_get? {errors : Errors} {k m : String} {b : Bool}
    (h : errors.get? k = if b = false then some m else none) : errors.has k ↔ b = false := by
  rw [Errors.has_iff_get?, h]
  cases b <;> simp

theorem has_validate_cpf (f : FormDataArg) :
    (validateClienteForm f).has "cpf" ↔ ¬ ∃ cpf, f.cpf = some cpf ∧ validarCPF cpf = true := by
  rw [Errors.has_iff_get?, get?_validate_cpf]
  constructor
  · rintro h ⟨cpf, hcpf, hv⟩
    have ht : ¬ isTruthy (f.cpf.map trim) = false := by
      rw [isTruthy_trim_eq_false_iff, hcpf]
      exact not_isBlank_of_validarCPF hv
    rw [if_neg ht, hcpf, Option.getD_some, hv] at h
    exact h rfl
  · intro h
    by_cases ht : isTruthy (f.cpf.map trim) = false
    · rw [if_pos ht]
      exact fun hc => Option.noConfusion hc
    · rw [if_neg ht]
      cases hcpf : f.cpf with
      | none =>
        rw [hcpf] at ht
        exact absurd rfl ht
      | some cpf =>
        cases hv : validarCPF cpf with
        | true => exact absurd ⟨cpf, hcpf, hv⟩ h
        | false =>
          rw [Option.getD_some, hv, if_pos rfl]
          exact fun hc => Option.noConfusion hc

theorem repairsField_not_blank {reported : Prop} {vx vy : Option String}
    (h : RepairsField reported vx vy) (hx : reported ↔ IsBlank vx) : ¬ IsBlank vy := by
  by_cases hr : reported
  · exact h.1 hr
  · rw [h.2 hr]
    exact fun hb => hr (hx.mpr hb)

theorem scalarsValid_of_repairs {x y : FormDataArg} (h : Repairs x y) : ScalarsValid y := by
  have hb : ∀ (k m : String) (v : Option String),
      (validateClienteForm x).get? k
        = (if isTruthy (v.map trim) = false then some m else none) →
      ((validateClienteForm x).has k ↔ IsBlank v) := by
    intro k m v hg
    rw [has_iff_of_get? hg, isTruthy_trim_eq_false_iff]
  refine ⟨repairsField_not_blank h.nome (hb _ _ _ (get?_validate_nome x)), ?_, ?_,
    repairsField_not_blank h.cep (hb _ _ _ (get?_validate_cep x)),
    repairsField_not_blank h.logradouro (hb _ _ _ (get?_validate_logradouro x)),
    repairsField_not_blank h.numero (hb _ _ _ (get?_validate_numero x)),
    repairsField_not_blank h.bairro (hb _ _ _ (get?_validate_bairro x)),
    repairsField_not_blank h.cidade (hb _ _ _ (get?_validate_cidade x)),
    repairsField_not_blank h.uf (hb _ _ _ (get?_validate_uf x))⟩
  · by_cases hr : (validateClienteForm x).has "cpf"
    · exact h.cpf_reported hr
    · rw [h.cpf_kept hr]
      exact Classical.not_not.mp (fun hn => hr ((has_validate_cpf x).mpr hn))
  · by_cases hr : (validateClienteForm x).has "dataNascimento"
    · exact h.dataNascimento_reported hr
    · rw [h.dataNascimento_kept hr]
      have hx := (has_iff_of_get? (get?_validate_dataNascimento x)).not.mp hr
      rw [isTruthy_eq_false_iff, not_or] at hx
      exact hx

theorem telefonesValid_of_repairs {x y : FormDataArg} (h : Repairs x y) : TelefonesValid y := by
  by_cases hr : (validateClienteForm x).has "telefones"
  · exact h.telefones_reported hr
  · have hx := (has_validate_telefones x).not.mp hr
    rw [not_or] at hx
    cases hlx : x.telefones with
    | none => exact absurd hlx hx.1
    | some lx =>
      have hne : lx ≠ [] := fun he => hx.2 (by rw [hlx, he])
      obtain ⟨ly, hly, hlen, hall⟩ := h.telefones_kept hr lx hlx
      refine ⟨ly, hly, ?_, ?_⟩
      · intro he
        rw [he] at hlen
        exact hne (List.length_eq_zero.mp hlen.symm)
      · intro ty hty
        obtain ⟨i, hi, hget⟩ := List.mem_iff_getElem.mp hty
        have hix : i < lx.length := by rw [← hlen]; exact hi
        have h1 : lx[i]? = some lx[i] := List.getElem?_eq_getElem hix
        have h2 : ly[i]? = some ty := by rw [List.getElem?_eq_getElem hi, hget]
        obtain ⟨hrep, hkept⟩ := hall i lx[i] ty h1 h2
        by_cases hk : (validateClienteForm x).has ("telefone_" ++ toString i)
        · exact hrep hk
        · rw [hkept hk]
          apply Nat.le_of_not_lt
          intro hlt
          exact hk ((has_validate_telefone_key x i).mpr ⟨lx, lx[i], hlx, h1, hlt⟩)

theorem emailsValid_of_repairs {x y : FormDataArg} (h : Repairs x y) : EmailsValid y := by
  by_cases hr : (validateClienteForm x).has "emails"
  · exact h.emails_reported hr
  · have hx := (has_validate_emails x).not.mp hr
    rw [not_or] at hx
    cases hlx : x.emails with
    | none => exact absurd hlx hx.1
    | some lx =>
      have hne : lx ≠ [] := fun he => hx.2 (by rw [hlx, he])
      obtain ⟨ly, hly, hlen, hall⟩ := h.emails_kept hr lx hlx
      refine ⟨ly, hly, ?_, ?_⟩
      · intro he
        rw [he] at hlen
        exact hne (List.length_eq_zero.mp hlen.symm)
      · intro ey hey
        obtain ⟨i, hi, hget⟩ := List.mem_iff_getElem.mp hey
        have hix : i < lx.length := by rw [← hlen]; exact hi
        have h1 : lx[i]? = some lx[i] := List.getElem?_eq_getElem hix
        have h2 : ly[i]? = some ey := by rw [List.getElem?_eq_getElem hi, hget]
        obtain ⟨hrep, hkept⟩ := hall i lx[i] ey h1 h2
        by_cases hk : (validateClienteForm x).has ("email_" ++ toString i)
        · exact hrep hk
        · rw [hkept hk]
          cases ht : emailRegex.test lx[i].enderecoEmail with
          | true => rfl
          | false =>
            exact absurd ((has_validate_email_key x i).mpr ⟨lx, lx[i], hlx, h1, ht⟩) hk

theorem filledForm_scalarsValid : ScalarsValid filledForm.toArg :=
  ⟨fun h => absurd (h 'A' (by decide)) (by decide),
    ⟨"529.982.247-25", rfl, by decide⟩,
    ⟨by decide, by decide⟩,
    fun h => absurd (h '0' (by decide)) (by decide),
    fun h => absurd (h 'P' (by decide)) (by decide),
    fun h => absurd (h '1' (by decide)) (by decide),
    fun h => absurd (h 'S' (by decide)) (by decide),
    fun h => absurd (h 'S' (by decide)) (by decide),
    fun h => absurd (h 'S' (by decide)) (by decide)⟩

theorem filledForm_telefonesValid : TelefonesValid filledForm.toArg :=
  ⟨_, rfl, by decide, by decide⟩

theorem filledForm_emailsValid : EmailsValid filledForm.toArg :=
  ⟨_, rfl, by decide, by decide⟩

theorem keys_validate_initialFormState :
    (validateClienteForm initialFormState.toArg).keys
      = ["nome", "cpf", "dataNascimento", "cep", "logradouro", "numero", "bairro", "cidade",
          "uf", "telefone_0", "email_0"] := by decide

theorem has_validate_initialFormState {k : String}
    (hk : k ∈ ["nome", "cpf", "dataNascimento", "cep", "logradouro", "numero", "bairro",
      "cidade", "uf", "telefone_0", "email_0"]) :
    (validateClienteForm initialFormState.toArg).has k := by
  unfold Errors.has
  rw [keys_validate_initialFormState]
  exact hk

theorem not_isBlank_of_mem {s : String} (c : Char) (hc : c ∈ s.toList)
    (hw : isWhiteSpace c = false) : ¬ IsBlank (some s) := by
  intro h
  have := h c hc
  rw [hw] at this
  exact Bool.noConfusion this

/-! ## Lemmas on submission and postal lookup -/

theorem applyEffects_append (s : HookState) (l₁ l₂ : List Effect) :
    applyEffects s (l₁ ++ l₂) = applyEffects (applyEffects s l₁) l₂ := by
  unfold applyEffects
  rw [List.foldl_append]

theorem applyEffects_formData (s : HookState) (l : List Effect) :
    (applyEffects s l).formData = s.formData := by
  induction l generalizing s with
  | nil => rfl
  | cons e l ih =>
    have h : applyEffects s (e :: l) = applyEffects (applyEffects s [e]) l := rfl
    rw [h, ih]
    cases e <;> rfl

theorem keys_length_pos_iff (errors : Errors) : errors.keys.length > 0 ↔ errors ≠ [] := by
  cases errors with
  | nil => simp [Errors.keys]
  | cons kv es => simp [Errors.keys]

theorem filledForm_valid : validateClienteForm filledForm.toArg = [] := by decide

theorem includes_iff (s sub : String) :
    includes s sub = true ↔ ∃ a b : List Char, s.toList = a ++ sub.toList ++ b := by
  unfold includes
  rw [List.any_eq_true]
  constructor
  · rintro ⟨t, ht, hp⟩
    rw [List.mem_tails] at ht
    rw [List.isPrefixOf_iff_prefix] at hp
    obtain ⟨a, ha⟩ := ht
    obtain ⟨b, hb⟩ := hp
    exact ⟨a, b, by rw [← ha, ← hb, List.append_assoc]⟩
  · rintro ⟨a, b, h⟩
    refine ⟨sub.toList ++ b, ?_, ?_⟩
    · rw [List.mem_tails]
      exact ⟨a, by rw [h, List.append_assoc]⟩
    · rw [List.isPrefixOf_iff_prefix]
      exact ⟨b, rfl⟩

theorem handleSubmitEffects_rejected (clienteId : Option Nat) (onSuccess onClose : Bool)
    (error : ServiceError) (s : HookState) (hvalid : validateClienteForm s.formData.toArg = []) :
    handleSubmitEffects clienteId onSuccess onClose (.rejected error) s
      = [.preventDefault, .setLoading true]
        ++ ((if (clienteId.getD 0) != 0 then [.serviceUpdate (clienteId.getD 0) s.formData]
            else [.serviceCreate s.formData]) ++ catchBlock error)
        ++ [.setLoading false] := by
  unfold handleSubmitEffects
  simp [hvalid, Errors.keys]

theorem catchBlock_400 (data : ResponseData) (m : String)
    (hm : orElse data.message data.error = some m) (hne : m ≠ "") :
    catchBlock ⟨some ⟨400, some data⟩⟩
      = if includes m "CPF" then [.setErrors [("cpf", some m)], .consoleError]
        else if includes m "CEP" then [.setErrors [("cep", some m)], .consoleError]
        else [.toastError m, .setErrors [], .consoleError] := by
  have ht : isTruthy (some m) = true := by
    show (!m.data.isEmpty) = true
    cases hd : m.data with
    | nil => exact absurd (String.ext hd) hne
    | cons c cs => rfl
  unfold catchBlock
  simp only [Option.map_some', beq_self_eq_true, if_true, Option.some_bind, hm, ht,
    Option.getD_some]
  rfl

theorem catchBlock_not_400 (error : ServiceError)
    (h : error.response.map (fun r => r.status) ≠ some 400) :
    catchBlock error = [.toastError "Erro ao salvar cliente", .consoleError] := by
  unfold catchBlock
  have hb : (error.response.map (fun r => r.status) == some 400) = false := by
    simpa using h
  simp only [hb, Bool.false_eq_true, if_false]

theorem applyEffects_errors (s : HookState) (l : List Effect)
    (h : ∀ e ∈ l, e.isSetErrors = false) : (applyEffects s l).errors = s.errors := by
  induction l generalizing s with
  | nil => rfl
  | cons e l ih =>
    have h1 : applyEffects s (e :: l) = applyEffects (applyEffects s [e]) l := rfl
    rw [h1, ih _ (fun e he => h e (List.mem_cons_of_mem _ he))]
    have he := h e (List.mem_cons_self e l)
    cases e <;> first | rfl | exact Bool.noConfusion he

/-! ## Lemmas on field setters, hydration, search and the CPF mask -/

theorem orEmpty_eq_getD (v : Option String) : orEmpty v = v.getD "" := by
  unfold orEmpty
  cases v with
  | none => rfl
  | some x =>
    by_cases hx : isTruthy (some x) = true
    · rw [if_pos hx]
    · rw [if_neg hx, Option.getD_some]
      have hd : x.data = [] := by
        cases hd : x.data with
        | nil => rfl
        | cons c cs =>
          exact absurd (show isTruthy (some x) = true by
            show (!x.data.isEmpty) = true
            rw [hd]
            rfl) hx
      exact (String.ext hd).symm

namespace ErrorsState

theorem state_set_cons_ne (a : String) (b : Option String) (es : ErrorsState) (key : String)
    (value : Option String) (h : a ≠ key) :
    ErrorsState.set ((a, b) :: es) key value = (a, b) :: ErrorsState.set es key value := by
  have ha : (a == key) = false := by simpa using h
  unfold ErrorsState.set
  simp only [List.any_cons, ha, Bool.false_or]
  split
  · simp only [List.map_cons, ha, Bool.false_eq_true, if_false]
  · rfl

theorem state_lookup_map_replace (es : ErrorsState) (key : String) (value : Option String)
    (k : String) (h : k ≠ key) :
    List.lookup k (es.map (fun kv => if kv.1 == key then (key, value) else kv))
      = List.lookup k es := by
  have hk : (k == key) = false := by simpa using h
  induction es with
  | nil => rfl
  | cons p es ih =>
    obtain ⟨a, b⟩ := p
    by_cases ha : a = key
    · subst ha
      simp only [List.map_cons, beq_self_eq_true, if_true, List.lookup_cons, hk, ih]
    · have ha' : (a == key) = false := by simpa using ha
      simp only [List.map_cons, ha', Bool.false_eq_true, if_false, List.lookup_cons, ih]

theorem state_lookup_set (errors : ErrorsState) (key : String) (value : Option String) (k : String) :
    List.lookup k (errors.set key value)
      = if k = key then some value else List.lookup k errors := by
  induction errors with
  | nil =>
    show List.lookup k [(key, value)] = _
    by_cases hk : k = key
    · subst hk
      simp only [List.lookup_cons_self, if_true]
    · have hk' : (k == key) = false := by simpa using hk
      simp only [List.lookup_cons, hk', hk, if_false, List.lookup_nil]
  | cons p es ih =>
    obtain ⟨a, b⟩ := p
    by_cases ha : a = key
    · subst ha
      have hset : ErrorsState.set ((a, b) :: es) a value
          = (a, value) :: es.map (fun kv => if kv.1 == a then (a, value) else kv) := by
        unfold ErrorsState.set
        simp only [List.any_cons, beq_self_eq_true, Bool.true_or, if_true, List.map_cons]
      rw [hset]
      by_cases hk : k = a
      · subst hk
        simp only [List.lookup_cons_self, if_true]
      · have hk' : (k == a) = false := by simpa using hk
        simp only [List.lookup_cons, hk', hk, if_false, state_lookup_map_replace es a value k hk]
    · rw [state_set_cons_ne a b es key value ha]
      by_cases hka : k = a
      · subst hka
        simp only [List.lookup_cons_self, ha, if_false]
      · have hka' : (k == a) = false := by simpa using hka
        simp only [List.lookup_cons, hka', ih]

theorem state_get?_set (errors : ErrorsState) (key : String) (value : Option String) (k : String) :
    (errors.set key value).get? k = if k = key then value else errors.get? k := by
  unfold ErrorsState.get?
  rw [state_lookup_set]
  split <;> rfl

end ErrorsState

theorem handleChange_errors (name : CampoPessoal) (value : String) (s : HookState) :
    (handleChange name value s).errors
      = if isTruthy (s.errors.get? name.name) then s.errors.set name.name none
        else s.errors := by
  unfold handleChange
  split <;> rfl

theorem handleChange_formData (name : CampoPessoal) (value : String) (s : HookState) :
    (handleChange name value s).formData = s.formData.set name value := by
  unfold handleChange
  split <;> rfl

theorem handleEnderecoChange_errors (name : CampoEndereco) (value : String) (s : HookState) :
    (handleEnderecoChange name value s).errors
      = if isTruthy (s.errors.get? name.name) then s.errors.set name.name none
        else s.errors := by
  unfold handleEnderecoChange
  split <;> rfl

theorem handleEnderecoChange_formData (name : CampoEndereco) (value : String)
    (s : HookState) :
    (handleEnderecoChange name value s).formData
      = { s.formData with endereco := s.formData.endereco.set name value } := by
  unfold handleEnderecoChange
  split <;> rfl

theorem errors_after_clear (errors : ErrorsState) (key : String) :
    isTruthy ((if isTruthy (errors.get? key) then errors.set key none else errors).get? key)
        = false ∧
    (isTruthy (errors.get? key) = true →
      (if isTruthy (errors.get? key) then errors.set key none else errors).get? key = none) ∧
    (∀ k, k ≠ key →
      (if isTruthy (errors.get? key) then errors.set key none else errors).get? k
        = errors.get? k) := by
  by_cases h : isTruthy (errors.get? key) = true
  · rw [if_pos h]
    refine ⟨?_, fun _ => ?_, fun k hk => ?_⟩
    · rw [ErrorsState.state_get?_set, if_pos rfl]
      rfl
    · rw [ErrorsState.state_get?_set, if_pos rfl]
    · rw [ErrorsState.state_get?_set, if_neg hk]
  · rw [if_neg h]
    exact ⟨by simpa using h, fun hc => absurd hc h, fun _ _ => rfl⟩

theorem filterOrRaise_eq_filter {α : Type} (p : α → Option Bool) (q : α → Bool)
    (l : List α) (h : ∀ x ∈ l, p x = some (q x)) : filterOrRaise p l = some (l.filter q) := by
  induction l with
  | nil => rfl
  | cons x xs ih =>
    have hx := h x (List.mem_cons_self x xs)
    have hxs := ih (fun y hy => h y (List.mem_cons_of_mem _ hy))
    simp only [filterOrRaise, hx, hxs, List.filter_cons]

theorem isTruthy_some_eq_false_iff (t : String) : isTruthy (some t) = false ↔ t = "" := by
  rw [isTruthy_eq_false_iff]
  constructor
  · rintro (h | h)
    · exact Option.noConfusion h
    · exact Option.some.inj h
  · intro h
    exact Or.inr (by rw [h])

theorem matchesSearch_of_empty (toLowerCase : String → String) (c : Cliente) :
    matchesSearch toLowerCase "" c = some true := rfl

theorem matchesSearch_spec (toLowerCase : String → String) (searchTerm : String) (c : Cliente)
    (hn : c.nome ≠ none) (hc : c.cpf ≠ none) :
    ∃ b, matchesSearch toLowerCase searchTerm c = some b ∧
      (b = true ↔ SearchMatch toLowerCase searchTerm c) := by
  obtain ⟨id, nome, cpf, dn, endereco, telefones, emails⟩ := c
  cases nome with
  | none => exact absurd rfl hn
  | some nome =>
    cases cpf with
    | none => exact absurd rfl hc
    | some cpf =>
      unfold matchesSearch SearchMatch
      by_cases ht : isTruthy (some searchTerm) = true
      · have hne : searchTerm ≠ "" := by
          intro he
          rw [(isTruthy_some_eq_false_iff searchTerm).mpr he] at ht
          exact Bool.noConfusion ht
        simp only [ht, Bool.not_true, Bool.false_eq_true, if_false, hne, false_or,
          Option.some.injEq, exists_eq_left', IsSubstring, ← includes_iff]
        by_cases h1 : includes (toLowerCase nome) (toLowerCase searchTerm) = true
        · exact ⟨true, by simp [h1], by simp [h1]⟩
        · by_cases h2 : includes cpf searchTerm = true
          · exact ⟨true, by simp [h1, h2], by simp [h2]⟩
          · cases emails with
            | none => exact ⟨false, by simp [h1, h2], by simp [h1, h2]⟩
            | some es =>
              refine ⟨es.any (fun e =>
                includes (toLowerCase e.enderecoEmail) (toLowerCase searchTerm)),
                by simp [h1, h2], ?_⟩
              simp only [h1, h2, false_or, List.any_eq_true, Option.some.injEq,
                exists_eq_left']
              constructor
              · rintro ⟨x, hx, hi⟩
                exact Or.inr (Or.inr ⟨es, x, rfl, hx, hi⟩)
              · rintro (h | h | ⟨_, e, rfl, he, hi⟩)
                · exact Bool.noConfusion h
                · exact Bool.noConfusion h
                · exact ⟨e, he, hi⟩
      · have he : searchTerm = "" :=
          (isTruthy_some_eq_false_iff searchTerm).mp (by simpa using ht)
        have hf : isTruthy (some searchTerm) = false := by simpa using ht
        exact ⟨true, by simp [hf], by simp [he]⟩

theorem filterOrRaise_eq_some_iff {α : Type} (p : α → Option Bool) (l : List α) :
    ∀ r : List α, filterOrRaise p l = some r ↔
      (∀ x ∈ l, ∃ b, p x = some b) ∧ r = l.filter (fun x => (p x).getD false) := by
  induction l with
  | nil =>
    intro r
    constructor
    · intro h
      exact ⟨fun x hx => absurd hx (List.not_mem_nil x), (Option.some.inj h).symm⟩
    · rintro ⟨_, hr⟩
      rw [hr]
      rfl
  | cons x xs ih =>
    intro r
    constructor
    · intro h
      cases hp : p x with
      | none =>
        simp only [filterOrRaise, hp] at h
        exact Option.noConfusion h
      | some keep =>
        cases hr : filterOrRaise p xs with
        | none =>
          simp only [filterOrRaise, hp, hr] at h
          exact Option.noConfusion h
        | some rest =>
          simp only [filterOrRaise, hp, hr, Option.some.injEq] at h
          obtain ⟨hall, hrest⟩ := (ih rest).mp hr
          refine ⟨?_, ?_⟩
          · intro y hy
            rcases List.mem_cons.mp hy with hy | hy
            · rw [hy]
              exact ⟨keep, hp⟩
            · exact hall y hy
          · rw [← h, hrest, List.filter_cons, hp]
            rfl
    · rintro ⟨hall, hr⟩
      rw [hr]
      apply filterOrRaise_eq_filter
      intro y hy
      obtain ⟨b, hb⟩ := hall y hy
      rw [hb]
      rfl

theorem isTruthy_some_of_ne {t : String} (h : t ≠ "") : isTruthy (some t) = true := by
  cases hx : isTruthy (some t) with
  | true => rfl
  | false => exact absurd ((isTruthy_some_eq_false_iff t).mp hx) h

theorem matchesSearch_of_ne (toLowerCase : String → String) (searchTerm : String)
    (c : Cliente) (h : searchTerm ≠ "") :
    matchesSearch toLowerCase searchTerm c
      = (c.nome.elim none (fun nome =>
          if includes (toLowerCase nome) (toLowerCase searchTerm) then some true
          else c.cpf.elim none (fun cpf =>
            if includes cpf searchTerm then some true
            else c.emails.elim (some false) (fun emails =>
              some (emails.any (fun e =>
                includes (toLowerCase e.enderecoEmail) (toLowerCase searchTerm))))))) := by
  obtain ⟨id, nome, cpf, dn, endereco, telefones, emails⟩ := c
  unfold matchesSearch
  simp only [isTruthy_some_of_ne h, Bool.not_true, Bool.false_eq_true, if_false]
  cases nome with
  | none => rfl
  | some nome =>
    cases cpf with
    | none => rfl
    | some cpf =>
      cases emails with
      | none => rfl
      | some emails => rfl

theorem matchesSearch_some_iff (toLowerCase : String → String) (searchTerm : String)
    (c : Cliente) (b : Bool) (h : matchesSearch toLowerCase searchTerm c = some b) :
    (b = true ↔ SearchMatch toLowerCase searchTerm c) := by
  by_cases he : searchTerm = ""
  · subst he
    rw [matchesSearch_of_empty] at h
    cases h
    exact ⟨fun _ => Or.inl rfl, fun _ => rfl⟩
  · rw [matchesSearch_of_ne toLowerCase searchTerm c he] at h
    unfold SearchMatch
    simp only [he, false_or, IsSubstring, ← includes_iff]
    cases hn : c.nome with
    | none =>
      rw [hn] at h
      exact Option.noConfusion h
    | some nome =>
      rw [hn] at h
      simp only [Option.elim] at h
      by_cases h1 : includes (toLowerCase nome) (toLowerCase searchTerm) = true
      · rw [if_pos h1] at h
        cases h
        exact ⟨fun _ => Or.inl ⟨nome, rfl, h1⟩, fun _ => rfl⟩
      · rw [if_neg h1] at h
        cases hc : c.cpf with
        | none =>
          rw [hc] at h
          exact Option.noConfusion h
        | some cpf =>
          rw [hc] at h
          simp only at h
          by_cases h2 : includes cpf searchTerm = true
          · rw [if_pos h2] at h
            cases h
            exact ⟨fun _ => Or.inr (Or.inl ⟨cpf, rfl, h2⟩), fun _ => rfl⟩
          · rw [if_neg h2] at h
            cases hm : c.emails with
            | none =>
              rw [hm] at h
              cases h
              constructor
              · intro hb
                exact Bool.noConfusion hb
              · rintro (⟨n, hn', hi⟩ | ⟨p, hp, hi⟩ | ⟨es, e, hes, _, _⟩)
                · cases hn'
                  exact absurd hi h1
                · cases hp
                  exact absurd hi h2
                · exact Option.noConfusion hes
            | some emails =>
              rw [hm] at h
              cases h
              rw [List.any_eq_true]
              constructor
              · rintro ⟨e, he', hi⟩
                exact Or.inr (Or.inr ⟨emails, e, rfl, he', hi⟩)
              · rintro (⟨n, hn', hi⟩ | ⟨p, hp, hi⟩ | ⟨es, e, hes, he', hi⟩)
                · cases hn'
                  exact absurd hi h1
                · cases hp
                  exact absurd hi h2
                · cases hes
                  exact ⟨e, he', hi⟩

theorem matchesSearch_returns_iff (toLowerCase : String → String) (searchTerm : String)
    (c : Cliente) :
    (∃ b, matchesSearch toLowerCase searchTerm c = some b) ↔
      searchTerm = "" ∨
      ∃ nome, c.nome = some nome ∧
        (IsSubstring (toLowerCase searchTerm) (toLowerCase nome) ∨ c.cpf ≠ none) := by
  by_cases he : searchTerm = ""
  · subst he
    exact ⟨fun _ => Or.inl rfl, fun _ => ⟨true, matchesSearch_of_empty toLowerCase c⟩⟩
  · rw [matchesSearch_of_ne toLowerCase searchTerm c he]
    simp only [he, false_or, IsSubstring, ← includes_iff]
    cases hn : c.nome with
    | none =>
      constructor
      · rintro ⟨b, hb⟩
        exact Option.noConfusion hb
      · rintro ⟨n, hn', _⟩
        exact Option.noConfusion hn'
    | some nome =>
      simp only [Option.elim]
      by_cases h1 : includes (toLowerCase nome) (toLowerCase searchTerm) = true
      · rw [if_pos h1]
        exact ⟨fun _ => ⟨nome, rfl, Or.inl h1⟩, fun _ => ⟨true, rfl⟩⟩
      · rw [if_neg h1]
        cases hc : c.cpf with
        | none =>
          constructor
          · rintro ⟨b, hb⟩
            exact Option.noConfusion hb
          · rintro ⟨n, hn', hi | hi⟩
            · cases hn'
              exact absurd hi h1
            · exact absurd rfl hi
        | some cpf =>
          constructor
          · intro _
            exact ⟨nome, rfl, Or.inr (fun hx => Option.noConfusion hx)⟩
          · intro _
            simp only
            by_cases h2 : includes cpf searchTerm = true
            · rw [if_pos h2]
              exact ⟨true, rfl⟩
            · rw [if_neg h2]
              cases c.emails with
              | none => exact ⟨false, rfl⟩
              | some emails => exact ⟨_, rfl⟩

theorem forEachFrom_telefone_congr (l₁ : List Telefone) : ∀ (l₂ : List Telefone) (n : Nat)
    (st : Errors), l₁.map (fun t => t.numero) = l₂.map (fun t => t.numero) →
    forEachFrom telefoneForEach n l₁ st = forEachFrom telefoneForEach n l₂ st := by
  induction l₁ with
  | nil =>
    intro l₂ n st h
    cases l₂ with
    | nil => rfl
    | cons y ys => exact absurd h (by simp)
  | cons x xs ih =>
    intro l₂ n st h
    cases l₂ with
    | nil => exact absurd h (by simp)
    | cons y ys =>
      simp only [List.map_cons, List.cons.injEq] at h
      simp only [forEachFrom, telefoneForEach_eq, h.1]
      exact ih ys (n + 1) _ h.2

theorem forEachFrom_email_congr (l₁ : List Email) : ∀ (l₂ : List Email) (n : Nat)
    (st : Errors), l₁.map (fun e => e.enderecoEmail) = l₂.map (fun e => e.enderecoEmail) →
    forEachFrom emailForEach n l₁ st = forEachFrom emailForEach n l₂ st := by
  induction l₁ with
  | nil =>
    intro l₂ n st h
    cases l₂ with
    | nil => rfl
    | cons y ys => exact absurd h (by simp)
  | cons x xs ih =>
    intro l₂ n st h
    cases l₂ with
    | nil => exact absurd h (by simp)
    | cons y ys =>
      simp only [List.map_cons, List.cons.injEq] at h
      simp only [forEachFrom, emailForEach_eq, h.1]
      exact ih ys (n + 1) _ h.2

theorem telefonesRule_congr (t₁ t₂ : Option (List Telefone)) (errors : Errors)
    (h : t₁.map (List.map (fun t => t.numero)) = t₂.map (List.map (fun t => t.numero))) :
    telefonesRule t₁ errors = telefonesRule t₂ errors := by
  cases t₁ with
  | none =>
    cases t₂ with
    | none => rfl
    | some l₂ => exact absurd h (by simp)
  | some l₁ =>
    cases t₂ with
    | none => exact absurd h (by simp)
    | some l₂ =>
      simp only [Option.map_some', Option.some.injEq] at h
      have hlen : l₁.length = l₂.length := by
        have := congrArg List.length h
        simpa using this
      simp only [telefonesRule, arrayForEach, hlen, forEachFrom_telefone_congr l₁ l₂ 0 errors h]

theorem emailsRule_congr (t₁ t₂ : Option (List Email)) (errors : Errors)
    (h : t₁.map (List.map (fun e => e.enderecoEmail))
      = t₂.map (List.map (fun e => e.enderecoEmail))) :
    emailsRule t₁ errors = emailsRule t₂ errors := by
  cases t₁ with
  | none =>
    cases t₂ with
    | none => rfl
    | some l₂ => exact absurd h (by simp)
  | some l₁ =>
    cases t₂ with
    | none => exact absurd h (by simp)
    | some l₂ =>
      simp only [Option.map_some', Option.some.injEq] at h
      have hlen : l₁.length = l₂.length := by
        have := congrArg List.length h
        simpa using this
      simp only [emailsRule, arrayForEach, hlen, forEachFrom_email_congr l₁ l₂ 0 errors h]

theorem scalarRules_congr (f g : FormDataArg) (h1 : f.nome = g.nome) (h2 : f.cpf = g.cpf)
    (h3 : f.dataNascimento = g.dataNascimento) (h4 : f.endereco = g.endereco) :
    scalarRules f = scalarRules g := by
  simp only [scalarRules, h1, h2, h3, h4]

/-! ## Claims -/

/-- C1: for every string whose digit-only form `d` has exactly 11 digits and is not one digit
repeated 11 times, `validarCPF` answers `true` exactly when `d[9]` is the first check digit
(weights 10..2 over `d[0..8]`) and `d[10]` is the second one (weights 11..2 over `d[0..9]`). -/
theorem validarCPF_iff_check_digits (s : String)
    (hlen : (stripNonDigits s).length = 11)
    (hrep : ¬ ∃ c, stripNonDigits s = List.replicate 11 c) :
    validarCPF s = true ↔
      digitValue (stripNonDigits s) 9 = checkDigit1 (stripNonDigits s) ∧
      digitValue (stripNonDigits s) 10 = checkDigit2 (stripNonDigits s) := by
  have hrep' : isRepeatedDigit (stripNonDigits s) = false := by
    rw [← Bool.not_eq_true, isRepeatedDigit_iff (fun c hc => mem_stripNonDigits hc)]
    exact hrep
  unfold validarCPF
  simp only [hlen, hrep', bne_self_eq_false, Bool.or_self, Bool.false_eq_true, if_false]
  obtain ⟨c0, c1, c2, c3, c4, c5, c6, c7, c8, c9, c10, hd⟩ := length_eq_eleven hlen
  rw [hd, somaLoop_nine, somaLoop_ten, restoDe_eq, restoDe_eq]
  unfold checkDigit1 checkDigit2
  have h9 : digitAt [c0, c1, c2, c3, c4, c5, c6, c7, c8, c9, c10] 10
      = digitValue [c0, c1, c2, c3, c4, c5, c6, c7, c8, c9, c10] 9 := by
    simp [digitAt, digitValue]
  have h10 : digitAt [c0, c1, c2, c3, c4, c5, c6, c7, c8, c9, c10] 11
      = digitValue [c0, c1, c2, c3, c4, c5, c6, c7, c8, c9, c10] 10 := by
    simp [digitAt, digitValue]
  rw [h9, h10]
  generalize tenOrElevenToZero
      ((∑ i in Finset.range 9,
        digitValue [c0, c1, c2, c3, c4, c5, c6, c7, c8, c9, c10] i * (10 - i)) * 10 % 11) = r1
  generalize tenOrElevenToZero
      ((∑ i in Finset.range 10,
        digitValue [c0, c1, c2, c3, c4, c5, c6, c7, c8, c9, c10] i * (11 - i)) * 10 % 11) = r2
  generalize digitValue [c0, c1, c2, c3, c4, c5, c6, c7, c8, c9, c10] 9 = x
  generalize digitValue [c0, c1, c2, c3, c4, c5, c6, c7, c8, c9, c10] 10 = y
  by_cases h1 : r1 = x
  · subst h1
    by_cases h2 : r2 = y
    · subst h2
      simp
    · simp [h2, Ne.symm h2]
  · simp [h1, Ne.symm h1]

/-- Witness for C1 on the masked number `529.982.247-25`. -/
theorem validarCPF_iff_check_digits_witness :
    validarCPF "529.982.247-25" = true ↔
      digitValue (stripNonDigits "529.982.247-25") 9
        = checkDigit1 (stripNonDigits "529.982.247-25") ∧
      digitValue (stripNonDigits "529.982.247-25") 10
        = checkDigit2 (stripNonDigits "529.982.247-25") :=
  validarCPF_iff_check_digits "529.982.247-25" (by decide) (by
    rintro ⟨c, h⟩
    have hd : stripNonDigits "529.982.247-25"
        = ['5', '2', '9', '9', '8', '2', '2', '4', '7', '2', '5'] := by decide
    rw [hd] at h
    simp only [List.replicate, List.cons.injEq] at h
    obtain ⟨h1, h2, _⟩ := h
    subst h1
    exact absurd h2 (by decide))

/-- C2: the three literal examples: `529.982.247-25` is accepted, `111.111.111-11` and
`123.456.789-00` are rejected. -/
theorem validarCPF_examples :
    validarCPF "529.982.247-25" = true ∧
    validarCPF "111.111.111-11" = false ∧
    validarCPF "123.456.789-00" = false := by
  refine ⟨?_, ?_, ?_⟩ <;> decide

/-- C3: on every string `validarCPF` produces a boolean, and the answer is `false` whenever the
digit-only form does not have exactly 11 digits or is one digit repeated 11 times. -/
theorem validarCPF_rejects_malformed (s : String) :
    (validarCPF s = true ∨ validarCPF s = false) ∧
    ((stripNonDigits s).length ≠ 11 ∨ (∃ c, stripNonDigits s = List.replicate 11 c) →
      validarCPF s = false) := by
  refine ⟨by cases validarCPF s <;> simp, ?_⟩
  rintro (hlen | hrep)
  · unfold validarCPF
    simp [hlen]
  · have h : isRepeatedDigit (stripNonDigits s) = true :=
      (isRepeatedDigit_iff (fun c hc => mem_stripNonDigits hc)).mpr hrep
    unfold validarCPF
    simp [h]

/-- Witness for C3 on the empty string and on `000.000.000-00`. -/
theorem validarCPF_rejects_malformed_witness :
    validarCPF "" = false ∧ validarCPF "000.000.000-00" = false :=
  ⟨(validarCPF_rejects_malformed "").2 (Or.inl (by decide)),
   (validarCPF_rejects_malformed "000.000.000-00").2 (Or.inr ⟨'0', by decide⟩)⟩

/-- C4, as stated, fails: with the default single phone and index 1 (out of range) the
set-principal operation leaves no phone with `principal = true`; likewise for e-mails. -/
theorem setPrincipal_out_of_range_counterexample :
    (handleTelefonePrincipalChange 1 initialFormState).telefones
        = [{ numero := "", tipo := "CELULAR", principal := false }] ∧
    ((handleTelefonePrincipalChange 1 initialFormState).telefones.countP
        (fun tel => tel.principal)) = 0 ∧
    (handleEmailPrincipalChange 1 initialFormState).emails
        = [{ enderecoEmail := "", principal := false }] ∧
    ((handleEmailPrincipalChange 1 initialFormState).emails.countP
        (fun email => email.principal)) = 0 := by
  decide

/-- C4 (amended to in-range indices): for every list of phones (or e-mails) and every index
`i` below its length, the set-principal operation keeps the length, gives the element at `i`
`principal = true` and every other element `principal = false`, so exactly one element is
principal. -/
theorem setPrincipal_exactly_one (prev : FormData) (i : Nat) :
    (i < prev.telefones.length →
      (handleTelefonePrincipalChange i prev).telefones.length = prev.telefones.length ∧
      (∀ j tel, (handleTelefonePrincipalChange i prev).telefones[j]? = some tel →
        (tel.principal = true ↔ j = i)) ∧
      (∃ tel, (handleTelefonePrincipalChange i prev).telefones[i]? = some tel ∧
        tel.principal = true) ∧
      (handleTelefonePrincipalChange i prev).telefones.countP (fun tel => tel.principal) = 1) ∧
    (i < prev.emails.length →
      (handleEmailPrincipalChange i prev).emails.length = prev.emails.length ∧
      (∀ j email, (handleEmailPrincipalChange i prev).emails[j]? = some email →
        (email.principal = true ↔ j = i)) ∧
      (∃ email, (handleEmailPrincipalChange i prev).emails[i]? = some email ∧
        email.principal = true) ∧
      (handleEmailPrincipalChange i prev).emails.countP (fun email => email.principal) = 1) := by
  constructor
  · intro hi
    simp only [handleTelefonePrincipalChange]
    refine ⟨length_arrayMap _ _, ?_, ?_, ?_⟩
    · intro j tel h
      rw [getElem?_arrayMap] at h
      obtain ⟨old, _, rfl⟩ := Option.map_eq_some'.mp h
      simp
    · rw [getElem?_arrayMap, List.getElem?_eq_getElem hi]
      exact ⟨_, rfl, by simp⟩
    · unfold arrayMap
      rw [countP_mapFrom_index _ _ i (fun _ _ => rfl)]
      simp [hi]
  · intro hi
    simp only [handleEmailPrincipalChange]
    refine ⟨length_arrayMap _ _, ?_, ?_, ?_⟩
    · intro j email h
      rw [getElem?_arrayMap] at h
      obtain ⟨old, _, rfl⟩ := Option.map_eq_some'.mp h
      simp
    · rw [getElem?_arrayMap, List.getElem?_eq_getElem hi]
      exact ⟨_, rfl, by simp⟩
    · unfold arrayMap
      rw [countP_mapFrom_index _ _ i (fun _ _ => rfl)]
      simp [hi]

/-- Witness for C4 (amended): selecting index 1 after one phone and one e-mail were added to
the default form. -/
theorem setPrincipal_exactly_one_witness :
    (handleTelefonePrincipalChange 1 (addEmail (addTelefone initialFormState))).telefones.countP
        (fun tel => tel.principal) = 1 ∧
    (handleEmailPrincipalChange 1 (addEmail (addTelefone initialFormState))).emails.countP
        (fun email => email.principal) = 1 :=
  ⟨((setPrincipal_exactly_one (addEmail (addTelefone initialFormState)) 1).1 (by decide)).2.2.2,
   ((setPrincipal_exactly_one (addEmail (addTelefone initialFormState)) 1).2 (by decide)).2.2.2⟩

/-- C5 fails on the code: the trace add phone, set principal at index 1, remove index 1 is made
of offered actions only and ends in a single phone whose `principal` is `false`, so no phone
is principal. -/
theorem remove_principal_leaves_none :
    Reachable (removeTelefone 1 (handleTelefonePrincipalChange 1 (addTelefone initialFormState))) ∧
    (removeTelefone 1 (handleTelefonePrincipalChange 1 (addTelefone initialFormState))).telefones
      = [{ numero := "", tipo := "CELULAR", principal := false }] ∧
    (removeTelefone 1
      (handleTelefonePrincipalChange 1 (addTelefone initialFormState))).telefones.countP
        (fun tel => tel.principal) = 0 := by
  refine ⟨?_, by decide, by decide⟩
  exact Reachable.step (.removeTelefone 1)
    (Reachable.step (.telefonePrincipal 1)
      (Reachable.step .addTelefone Reachable.initial rfl) (by decide)) (by decide)

/-- C6: removal erases the element at the index: for an index below the length the result is
the elements before it followed by the elements after it, in their original order, so it is
one shorter; for an index at or beyond the length the result is the input list. -/
theorem remove_erases_index (prev : FormData) (index : Nat) :
    (removeTelefone index prev).telefones = prev.telefones.eraseIdx index ∧
    (removeEmail index prev).emails = prev.emails.eraseIdx index ∧
    (index < prev.telefones.length →
      (removeTelefone index prev).telefones.length + 1 = prev.telefones.length ∧
      (removeTelefone index prev).telefones
        = prev.telefones.take index ++ prev.telefones.drop (index + 1)) ∧
    (index < prev.emails.length →
      (removeEmail index prev).emails.length + 1 = prev.emails.length ∧
      (removeEmail index prev).emails
        = prev.emails.take index ++ prev.emails.drop (index + 1)) ∧
    (prev.telefones.length ≤ index → (removeTelefone index prev).telefones = prev.telefones) ∧
    (prev.emails.length ≤ index → (removeEmail index prev).emails = prev.emails) := by
  have ht : (removeTelefone index prev).telefones = prev.telefones.eraseIdx index := by
    simp only [removeTelefone, arrayFilter_ne]
  have he : (removeEmail index prev).emails = prev.emails.eraseIdx index := by
    simp only [removeEmail, arrayFilter_ne]
  rw [ht, he]
  refine ⟨rfl, rfl, ?_, ?_, ?_, ?_⟩
  · intro h
    refine ⟨?_, List.eraseIdx_eq_take_drop_succ _ _⟩
    rw [List.length_eraseIdx, if_pos h]
    omega
  · intro h
    refine ⟨?_, List.eraseIdx_eq_take_drop_succ _ _⟩
    rw [List.length_eraseIdx, if_pos h]
    omega
  · intro h
    exact List.eraseIdx_of_length_le h
  · intro h
    exact List.eraseIdx_of_length_le h

/-- Witness for C6: removing index 1 of two phones, and removing the out-of-range index 1 of
the single default e-mail. -/
theorem remove_erases_index_witness :
    (removeTelefone 1 (addTelefone initialFormState)).telefones.length + 1
        = (addTelefone initialFormState).telefones.length ∧
    (removeEmail 1 (addTelefone initialFormState)).emails
        = (addTelefone initialFormState).emails :=
  ⟨((remove_erases_index (addTelefone initialFormState) 1).2.2.1 (by decide)).1,
   (remove_erases_index (addTelefone initialFormState) 1).2.2.2.2.2 (by decide)⟩

/-- C7: adding appends one blank item: the length grows by one, the first elements are the
input elements in the same order, and the last element is the blank default with
`principal = false` (phone: `numero ''`, `tipo 'CELULAR'`; e-mail: `enderecoEmail ''`). -/
theorem add_appends_blank (prev : FormData) :
    (addTelefone prev).telefones.length = prev.telefones.length + 1 ∧
    (addTelefone prev).telefones.take prev.telefones.length = prev.telefones ∧
    (addTelefone prev).telefones.getLast?
      = some { numero := "", tipo := "CELULAR", principal := false } ∧
    (addEmail prev).emails.length = prev.emails.length + 1 ∧
    (addEmail prev).emails.take prev.emails.length = prev.emails ∧
    (addEmail prev).emails.getLast? = some { enderecoEmail := "", principal := false } := by
  simp [addTelefone, addEmail]

/-- C8: for an in-range index, the update-field operation keeps the length, gives the element
at the index the new value under the given field and leaves its other fields as they were,
and leaves the element at every other index unchanged (phones and e-mails). -/
theorem updateField_frame (prev : FormData) (index : Nat) :
    (∀ (field : TelefoneCampo) (value : field.Valor), index < prev.telefones.length →
      (handleTelefoneChange index field value prev).telefones.length = prev.telefones.length ∧
      (∃ old new, prev.telefones[index]? = some old ∧
        (handleTelefoneChange index field value prev).telefones[index]? = some new ∧
        new.get field = value ∧ ∀ g, g ≠ field → new.get g = old.get g) ∧
      (∀ j, j ≠ index →
        (handleTelefoneChange index field value prev).telefones[j]? = prev.telefones[j]?)) ∧
    (∀ (field : EmailCampo) (value : field.Valor), index < prev.emails.length →
      (handleEmailChange index field value prev).emails.length = prev.emails.length ∧
      (∃ old new, prev.emails[index]? = some old ∧
        (handleEmailChange index field value prev).emails[index]? = some new ∧
        new.get field = value ∧ ∀ g, g ≠ field → new.get g = old.get g) ∧
      (∀ j, j ≠ index →
        (handleEmailChange index field value prev).emails[j]? = prev.emails[j]?)) := by
  constructor
  · intro field value hi
    simp only [handleTelefoneChange]
    refine ⟨length_arrayMap _ _, ?_, ?_⟩
    · refine ⟨prev.telefones[index], (prev.telefones[index]).set field value,
        List.getElem?_eq_getElem hi, ?_, ?_, ?_⟩
      · rw [getElem?_arrayMap, List.getElem?_eq_getElem hi]
        simp
      · cases field <;> rfl
      · intro g hg
        cases field <;> cases g <;> first | rfl | exact absurd rfl hg
    · intro j hj
      rw [getElem?_arrayMap]
      cases prev.telefones[j]? <;> simp [hj]
  · intro field value hi
    simp only [handleEmailChange]
    refine ⟨length_arrayMap _ _, ?_, ?_⟩
    · refine ⟨prev.emails[index], (prev.emails[index]).set field value,
        List.getElem?_eq_getElem hi, ?_, ?_, ?_⟩
      · rw [getElem?_arrayMap, List.getElem?_eq_getElem hi]
        simp
      · cases field <;> rfl
      · intro g hg
        cases field <;> cases g <;> first | rfl | exact absurd rfl hg
    · intro j hj
      rw [getElem?_arrayMap]
      cases prev.emails[j]? <;> simp [hj]

/-- Witness for C8: typing a number into the default phone and an address into the default
e-mail. -/
theorem updateField_frame_witness :
    (handleTelefoneChange 0 .numero "(11) 91234-5678" initialFormState).telefones.length
        = initialFormState.telefones.length ∧
    (handleEmailChange 0 .enderecoEmail "ana@example.com" initialFormState).emails.length
        = initialFormState.emails.length :=
  ⟨((updateField_frame initialFormState 0).1 .numero "(11) 91234-5678" (by decide)).1,
   ((updateField_frame initialFormState 0).2 .enderecoEmail "ana@example.com" (by decide)).1⟩

/-- C9: every required scalar field is reported on its own, whatever the other fields hold:
`nome` is in the result exactly when the name is absent, empty or whitespace-only;
`dataNascimento` exactly when the date is absent or empty; each of `cep`, `logradouro`,
`numero`, `bairro`, `cidade`, `uf` exactly when that address field is absent, empty or
whitespace-only.  No key `complemento` is ever produced and the result does not depend on the
value of `complemento`. -/
theorem validate_required_fields (f : FormDataArg) :
    ((validateClienteForm f).has "nome" ↔ IsBlank f.nome) ∧
    ((validateClienteForm f).has "dataNascimento" ↔
      f.dataNascimento = none ∨ f.dataNascimento = some "") ∧
    ((validateClienteForm f).has "cep" ↔ IsBlank (f.endereco.bind (fun e => e.cep))) ∧
    ((validateClienteForm f).has "logradouro" ↔
      IsBlank (f.endereco.bind (fun e => e.logradouro))) ∧
    ((validateClienteForm f).has "numero" ↔ IsBlank (f.endereco.bind (fun e => e.numero))) ∧
    ((validateClienteForm f).has "bairro" ↔ IsBlank (f.endereco.bind (fun e => e.bairro))) ∧
    ((validateClienteForm f).has "cidade" ↔ IsBlank (f.endereco.bind (fun e => e.cidade))) ∧
    ((validateClienteForm f).has "uf" ↔ IsBlank (f.endereco.bind (fun e => e.uf))) ∧
    ¬ (validateClienteForm f).has "complemento" ∧
    (∀ (e : EnderecoArg) (c : Option String),
      validateClienteForm { f with endereco := some { e with complemento := c } }
        = validateClienteForm { f with endereco := some e }) := by
  have key : ∀ (b : Bool) (m : String),
      ((if b = false then some m else none) ≠ none ↔ b = false) := by
    intro b m
    cases b <;> simp
  refine ⟨?_, ?_, ?_, ?_, ?_, ?_, ?_, ?_, ?_, ?_⟩
  · rw [Errors.has_iff_get?, get?_validate_nome, key, isTruthy_trim_eq_false_iff]
  · rw [Errors.has_iff_get?, get?_validate_dataNascimento, key, isTruthy_eq_false_iff]
  · rw [Errors.has_iff_get?, get?_validate_cep, key, isTruthy_trim_eq_false_iff]
  · rw [Errors.has_iff_get?, get?_validate_logradouro, key, isTruthy_trim_eq_false_iff]
  · rw [Errors.has_iff_get?, get?_validate_numero, key, isTruthy_trim_eq_false_iff]
  · rw [Errors.has_iff_get?, get?_validate_bairro, key, isTruthy_trim_eq_false_iff]
  · rw [Errors.has_iff_get?, get?_validate_cidade, key, isTruthy_trim_eq_false_iff]
  · rw [Errors.has_iff_get?, get?_validate_uf, key, isTruthy_trim_eq_false_iff]
  · rw [Errors.has_iff_get?, get?_validate_complemento]
    exact fun h => h rfl
  · intro e c
    rfl

/-- C10: the `cpf` entry is `'CPF é obrigatório'` when the CPF is absent, empty or
whitespace-only; otherwise it is `'CPF inválido'` exactly when `validarCPF` rejects the CPF;
and the key is missing exactly when the CPF is a non-empty string that `validarCPF` accepts. -/
theorem validate_cpf_rule (f : FormDataArg) :
    (IsBlank f.cpf → (validateClienteForm f).get? "cpf" = some "CPF é obrigatório") ∧
    (∀ cpf, f.cpf = some cpf → ¬ IsBlank (some cpf) →
      ((validateClienteForm f).get? "cpf" = some "CPF inválido" ↔ validarCPF cpf = false)) ∧
    (¬ (validateClienteForm f).has "cpf" ↔
      ∃ cpf, f.cpf = some cpf ∧ cpf ≠ "" ∧ validarCPF cpf = true) := by
  refine ⟨?_, ?_, ?_⟩
  · intro hb
    rw [get?_validate_cpf, if_pos ((isTruthy_trim_eq_false_iff _).mpr hb)]
  · intro cpf hcpf hnb
    have ht : ¬ isTruthy (f.cpf.map trim) = false := by
      rw [isTruthy_trim_eq_false_iff, hcpf]
      exact hnb
    rw [get?_validate_cpf, if_neg ht, hcpf, Option.getD_some]
    cases validarCPF cpf <;> simp
  · rw [Errors.has_iff_get?, get?_validate_cpf, not_not]
    constructor
    · intro h
      by_cases ht : isTruthy (f.cpf.map trim) = false
      · rw [if_pos ht] at h
        exact Option.noConfusion h
      · rw [if_neg ht] at h
        rw [isTruthy_trim_eq_false_iff] at ht
        cases hcpf : f.cpf with
        | none =>
          rw [hcpf] at ht
          exact absurd trivial ht
        | some cpf =>
          rw [hcpf] at h ht
          refine ⟨cpf, rfl, ?_, ?_⟩
          · rintro rfl
            exact ht (fun c hc => absurd hc (List.not_mem_nil c))
          · cases hv : validarCPF cpf with
            | true => rfl
            | false =>
              simp only [Option.getD_some, hv, if_true] at h
              exact Option.noConfusion h
    · rintro ⟨cpf, hcpf, _, hv⟩
      have ht : ¬ isTruthy (f.cpf.map trim) = false := by
        rw [isTruthy_trim_eq_false_iff, hcpf]
        exact not_isBlank_of_validarCPF hv
      rw [if_neg ht, hcpf]
      simp [hv]

/-- Witness for C10 on the default form, whose CPF is the empty string. -/
theorem validate_cpf_rule_witness :
    (validateClienteForm initialFormState.toArg).get? "cpf" = some "CPF é obrigatório" :=
  (validate_cpf_rule initialFormState.toArg).1 (fun c hc => absurd hc (List.not_mem_nil c))

/-- C11: with the phone list absent or empty the result has the key `telefones` and no key
`telefone_<i>`; with a non-empty list it has no key `telefones` and, for every `i`, the key
`telefone_<i>` is there, with the message `'Telefone deve ter no mínimo 10 dígitos'`, exactly
when the number at position `i` holds fewer than 10 digits.  A form valid in every other
respect whose only phone is `123` yields exactly `{telefone_0: ...}`. -/
theorem validate_telefones_rule (f : FormDataArg) :
    (f.telefones = none ∨ f.telefones = some [] →
      (validateClienteForm f).has "telefones" ∧
      ∀ i : Nat, ¬ (validateClienteForm f).has ("telefone_" ++ toString i)) ∧
    (∀ l, f.telefones = some l → l ≠ [] →
      ¬ (validateClienteForm f).has "telefones" ∧
      ∀ i : Nat,
        ((validateClienteForm f).has ("telefone_" ++ toString i) ↔
          ∃ t, l[i]? = some t ∧ (stripNonDigits t.numero).length < 10) ∧
        ((validateClienteForm f).has ("telefone_" ++ toString i) →
          (validateClienteForm f).get? ("telefone_" ++ toString i)
            = some "Telefone deve ter no mínimo 10 dígitos")) ∧
    (∀ t : Telefone, ScalarsValid f → EmailsValid f → f.telefones = some [t] →
      t.numero = "123" →
      validateClienteForm f = [("telefone_0", "Telefone deve ter no mínimo 10 dígitos")]) := by
  refine ⟨?_, ?_, ?_⟩
  · intro h
    refine ⟨(has_validate_telefones f).mpr h, ?_⟩
    intro i hi
    obtain ⟨l, t, hl, ht, _⟩ := (has_validate_telefone_key f i).mp hi
    rcases h with h | h
    · rw [h] at hl
      exact Option.noConfusion hl
    · rw [h] at hl
      cases hl
      exact Option.noConfusion ht
  · intro l hl hne
    refine ⟨?_, ?_⟩
    · rw [has_validate_telefones, hl]
      rintro (h | h)
      · exact Option.noConfusion h
      · exact hne (Option.some.inj h)
    · intro i
      refine ⟨?_, ?_⟩
      · rw [has_validate_telefone_key, hl]
        constructor
        · rintro ⟨l', t, hl', ht, hb⟩
          cases hl'
          exact ⟨t, ht, hb⟩
        · rintro ⟨t, ht, hb⟩
          exact ⟨l, t, rfl, ht, hb⟩
      · intro hi
        obtain ⟨l', t, hl', ht, hb⟩ := (has_validate_telefone_key f i).mp hi
        rw [get?_validate_telefone_key, hl', Option.some_bind, ht]
        simp only [Option.elim, hb, if_true]
  · intro t hs he ht hn
    rw [validateClienteForm_eq, emailsRule_eq_self he, scalarRules_eq_nil hs, ht]
    have hb : (stripNonDigits t.numero).length < 10 := by
      rw [hn]
      decide
    simp only [telefonesRule, List.length_singleton, Nat.succ_ne_zero, beq_iff_eq, if_false,
      arrayForEach, forEachFrom, telefoneForEach_eq, hb, if_true]
    rfl

/-- Witness for C11: the filled-in form with its phone replaced by `123`. -/
theorem validate_telefones_rule_witness :
    validateClienteForm
        { filledForm.toArg with
          telefones := some [{ numero := "123", tipo := "CELULAR", principal := true }] }
      = [("telefone_0", "Telefone deve ter no mínimo 10 dígitos")] :=
  (validate_telefones_rule
    { filledForm.toArg with
      telefones := some [{ numero := "123", tipo := "CELULAR", principal := true }] }).2.2
    { numero := "123", tipo := "CELULAR", principal := true }
    filledForm_scalarsValid filledForm_emailsValid rfl rfl

/-- C12: with the e-mail list absent or empty the result has the key `emails` and no key
`email_<i>`; with a non-empty list it has no key `emails` and, for every `i`, the key
`email_<i>` is there (with the message `'E-mail inválido'`) exactly when the address at
position `i` is not of the shape `a@b.c` with `a`, `b`, `c` non-empty and free of whitespace
and `@`; that shape is exactly what the pattern `^[^\s@]+@[^\s@]+\.[^\s@]+$` accepts. -/
theorem validate_emails_rule (f : FormDataArg) :
    (f.emails = none ∨ f.emails = some [] →
      (validateClienteForm f).has "emails" ∧
      ∀ i : Nat, ¬ (validateClienteForm f).has ("email_" ++ toString i)) ∧
    (∀ l, f.emails = some l → l ≠ [] →
      ¬ (validateClienteForm f).has "emails" ∧
      ∀ i : Nat,
        ((validateClienteForm f).has ("email_" ++ toString i) ↔
          ∃ e, l[i]? = some e ∧ ¬ EmailShape e.enderecoEmail) ∧
        ((validateClienteForm f).has ("email_" ++ toString i) →
          (validateClienteForm f).get? ("email_" ++ toString i) = some "E-mail inválido")) ∧
    (∀ s : String, emailRegex.test s = true ↔ EmailShape s) := by
  have hshape : ∀ e : Email, emailRegex.test e.enderecoEmail = false ↔
      ¬ EmailShape e.enderecoEmail := by
    intro e
    rw [← emailRegex_test_iff, Bool.not_eq_true]
  refine ⟨?_, ?_, emailRegex_test_iff⟩
  · intro h
    refine ⟨(has_validate_emails f).mpr h, ?_⟩
    intro i hi
    obtain ⟨l, t, hl, ht, _⟩ := (has_validate_email_key f i).mp hi
    rcases h with h | h
    · rw [h] at hl
      exact Option.noConfusion hl
    · rw [h] at hl
      cases hl
      exact Option.noConfusion ht
  · intro l hl hne
    refine ⟨?_, ?_⟩
    · rw [has_validate_emails, hl]
      rintro (h | h)
      · exact Option.noConfusion h
      · exact hne (Option.some.inj h)
    · intro i
      refine ⟨?_, ?_⟩
      · rw [has_validate_email_key, hl]
        constructor
        · rintro ⟨l', e, hl', he, hb⟩
          cases hl'
          exact ⟨e, he, (hshape e).mp hb⟩
        · rintro ⟨e, he, hb⟩
          exact ⟨l, e, rfl, he, (hshape e).mpr hb⟩
      · intro hi
        obtain ⟨l', e, hl', he, hb⟩ := (has_validate_email_key f i).mp hi
        rw [get?_validate_email_key, hl', Option.some_bind, he]
        simp only [Option.elim, hb, Bool.not_false, if_true]

/-- Witness for C12: the blank e-mail of the default form is reported under `email_0`. -/
theorem validate_emails_rule_witness :
    (validateClienteForm initialFormState.toArg).has ("email_" ++ toString 0) :=
  (((validate_emails_rule initialFormState.toArg).2.1
      [{ enderecoEmail := "", principal := true }] rfl (by decide)).2 0).1.mpr
    ⟨{ enderecoEmail := "", principal := true }, rfl,
      fun h => absurd ((emailRegex_test_iff "").mpr h) (by decide)⟩

/-- C13: on the default empty form the validation reports `nome`, `cpf`, `dataNascimento`,
`cep`, `logradouro`, `numero`, `bairro`, `cidade`, `uf`, `telefone_0` and `email_0` (and
nothing else). -/
theorem validate_initialFormState :
    (validateClienteForm initialFormState.toArg).keys
      = ["nome", "cpf", "dataNascimento", "cep", "logradouro", "numero", "bairro", "cidade",
          "uf", "telefone_0", "email_0"] ∧
    (∀ k ∈ ["nome", "cpf", "dataNascimento", "cep", "logradouro", "numero", "bairro", "cidade",
          "uf", "telefone_0", "email_0"],
      (validateClienteForm initialFormState.toArg).has k) := by
  have h := keys_validate_initialFormState
  refine ⟨h, ?_⟩
  intro k hk
  unfold Errors.has
  rw [h]
  exact hk

/-- C14: if `y` is `x` with only the reported fields changed, each to a value satisfying its
own rule, then `validateClienteForm y` is the empty map; and the result is a function of the
input alone, so validating the same input again gives the same map. -/
theorem validate_repaired_is_empty (x y : FormDataArg) (h : Repairs x y) :
    validateClienteForm y = [] ∧
    (∀ x' : FormDataArg, x' = x → validateClienteForm x' = validateClienteForm x) := by
  refine ⟨?_, ?_⟩
  · exact validate_eq_nil_of_valid (scalarsValid_of_repairs h) (telefonesValid_of_repairs h)
      (emailsValid_of_repairs h)
  · intro x' hx
    rw [hx]

/-- Witness for C14: the default empty form repaired into the filled-in form. -/
theorem validate_repaired_is_empty_witness :
    validateClienteForm filledForm.toArg = [] :=
  (validate_repaired_is_empty initialFormState.toArg filledForm.toArg
    { nome := ⟨fun _ => not_isBlank_of_mem 'A' (by decide) (by decide),
        fun hn => absurd (has_validate_initialFormState (by decide)) hn⟩
      cpf_reported := fun _ => ⟨"529.982.247-25", rfl, by decide⟩
      cpf_kept := fun hn => absurd (has_validate_initialFormState (by decide)) hn
      dataNascimento_reported := fun _ => ⟨by decide, by decide⟩
      dataNascimento_kept := fun hn => absurd (has_validate_initialFormState (by decide)) hn
      cep := ⟨fun _ => not_isBlank_of_mem '0' (by decide) (by decide),
        fun hn => absurd (has_validate_initialFormState (by decide)) hn⟩
      logradouro := ⟨fun _ => not_isBlank_of_mem 'P' (by decide) (by decide),
        fun hn => absurd (has_validate_initialFormState (by decide)) hn⟩
      numero := ⟨fun _ => not_isBlank_of_mem '1' (by decide) (by decide),
        fun hn => absurd (has_validate_initialFormState (by decide)) hn⟩
      bairro := ⟨fun _ => not_isBlank_of_mem 'S' (by decide) (by decide),
        fun hn => absurd (has_validate_initialFormState (by decide)) hn⟩
      cidade := ⟨fun _ => not_isBlank_of_mem 'S' (by decide) (by decide),
        fun hn => absurd (has_validate_initialFormState (by decide)) hn⟩
      uf := ⟨fun _ => not_isBlank_of_mem 'S' (by decide) (by decide),
        fun hn => absurd (has_validate_initialFormState (by decide)) hn⟩
      telefones_reported := fun _ => filledForm_telefonesValid
      telefones_kept := fun _ lx hlx => by
        cases hlx
        refine ⟨_, rfl, rfl, ?_⟩
        intro i tx ty hx hy
        cases i with
        | zero =>
          cases hy
          exact ⟨fun _ => by decide,
            fun hn => absurd (has_validate_initialFormState (by decide)) hn⟩
        | succ i => exact Option.noConfusion hx
      emails_reported := fun _ => filledForm_emailsValid
      emails_kept := fun _ lx hlx => by
        cases hlx
        refine ⟨_, rfl, rfl, ?_⟩
        intro i ex ey hx hy
        cases i with
        | zero =>
          cases hy
          exact ⟨fun _ => by decide,
            fun hn => absurd (has_validate_initialFormState (by decide)) hn⟩
        | succ i => exact Option.noConfusion hx }).1

/-- C15: when the validation result is non-empty, `handleSubmit` stores exactly that result
as the errors state, calls neither `clienteService.create` nor `clienteService.update`,
never calls `setLoading(true)` (the flag keeps its value), and leaves `formData` as it was. -/
theorem handleSubmit_validation_failure (clienteId : Option Nat) (onSuccess onClose : Bool)
    (outcome : ServiceOutcome) (s : HookState)
    (h : validateClienteForm s.formData.toArg ≠ []) :
    (handleSubmit clienteId onSuccess onClose outcome s).1.errors
      = (validateClienteForm s.formData.toArg).toState ∧
    (∀ e ∈ (handleSubmit clienteId onSuccess onClose outcome s).2, e.isServiceCall = false) ∧
    Effect.setLoading true ∉ (handleSubmit clienteId onSuccess onClose outcome s).2 ∧
    (handleSubmit clienteId onSuccess onClose outcome s).1.loading = s.loading ∧
    (handleSubmit clienteId onSuccess onClose outcome s).1.formData = s.formData := by
  have hk : (validateClienteForm s.formData.toArg).keys.length > 0 :=
    (keys_length_pos_iff _).mpr h
  have he : handleSubmitEffects clienteId onSuccess onClose outcome s
      = [.preventDefault, .setErrors (validateClienteForm s.formData.toArg).toState,
          .toastError "Corrija os erros do formulário"] := by
    unfold handleSubmitEffects
    simp only [hk, if_true]
  simp only [handleSubmit, he]
  refine ⟨rfl, ?_, ?_, rfl, rfl⟩
  · intro e hmem
    simp only [List.mem_cons, List.mem_singleton, List.not_mem_nil, or_false] at hmem
    rcases hmem with rfl | rfl | rfl <;> rfl
  · intro hmem
    simp only [List.mem_cons, List.mem_singleton, List.not_mem_nil, or_false] at hmem
    rcases hmem with h1 | h1 | h1 <;> exact Effect.noConfusion h1

/-- Witness for C15 on the default empty form. -/
theorem handleSubmit_validation_failure_witness :
    (handleSubmit none false false .resolved ⟨initialFormState, [], false⟩).1.errors
      = (validateClienteForm initialFormState.toArg).toState :=
  (handleSubmit_validation_failure none false false .resolved ⟨initialFormState, [], false⟩
    (by decide)).1

/-- C16, as stated, fails: the message `CPF e CEP inválidos` contains `CEP`, yet after the
status-400 failure the errors state is `{cpf: m}` only, with no `cep` entry. -/
theorem handleSubmit_400_both_markers_counterexample :
    includes "CPF e CEP inválidos" "CEP" = true ∧
    (handleSubmit none false false
      (.rejected ⟨some ⟨400, some ⟨some "CPF e CEP inválidos", none⟩⟩⟩)
      ⟨filledForm, [], false⟩).1.errors = [("cpf", some "CPF e CEP inválidos")] ∧
    List.lookup "cep" (handleSubmit none false false
      (.rejected ⟨some ⟨400, some ⟨some "CPF e CEP inválidos", none⟩⟩⟩)
      ⟨filledForm, [], false⟩).1.errors = none := by
  decide

/-- C16 (amended: `CEP` is looked for only when `CPF` is absent): after a status-400 failure
with message `m` (the non-empty `data.message`, else the non-empty `data.error`), a message
containing `CPF` makes the errors state `{cpf: m}`; one containing `CEP` and not `CPF` makes
it `{cep: m}`; one containing neither makes it empty and `m` is shown as a notification. -/
theorem handleSubmit_400_routing (clienteId : Option Nat) (onSuccess onClose : Bool)
    (s : HookState) (data : ResponseData) (m : String)
    (hvalid : validateClienteForm s.formData.toArg = [])
    (hm : orElse data.message data.error = some m) (hne : m ≠ "") :
    (includes m "CPF" = true →
      (handleSubmit clienteId onSuccess onClose (.rejected ⟨some ⟨400, some data⟩⟩) s).1.errors
        = [("cpf", some m)]) ∧
    (includes m "CPF" = false → includes m "CEP" = true →
      (handleSubmit clienteId onSuccess onClose (.rejected ⟨some ⟨400, some data⟩⟩) s).1.errors
        = [("cep", some m)]) ∧
    (includes m "CPF" = false → includes m "CEP" = false →
      (handleSubmit clienteId onSuccess onClose (.rejected ⟨some ⟨400, some data⟩⟩) s).1.errors
        = [] ∧
      Effect.toastError m ∈
        (handleSubmit clienteId onSuccess onClose (.rejected ⟨some ⟨400, some data⟩⟩) s).2) := by
  simp only [handleSubmit, handleSubmitEffects_rejected clienteId onSuccess onClose _ s hvalid,
    catchBlock_400 data m hm hne]
  refine ⟨?_, ?_, ?_⟩
  · intro h1
    rw [h1]
    cases (clienteId.getD 0 != 0) <;> rfl
  · intro h1 h2
    rw [h1, h2]
    cases (clienteId.getD 0 != 0) <;> rfl
  · intro h1 h2
    rw [h1, h2]
    cases (clienteId.getD 0 != 0)
    · exact ⟨rfl, by simp⟩
    · exact ⟨rfl, by simp⟩

/-- Witness for C16 (amended): the message `CPF já cadastrado` on an update of client 7. -/
theorem handleSubmit_400_routing_witness :
    (handleSubmit (some 7) true true
      (.rejected ⟨some ⟨400, some ⟨some "CPF já cadastrado", none⟩⟩⟩)
      ⟨filledForm, [], false⟩).1.errors = [("cpf", some "CPF já cadastrado")] :=
  (handleSubmit_400_routing (some 7) true true ⟨filledForm, [], false⟩
    ⟨some "CPF já cadastrado", none⟩ "CPF já cadastrado" filledForm_valid (by decide)
    (by decide)).1 (by decide)

/-- C17: when the call fails with anything but a status-400 response (another status, or
no response at all), `setErrors` is not called, so the errors state is what it was before the
submit, and the only notification is `'Erro ao salvar cliente'`. -/
theorem handleSubmit_other_failure (clienteId : Option Nat) (onSuccess onClose : Bool)
    (s : HookState) (error : ServiceError)
    (hvalid : validateClienteForm s.formData.toArg = [])
    (h400 : error.response.map (fun r => r.status) ≠ some 400) :
    (handleSubmit clienteId onSuccess onClose (.rejected error) s).1.errors = s.errors ∧
    (∀ e ∈ (handleSubmit clienteId onSuccess onClose (.rejected error) s).2,
      e.isSetErrors = false) ∧
    (handleSubmit clienteId onSuccess onClose (.rejected error) s).2.filter Effect.isToast
      = [.toastError "Erro ao salvar cliente"] := by
  simp only [handleSubmit, handleSubmitEffects_rejected clienteId onSuccess onClose _ s hvalid,
    catchBlock_not_400 error h400]
  cases (clienteId.getD 0 != 0)
  · refine ⟨rfl, ?_, rfl⟩
    intro e he
    simp only [List.cons_append, List.nil_append, Bool.false_eq_true, if_false, List.mem_cons,
      List.mem_singleton, List.not_mem_nil, or_false] at he
    rcases he with rfl | rfl | rfl | rfl | rfl | rfl <;> rfl
  · refine ⟨rfl, ?_, rfl⟩
    intro e he
    simp only [List.cons_append, List.nil_append, if_true, List.mem_cons,
      List.mem_singleton, List.not_mem_nil, or_false] at he
    rcases he with rfl | rfl | rfl | rfl | rfl | rfl <;> rfl

/-- Witness for C17: a status-500 response and a network failure on the filled-in form that
still shows an old phone error. -/
theorem handleSubmit_other_failure_witness :
    (handleSubmit none true true (.rejected ⟨some ⟨500, none⟩⟩)
      ⟨filledForm, [("telefone_0", some "Telefone deve ter no mínimo 10 dígitos")], false⟩).1.errors
      = [("telefone_0", some "Telefone deve ter no mínimo 10 dígitos")] ∧
    (handleSubmit none true true (.rejected ⟨none⟩) ⟨filledForm, [], false⟩).1.errors = [] :=
  ⟨(handleSubmit_other_failure none true true
      ⟨filledForm, [("telefone_0", some "Telefone deve ter no mínimo 10 dígitos")], false⟩
      ⟨some ⟨500, none⟩⟩ filledForm_valid (by decide)).1,
   (handleSubmit_other_failure none true true ⟨filledForm, [], false⟩ ⟨none⟩ filledForm_valid
      (by decide)).1⟩

/-- C18: for a form that passes validation and any failure of the call (status 400 with a
body, with or without a message, or without a body; any other status; no response), the
loading flag is `false` when `handleSubmit` has completed and `formData` is unchanged. -/
theorem handleSubmit_failure_resets_loading (clienteId : Option Nat) (onSuccess onClose : Bool)
    (s : HookState) (error : ServiceError)
    (hvalid : validateClienteForm s.formData.toArg = []) :
    (handleSubmit clienteId onSuccess onClose (.rejected error) s).1.loading = false ∧
    (handleSubmit clienteId onSuccess onClose (.rejected error) s).1.formData = s.formData := by
  simp only [handleSubmit, handleSubmitEffects_rejected clienteId onSuccess onClose _ s hvalid]
  refine ⟨?_, applyEffects_formData _ _⟩
  rw [applyEffects_append]
  rfl

/-- Witness for C18: a status-400 response without a body on the filled-in form. -/
theorem handleSubmit_failure_resets_loading_witness :
    (handleSubmit none true true (.rejected ⟨some ⟨400, none⟩⟩)
      ⟨filledForm, [], false⟩).1.loading = false :=
  (handleSubmit_failure_resets_loading none true true ⟨filledForm, [], false⟩
    ⟨some ⟨400, none⟩⟩ filledForm_valid).1

/-- C19, as stated, fails: invoked with the loading flag already `true` on a form that passes
validation, `handleSubmit` calls `clienteService.create` again and changes the flag. -/
theorem handleSubmit_while_loading_counterexample :
    Effect.serviceCreate filledForm ∈
      (handleSubmit none false false .resolved ⟨filledForm, [], true⟩).2 ∧
    (handleSubmit none false false .resolved ⟨filledForm, [], true⟩).1.loading = false := by
  decide

/-- C19 (amended): while the loading flag is `true` the save button that triggers
`handleSubmit` is disabled; `handleSubmit` itself does not read the flag, its effects are the
same whether the flag is `true` or `false`. -/
theorem submit_gated_by_button (viewMode : Bool) (clienteId : Option Nat)
    (onSuccess onClose : Bool) (outcome : ServiceOutcome) (s : HookState) :
    (s.loading = true → submitButtonEnabled viewMode s = false) ∧
    handleSubmitEffects clienteId onSuccess onClose outcome { s with loading := true }
      = handleSubmitEffects clienteId onSuccess onClose outcome { s with loading := false } := by
  refine ⟨?_, rfl⟩
  intro h
  simp [submitButtonEnabled, h]

/-- Witness for C19 (amended): the filled-in form with a submission in flight. -/
theorem submit_gated_by_button_witness :
    submitButtonEnabled false ⟨filledForm, [], true⟩ = false :=
  (submit_gated_by_button false none false false .resolved ⟨filledForm, [], true⟩).1 rfl

/-- C20: after a successful lookup (8 digits in the CEP, a body without `erro`) the callback
runs once through `updateEndereco`: `logradouro`, `bairro`, `cidade` (from `localidade`) and
`uf` hold the values of the response (the empty string for a missing one), `cep`, `numero`
and `complemento` are what they were, and no other field of the form changes. -/
theorem consultarCEP_success_merges (prev : FormData) (cep : String) (dados : DadosCep)
    (h8 : (stripNonDigits cep).length = 8) (herro : dados.erro = false) :
    applyCepEffects prev (consultarCEP cep true (.resolved (some dados)))
      = updateEndereco
          { logradouro := some (dados.logradouro.getD ""), bairro := some (dados.bairro.getD ""),
            cidade := some (dados.localidade.getD ""), uf := some (dados.uf.getD "") } prev ∧
    (applyCepEffects prev (consultarCEP cep true (.resolved (some dados)))).endereco
      = { cep := prev.endereco.cep
          logradouro := dados.logradouro.getD ""
          numero := prev.endereco.numero
          complemento := prev.endereco.complemento
          bairro := dados.bairro.getD ""
          cidade := dados.localidade.getD ""
          uf := dados.uf.getD "" } ∧
    (applyCepEffects prev (consultarCEP cep true (.resolved (some dados)))).nome = prev.nome ∧
    (applyCepEffects prev (consultarCEP cep true (.resolved (some dados)))).cpf = prev.cpf ∧
    (applyCepEffects prev (consultarCEP cep true (.resolved (some dados)))).dataNascimento
      = prev.dataNascimento ∧
    (applyCepEffects prev (consultarCEP cep true (.resolved (some dados)))).telefones
      = prev.telefones ∧
    (applyCepEffects prev (consultarCEP cep true (.resolved (some dados)))).emails
      = prev.emails := by
  have hor : ∀ v : Option String, orEmpty v = v.getD "" := by
    intro v
    unfold orEmpty
    cases v with
    | none => simp [isTruthy]
    | some x =>
      by_cases hx : isTruthy (some x) = true
      · simp [hx]
      · simp only [hx, Bool.false_eq_true, if_false, Option.getD_some]
        have hd : x.data = [] := by
          cases hd : x.data with
          | nil => rfl
          | cons c cs =>
            exact absurd (show isTruthy (some x) = true by
              show (!x.data.isEmpty) = true
              rw [hd]
              rfl) hx
        exact (String.ext hd).symm
  have he : consultarCEP cep true (.resolved (some dados))
      = [.setLoading true, .consultarCep (stripNonDigits cep),
          .onSuccess
            { logradouro := some (dados.logradouro.getD ""), bairro := some (dados.bairro.getD ""),
              cidade := some (dados.localidade.getD ""), uf := some (dados.uf.getD "") },
          .toastSuccess "CEP encontrado!", .setLoading false] := by
    unfold consultarCEP
    simp [h8, herro, hor]
  rw [he]
  exact ⟨rfl, rfl, rfl, rfl, rfl, rfl, rfl⟩

/-- Witness for C20: the default form with a typed CEP and a full response. -/
theorem consultarCEP_success_merges_witness :
    (applyCepEffects initialFormState
      (consultarCEP "01001-000" true
        (.resolved (some ⟨false, some "Praça da Sé", some "Sé", some "São Paulo", some "SP"⟩)))
      ).endereco
      = { cep := "", logradouro := "Praça da Sé", numero := "", complemento := "",
          bairro := "Sé", cidade := "São Paulo", uf := "SP" } :=
  (consultarCEP_success_merges initialFormState "01001-000"
    ⟨false, some "Praça da Sé", some "Sé", some "São Paulo", some "SP"⟩ (by decide) rfl).2.1

/-- C21: when the CEP does not hold exactly 8 digits, or the lookup call is rejected (or
resolves without a body), or the body carries `erro`, `consultarCEP` does not invoke the
callback, so the form state after the lookup, address included, is what it was before. -/
theorem consultarCEP_failure_keeps_address (prev : FormData) (cep : String) (onSuccess : Bool)
    (outcome : CepOutcome)
    (h : (stripNonDigits cep).length ≠ 8 ∨ outcome = .rejected ∨ outcome = .resolved none ∨
      ∃ dados, outcome = .resolved (some dados) ∧ dados.erro = true) :
    (∀ e ∈ consultarCEP cep onSuccess outcome, ∀ dados, e ≠ CepEffect.onSuccess dados) ∧
    applyCepEffects prev (consultarCEP cep onSuccess outcome) = prev ∧
    (applyCepEffects prev (consultarCEP cep onSuccess outcome)).endereco = prev.endereco := by
  have hlist : consultarCEP cep onSuccess outcome = [.toastError "CEP deve ter 8 dígitos"] ∨
      consultarCEP cep onSuccess outcome
        = [.setLoading true, .consultarCep (stripNonDigits cep),
            .toastError "Erro ao consultar CEP", .consoleError, .setLoading false] ∨
      consultarCEP cep onSuccess outcome
        = [.setLoading true, .consultarCep (stripNonDigits cep),
            .toastError "CEP não encontrado", .setLoading false] := by
    by_cases h8 : (stripNonDigits cep).length = 8
    · rcases h with h | h | h | ⟨dados, h, herro⟩
      · exact absurd h8 h
      · right; left
        rw [h]
        simp [consultarCEP, h8]
      · right; left
        rw [h]
        simp [consultarCEP, h8]
      · right; right
        rw [h]
        simp [consultarCEP, h8, herro]
    · left
      simp [consultarCEP, h8]
  rcases hlist with hl | hl | hl
  · rw [hl]
    refine ⟨?_, rfl, rfl⟩
    intro e he dados hd
    rw [hd] at he
    simp at he
  · rw [hl]
    refine ⟨?_, rfl, rfl⟩
    intro e he dados hd
    rw [hd] at he
    simp at he
  · rw [hl]
    refine ⟨?_, rfl, rfl⟩
    intro e he dados hd
    rw [hd] at he
    simp at he

/-- Witness for C21: a not-found answer for a well-formed CEP on the filled-in form. -/
theorem consultarCEP_failure_keeps_address_witness :
    applyCepEffects filledForm
      (consultarCEP "99999-999" true (.resolved (some ⟨true, none, none, none, none⟩)))
      = filledForm :=
  (consultarCEP_failure_keeps_address filledForm "99999-999" true
    (.resolved (some ⟨true, none, none, none, none⟩))
    (Or.inr (Or.inr (Or.inr ⟨⟨true, none, none, none, none⟩, rfl, rfl⟩)))).2.1

/-- C23: with a customer supplied, the form state after mounting holds the customer's `nome`,
`cpf`, `dataNascimento` and seven address fields, the empty string standing for a missing one
(also when `endereco` is missing); `telefones` / `emails` are the customer's lists when they
have an element and the single principal placeholder otherwise.  Without a customer the form
state is `initialFormState`. -/
theorem formDataOnMount_hydrates (c : Cliente) :
    (formDataOnMount (some c)).nome = c.nome.getD "" ∧
    (formDataOnMount (some c)).cpf = c.cpf.getD "" ∧
    (formDataOnMount (some c)).dataNascimento = c.dataNascimento.getD "" ∧
    (formDataOnMount (some c)).endereco
      = { cep := (c.endereco.bind (fun e => e.cep)).getD ""
          logradouro := (c.endereco.bind (fun e => e.logradouro)).getD ""
          numero := (c.endereco.bind (fun e => e.numero)).getD ""
          complemento := (c.endereco.bind (fun e => e.complemento)).getD ""
          bairro := (c.endereco.bind (fun e => e.bairro)).getD ""
          cidade := (c.endereco.bind (fun e => e.cidade)).getD ""
          uf := (c.endereco.bind (fun e => e.uf)).getD "" } ∧
    (∀ l, c.telefones = some l → l ≠ [] → (formDataOnMount (some c)).telefones = l) ∧
    (c.telefones = none ∨ c.telefones = some [] →
      (formDataOnMount (some c)).telefones
        = [{ numero := "", tipo := "CELULAR", principal := true }]) ∧
    (∀ l, c.emails = some l → l ≠ [] → (formDataOnMount (some c)).emails = l) ∧
    (c.emails = none ∨ c.emails = some [] →
      (formDataOnMount (some c)).emails = [{ enderecoEmail := "", principal := true }]) ∧
    formDataOnMount none = initialFormState := by
  refine ⟨orEmpty_eq_getD _, orEmpty_eq_getD _, orEmpty_eq_getD _, ?_, ?_, ?_, ?_, ?_, rfl⟩
  · simp only [formDataOnMount, hydrate, orEmpty_eq_getD]
  · intro l hl hne
    have hpos : l.length > 0 := List.length_pos.mpr hne
    simp [formDataOnMount, hydrate, hl, hpos]
  · rintro (h | h) <;> simp [formDataOnMount, hydrate, h]
  · intro l hl hne
    have hpos : l.length > 0 := List.length_pos.mpr hne
    simp [formDataOnMount, hydrate, hl, hpos]
  · rintro (h | h) <;> simp [formDataOnMount, hydrate, h]

/-- Witness for C23: a customer with a name, one phone, no address and an empty e-mail
list. -/
theorem formDataOnMount_hydrates_witness :
    (formDataOnMount (some ⟨some 7, some "Ana", none, none, none,
        some [{ numero := "(11) 91234-5678", tipo := "COMERCIAL", principal := false }],
        some []⟩)).telefones
      = [{ numero := "(11) 91234-5678", tipo := "COMERCIAL", principal := false }] ∧
    (formDataOnMount (some ⟨some 7, some "Ana", none, none, none,
        some [{ numero := "(11) 91234-5678", tipo := "COMERCIAL", principal := false }],
        some []⟩)).emails
      = [{ enderecoEmail := "", principal := true }] :=
  ⟨(formDataOnMount_hydrates _).2.2.2.2.1 _ rfl (by decide),
   (formDataOnMount_hydrates _).2.2.2.2.2.2.2.1 (Or.inr rfl)⟩

/-- C25: `handlePageChange` sets the page to `n` when `0 <= n < totalPages` and otherwise
leaves the state as it was. -/
theorem handlePageChange_in_range_only (n : Int) (s : ListState) :
    (0 ≤ n ∧ n < s.totalPages → handlePageChange n s = { s with page := n }) ∧
    (¬ (0 ≤ n ∧ n < s.totalPages) → handlePageChange n s = s) := by
  unfold handlePageChange
  constructor
  · rintro ⟨h1, h2⟩
    simp [h1, h2]
  · intro h
    by_cases h1 : 0 ≤ n
    · have h2 : ¬ n < s.totalPages := fun h2 => h ⟨h1, h2⟩
      simp [h1, h2]
    · simp [h1]

/-- Witness for C25: page 2 of 3 is accepted, page 3 of 3 and page -1 are ignored. -/
theorem handlePageChange_in_range_only_witness :
    handlePageChange 2 ⟨0, 3⟩ = ⟨2, 3⟩ ∧ handlePageChange 3 ⟨0, 3⟩ = ⟨0, 3⟩ ∧
    handlePageChange (-1) ⟨0, 3⟩ = ⟨0, 3⟩ :=
  ⟨(handlePageChange_in_range_only 2 ⟨0, 3⟩).1 (by decide),
   (handlePageChange_in_range_only 3 ⟨0, 3⟩).2 (by decide),
   (handlePageChange_in_range_only (-1) ⟨0, 3⟩).2 (by decide)⟩

/-- C27: on a list of exactly two phones, set-principal at index 1 followed by remove at
index 0 leaves the single element that is the original second phone with
`principal = true`. -/
theorem setPrincipal_then_remove_first (prev : FormData) (a b : Telefone)
    (h : prev.telefones = [a, b]) :
    (removeTelefone 0 (handleTelefonePrincipalChange 1 prev)).telefones
      = [{ b with principal := true }] := by
  simp only [removeTelefone, handleTelefonePrincipalChange, h]
  rfl

/-- Witness for C27: the default form after one phone was added. -/
theorem setPrincipal_then_remove_first_witness :
    (removeTelefone 0 (handleTelefonePrincipalChange 1 (addTelefone initialFormState))).telefones
      = [{ numero := "", tipo := "CELULAR", principal := true }] :=
  setPrincipal_then_remove_first (addTelefone initialFormState) _ _ rfl

/-- C28: the remainder rule of `validarCPF` is the standard CPF rule: for every sum,
`(sum * 10) mod 11` with 10 or 11 replaced by 0 is 0 when `sum mod 11 < 2` and
`11 - sum mod 11` otherwise; and `(sum * 10) mod 11` is never 11. -/
theorem restoDe_standard_rule (soma : Nat) :
    restoDe soma = (if soma % 11 < 2 then 0 else 11 - soma % 11) ∧ (soma * 10) % 11 ≠ 11 := by
  refine ⟨?_, by omega⟩
  rw [restoDe_eq, Nat.mul_mod]
  have hr : soma % 11 < 11 := Nat.mod_lt _ (by decide)
  generalize soma % 11 = r at hr
  unfold tenOrElevenToZero
  interval_cases r <;> decide

/-- C22: `handleChange` gives `formData[name]` the value and leaves every other field of
`formData` as it was; `handleEnderecoChange` gives `formData.endereco[name]` the value and
leaves the other address fields and every top-level field as they were.  In both cases no
message is left under the key `name` (a message held there is replaced by `undefined`) and
what `errors` holds under any other key is unchanged. -/
theorem field_setters_frame (s : HookState) (value : String) :
    (∀ name : CampoPessoal,
      (handleChange name value s).formData.get name = value ∧
      (∀ other, other ≠ name →
        (handleChange name value s).formData.get other = s.formData.get other) ∧
      (handleChange name value s).formData.endereco = s.formData.endereco ∧
      (handleChange name value s).formData.telefones = s.formData.telefones ∧
      (handleChange name value s).formData.emails = s.formData.emails ∧
      isTruthy ((handleChange name value s).errors.get? name.name) = false ∧
      (isTruthy (s.errors.get? name.name) = true →
        (handleChange name value s).errors.get? name.name = none) ∧
      (∀ k, k ≠ name.name →
        (handleChange name value s).errors.get? k = s.errors.get? k)) ∧
    (∀ name : CampoEndereco,
      (handleEnderecoChange name value s).formData.endereco.get name = value ∧
      (∀ other, other ≠ name →
        (handleEnderecoChange name value s).formData.endereco.get other
          = s.formData.endereco.get other) ∧
      (handleEnderecoChange name value s).formData.nome = s.formData.nome ∧
      (handleEnderecoChange name value s).formData.cpf = s.formData.cpf ∧
      (handleEnderecoChange name value s).formData.dataNascimento
        = s.formData.dataNascimento ∧
      (handleEnderecoChange name value s).formData.telefones = s.formData.telefones ∧
      (handleEnderecoChange name value s).formData.emails = s.formData.emails ∧
      isTruthy ((handleEnderecoChange name value s).errors.get? name.name) = false ∧
      (isTruthy (s.errors.get? name.name) = true →
        (handleEnderecoChange name value s).errors.get? name.name = none) ∧
      (∀ k, k ≠ name.name →
        (handleEnderecoChange name value s).errors.get? k = s.errors.get? k)) := by
  constructor
  · intro name
    rw [handleChange_errors, handleChange_formData]
    obtain ⟨h1, h2, h3⟩ := errors_after_clear s.errors name.name
    refine ⟨?_, ?_, ?_, ?_, ?_, h1, h2, h3⟩
    · cases name <;> rfl
    · intro other ho
      cases name <;> cases other <;> first | rfl | exact absurd rfl ho
    · cases name <;> rfl
    · cases name <;> rfl
    · cases name <;> rfl
  · intro name
    rw [handleEnderecoChange_errors, handleEnderecoChange_formData]
    obtain ⟨h1, h2, h3⟩ := errors_after_clear s.errors name.name
    refine ⟨?_, ?_, rfl, rfl, rfl, rfl, rfl, h1, h2, h3⟩
    · cases name <;> rfl
    · intro other ho
      cases name <;> cases other <;> first | rfl | exact absurd rfl ho

/-- Witness for C22: typing a name while `nome` and `cpf` errors are shown clears the first
and keeps the second. -/
theorem field_setters_frame_witness :
    (handleChange .nome "Ana"
      ⟨initialFormState, [("nome", some "Nome é obrigatório"), ("cpf", some "CPF inválido")],
        false⟩).errors.get? "nome" = none ∧
    (handleChange .nome "Ana"
      ⟨initialFormState, [("nome", some "Nome é obrigatório"), ("cpf", some "CPF inválido")],
        false⟩).errors.get? "cpf" = some "CPF inválido" :=
  ⟨((field_setters_frame
      ⟨initialFormState, [("nome", some "Nome é obrigatório"), ("cpf", some "CPF inválido")],
        false⟩ "Ana").1 .nome).2.2.2.2.2.2.1 (by decide),
   ((field_setters_frame
      ⟨initialFormState, [("nome", some "Nome é obrigatório"), ("cpf", some "CPF inválido")],
        false⟩ "Ana").1 .nome).2.2.2.2.2.2.2 "cpf" (by decide)⟩

/-- C30: each phone operation, applied through `setFormData`, leaves `nome`, `cpf`,
`dataNascimento`, `endereco`, `emails` and the whole `errors` state as they were (so what is
stored under any `telefone_<j>` stays under that key); each e-mail operation likewise leaves
everything but `emails` as it was. -/
theorem collection_ops_frame (s : HookState) (index : Nat) (campoT : TelefoneCampo)
    (valorT : campoT.Valor) (campoE : EmailCampo) (valorE : campoE.Valor) :
    (∀ op ∈ [addTelefone, removeTelefone index, handleTelefoneChange index campoT valorT,
        handleTelefonePrincipalChange index],
      (s.setFormData op).errors = s.errors ∧
      (∀ j : Nat, List.lookup ("telefone_" ++ toString j) (s.setFormData op).errors
        = List.lookup ("telefone_" ++ toString j) s.errors) ∧
      (s.setFormData op).loading = s.loading ∧
      (s.setFormData op).formData.nome = s.formData.nome ∧
      (s.setFormData op).formData.cpf = s.formData.cpf ∧
      (s.setFormData op).formData.dataNascimento = s.formData.dataNascimento ∧
      (s.setFormData op).formData.endereco = s.formData.endereco ∧
      (s.setFormData op).formData.emails = s.formData.emails) ∧
    (∀ op ∈ [addEmail, removeEmail index, handleEmailChange index campoE valorE,
        handleEmailPrincipalChange index],
      (s.setFormData op).errors = s.errors ∧
      (∀ j : Nat, List.lookup ("email_" ++ toString j) (s.setFormData op).errors
        = List.lookup ("email_" ++ toString j) s.errors) ∧
      (s.setFormData op).loading = s.loading ∧
      (s.setFormData op).formData.nome = s.formData.nome ∧
      (s.setFormData op).formData.cpf = s.formData.cpf ∧
      (s.setFormData op).formData.dataNascimento = s.formData.dataNascimento ∧
      (s.setFormData op).formData.endereco = s.formData.endereco ∧
      (s.setFormData op).formData.telefones = s.formData.telefones) := by
  constructor
  · intro op hop
    simp only [List.mem_cons, List.mem_singleton, List.not_mem_nil, or_false] at hop
    rcases hop with rfl | rfl | rfl | rfl <;>
      exact ⟨rfl, fun _ => rfl, rfl, rfl, rfl, rfl, rfl, rfl⟩
  · intro op hop
    simp only [List.mem_cons, List.mem_singleton, List.not_mem_nil, or_false] at hop
    rcases hop with rfl | rfl | rfl | rfl <;>
      exact ⟨rfl, fun _ => rfl, rfl, rfl, rfl, rfl, rfl, rfl⟩

/-- Witness for C30: removing the first of two phones keeps the error stored under
`telefone_1`. -/
theorem collection_ops_frame_witness :
    (HookState.setFormData (removeTelefone 0)
      ⟨addTelefone initialFormState,
        [("telefone_1", some "Telefone deve ter no mínimo 10 dígitos")], false⟩).errors
      = [("telefone_1", some "Telefone deve ter no mínimo 10 dígitos")] :=
  ((collection_ops_frame
      ⟨addTelefone initialFormState,
        [("telefone_1", some "Telefone deve ter no mínimo 10 dígitos")], false⟩
      0 .numero "" .enderecoEmail "").1 (removeTelefone 0)
    (List.mem_cons_of_mem _ (List.mem_cons_self _ _))).1

/-- C24, as stated, fails: on the page holding one customer without `nome` whose CPF is `1`,
the term `1` is a literal substring of the CPF, yet `filteredClientes` raises on the missing
`nome` (whatever the lower-casing) and there is no filtered list for the customer to be in. -/
theorem filteredClientes_missing_nome_counterexample :
    (∀ toLowerCase : String → String,
      filteredClientes toLowerCase [⟨some 9, none, some "1", none, none, none, none⟩] "1"
        = none) ∧
    (∀ toLowerCase : String → String,
      SearchMatch toLowerCase "1" ⟨some 9, none, some "1", none, none, none, none⟩) :=
  ⟨fun _ => rfl, fun _ => Or.inr (Or.inr (Or.inl ⟨"1", rfl, [], [], rfl⟩))⟩

/-- C24 (amended to the pages on which the filter returns): `filteredClientes` returns a list
exactly when the term is empty or every customer of the page has a `nome` and, unless the term
is a case-insensitive substring of that name, a `cpf`; whenever it returns, a customer is in
the list exactly when it is on the page and the term is empty, or a case-insensitive substring
of its name, or a literal substring of its CPF, or a case-insensitive substring of one of its
e-mail addresses, and the list keeps the order of the page. -/
theorem filteredClientes_spec (toLowerCase : String → String) (clientes : List Cliente)
    (searchTerm : String) :
    ((∃ l, filteredClientes toLowerCase clientes searchTerm = some l) ↔
      searchTerm = "" ∨
      ∀ c ∈ clientes, ∃ nome, c.nome = some nome ∧
        (IsSubstring (toLowerCase searchTerm) (toLowerCase nome) ∨ c.cpf ≠ none)) ∧
    (∀ l, filteredClientes toLowerCase clientes searchTerm = some l →
      (∀ c, c ∈ l ↔ c ∈ clientes ∧ SearchMatch toLowerCase searchTerm c) ∧
      l.Sublist clientes) := by
  constructor
  · constructor
    · rintro ⟨l, hl⟩
      obtain ⟨hall, _⟩ := (filterOrRaise_eq_some_iff _ _ l).mp hl
      by_cases he : searchTerm = ""
      · exact Or.inl he
      · right
        intro c hc
        rcases (matchesSearch_returns_iff toLowerCase searchTerm c).mp (hall c hc) with h | h
        · exact absurd h he
        · exact h
    · intro h
      refine ⟨_, (filterOrRaise_eq_some_iff _ _ _).mpr ⟨?_, rfl⟩⟩
      intro c hc
      apply (matchesSearch_returns_iff toLowerCase searchTerm c).mpr
      rcases h with h | h
      · exact Or.inl h
      · exact Or.inr (h c hc)
  · intro l hl
    obtain ⟨hall, hr⟩ := (filterOrRaise_eq_some_iff _ _ l).mp hl
    refine ⟨?_, ?_⟩
    · intro c
      rw [hr, List.mem_filter]
      constructor
      · rintro ⟨hc, hq⟩
        obtain ⟨b, hb⟩ := hall c hc
        rw [hb] at hq
        exact ⟨hc, (matchesSearch_some_iff toLowerCase searchTerm c b hb).mp hq⟩
      · rintro ⟨hc, hm⟩
        obtain ⟨b, hb⟩ := hall c hc
        refine ⟨hc, ?_⟩
        rw [hb]
        exact (matchesSearch_some_iff toLowerCase searchTerm c b hb).mpr hm
    · rw [hr]
      exact List.filter_sublist _

/-- Witness for C24 (amended): a page of two customers, the first without `cpf`, searched for
`an`; all strings are ASCII, so `asciiLowerCase` is `toLowerCase` on them.  The name of the
first matches, so its missing `cpf` is never read; the second has neither a matching name,
CPF nor e-mail. -/
theorem filteredClientes_spec_witness :
    (∀ c, c ∈ [(⟨some 1, some "Ana", none, none, none, none,
          some [{ enderecoEmail := "ana@B.com", principal := true }]⟩ : Cliente)] ↔
      c ∈ [⟨some 1, some "Ana", none, none, none, none,
            some [{ enderecoEmail := "ana@B.com", principal := true }]⟩,
          ⟨some 2, some "Bob", some "11144477735", none, none, none, none⟩] ∧
      SearchMatch asciiLowerCase "an" c) ∧
    List.Sublist
      [(⟨some 1, some "Ana", none, none, none, none,
          some [{ enderecoEmail := "ana@B.com", principal := true }]⟩ : Cliente)]
      [⟨some 1, some "Ana", none, none, none, none,
            some [{ enderecoEmail := "ana@B.com", principal := true }]⟩,
          ⟨some 2, some "Bob", some "11144477735", none, none, none, none⟩] :=
  (filteredClientes_spec asciiLowerCase
    [⟨some 1, some "Ana", none, none, none, none,
        some [{ enderecoEmail := "ana@B.com", principal := true }]⟩,
      ⟨some 2, some "Bob", some "11144477735", none, none, none, none⟩] "an").2
    [⟨some 1, some "Ana", none, none, none, none,
        some [{ enderecoEmail := "ana@B.com", principal := true }]⟩] rfl

/-- C26: when the digit-only form of `s` is the eleven digits `d0..d10`, `formatarCPF s` is
the 14-character string `d0d1d2.d3d4d5.d6d7d8-d9d10` and `removerMascaraCPF` gives the eleven
digits back. -/
theorem formatarCPF_mask (s : String) (d0 d1 d2 d3 d4 d5 d6 d7 d8 d9 d10 : Char)
    (h : stripNonDigits s = [d0, d1, d2, d3, d4, d5, d6, d7, d8, d9, d10]) :
    formatarCPF s
      = String.mk [d0, d1, d2, '.', d3, d4, d5, '.', d6, d7, d8, '-', d9, d10] ∧
    (formatarCPF s).length = 14 ∧
    removerMascaraCPF (formatarCPF s)
      = String.mk [d0, d1, d2, d3, d4, d5, d6, d7, d8, d9, d10] := by
  have hd : ∀ c ∈ [d0, d1, d2, d3, d4, d5, d6, d7, d8, d9, d10], isDigit c = true := by
    intro c hc
    rw [← h] at hc
    exact mem_stripNonDigits hc
  have hall : [d0, d1, d2, d3, d4, d5, d6, d7, d8, d9, d10].all isDigit = true :=
    List.all_eq_true.mpr hd
  have hf : formatarCPF s
      = String.mk [d0, d1, d2, '.', d3, d4, d5, '.', d6, d7, d8, '-', d9, d10] := by
    unfold formatarCPF
    simp only [h, replaceCpfPattern, hall, if_true]
    rfl
  have hdot : isDigit '.' = false := by decide
  have hdash : isDigit '-' = false := by decide
  refine ⟨hf, ?_, ?_⟩
  · rw [hf]
    rfl
  · rw [hf]
    unfold removerMascaraCPF stripNonDigits
    show String.mk (List.filter isDigit
      [d0, d1, d2, '.', d3, d4, d5, '.', d6, d7, d8, '-', d9, d10]) = _
    simp only [List.filter_cons, hdot, hdash, hd d0 (by simp), hd d1 (by simp),
      hd d2 (by simp), hd d3 (by simp), hd d4 (by simp), hd d5 (by simp), hd d6 (by simp),
      hd d7 (by simp), hd d8 (by simp), hd d9 (by simp), hd d10 (by simp), if_true,
      Bool.false_eq_true, if_false, List.filter_nil]

/-- Witness for C26 on the masked number `529.982.247-25`. -/
theorem formatarCPF_mask_witness :
    formatarCPF "529.982.247-25" = "529.982.247-25" ∧
    removerMascaraCPF (formatarCPF "529.982.247-25") = "52998224725" :=
  ⟨(formatarCPF_mask "529.982.247-25" '5' '2' '9' '9' '8' '2' '2' '4' '7' '2' '5'
      (by decide)).1,
   (formatarCPF_mask "529.982.247-25" '5' '2' '9' '9' '8' '2' '2' '4' '7' '2' '5'
      (by decide)).2.2⟩

/-- C29: two forms that differ only in the `principal` values of their phones and e-mails
get the same error map; in particular one passes validation exactly when the other does,
whatever the number of principal items. -/
theorem validate_ignores_principal (f g : FormDataArg) (h : SameUpToPrincipal f g) :
    validateClienteForm f = validateClienteForm g ∧
    (validateClienteForm f = [] ↔ validateClienteForm g = []) := by
  obtain ⟨h1, h2, h3, h4, h5, h6⟩ := h
  have ht : f.telefones.map (List.map (fun t => t.numero))
      = g.telefones.map (List.map (fun t => t.numero)) := by
    have := congrArg (Option.map (List.map Prod.fst)) h5
    simpa [Option.map_map, List.map_map, Function.comp] using this
  have heq : validateClienteForm f = validateClienteForm g := by
    rw [validateClienteForm_eq, validateClienteForm_eq, scalarRules_congr f g h1 h2 h3 h4,
      telefonesRule_congr f.telefones g.telefones _ ht,
      emailsRule_congr f.emails g.emails _ h6]
  exact ⟨heq, by rw [heq]⟩

/-- Witness for C29: the filled-in form with its phone and e-mail both unmarked as
principal still passes validation. -/
theorem validate_ignores_principal_witness :
    validateClienteForm
        { filledForm.toArg with
          telefones :=
            some [{ numero := "(11) 91234-5678", tipo := "CELULAR", principal := false }],
          emails := some [{ enderecoEmail := "ana@example.com", principal := false }] }
      = validateClienteForm filledForm.toArg :=
  (validate_ignores_principal _ _ ⟨rfl, rfl, rfl, rfl, rfl, rfl⟩).1

end ClienteForm
